import Mathlib

/-!
Multi-tenant notes service: tenant isolation and plan limits.

A shallow embedding of `src/server.js` (the Express API) and of the store
operations of `src/app.js` (the browser-side harness), followed by theorems
about tenant isolation, plan limits, the upgrade operation, validation and
escaping of note text, the frames of update and delete, authentication, and
the browser-side token.

Conventions of the embedding

* The three module-level arrays `USERS`, `TENANTS`, `NOTES` of `server.js`
  are the fields of `Store`; a handler is a function from a store to a
  response and a new store.  In-place mutation of an array element
  (`NOTES[i].title = ...`) is `modifyAt` at that index.
* What the request needs from outside the repository (the `jsonwebtoken`,
  `bcryptjs`, `uuid` and `validator` packages, the clock) is a field of `Env`.
* `express-validator` chains run before `authenticateJWT` and only record
  errors and rewrite the body; the handler looks at the recorded errors after
  authentication.  The rate limiters and CORS are left out.
* The handlers of `Server` take note bodies whose `title` and `content` are
  strings or missing; the section `Raw` embeds them for bodies whose fields
  are any JSON value, and the two agree on string fields.
* JavaScript strings are Lean strings, `===` on strings is equality,
  `Array.prototype.filter / find` are `List.filter / find?`, `findIndex`
  returns `none` for `-1`, and `splice(i, 1)` is `List.eraseIdx`.
* In `app.js` the module-level variables are the fields of `App.State`, a
  thrown `Error` is `Except.error` with its message, and a function that
  throws leaves the state as it was when it threw.
-/

namespace SaasNotes

/-! ## Data model of `server.js` -/

/-- Element of `USERS`. -/
structure User where
  id : String
  email : String
  password : String
  role : String
  tenant : String
  name : String
  createdAt : String
  lastLogin : Option String
  active : Bool
deriving DecidableEq, Repr

/-- Element of `TENANTS`; `upgradedAt` is absent until the upgrade handler sets it. -/
structure Tenant where
  slug : String
  name : String
  plan : String
  noteLimit : Int
  createdAt : String
  active : Bool
  upgradedAt : Option String
deriving DecidableEq, Repr

/-- Element of `NOTES`. -/
structure Note where
  id : String
  title : String
  content : String
  tenant : String
  userId : String
  createdAt : String
  updatedAt : String
deriving DecidableEq, Repr

/-- The in-memory database of `server.js`. -/
structure Store where
  USERS : List User
  TENANTS : List Tenant
  NOTES : List Note
deriving DecidableEq, Repr

/-- Claims carried by a token (`payload` in `SecurityUtils.generateJWT`). -/
structure TokenPayload where
  id : String
  email : String
  role : String
  tenant : String
  iat : Nat
  exp : Nat
deriving DecidableEq, Repr

/-- What a request takes from outside the repository.  `jwtVerify tok` is
`jwt.verify(tok, JWT_SECRET, ...)` at the time of the request, `none` when it
throws; `clock k` is the `k`-th reading of the clock during the request, in
milliseconds; `toISOString` renders a reading as `new Date(ms).toISOString()`. -/
structure Env where
  jwtVerify : String → Option TokenPayload
  jwtSign : TokenPayload → String
  bcryptCompare : String → String → Bool
  isEmail : String → Bool
  normalizeEmail : String → String
  uuidv4 : String
  clock : Nat → Nat
  toISOString : Nat → String

/-! ## Responses -/

/-- The `usage` object of `GET /notes`. -/
structure Usage where
  current : Nat
  limit : Int
  canCreateMore : Bool
  planType : String
deriving DecidableEq, Repr

/-- The `user` summary of the login response. -/
structure UserSummary where
  id : String
  email : String
  name : String
  role : String
  tenant : String
deriving DecidableEq, Repr

/-- The `tenant` summary of the login response. -/
structure TenantSummary where
  slug : String
  name : String
  plan : String
  noteLimit : Int
deriving DecidableEq, Repr

/-- Everything a JSON response carries besides `success`, `error` and `message`. -/
inductive ResponseData where
  | none
  | details (errors : List String)
  | userRole (role : String)
  | login (token : String) (user : UserSummary) (tenant : TenantSummary)
  | notes (notes : List Note) (count : Nat) (tenant : Tenant) (usage : Usage)
  | note (note : Note)
  | limit (currentCount : Nat) (limit : Int) (plan : String) (upgradeRequired : Bool)
  | tenant (tenant : Tenant)
deriving DecidableEq, Repr

/-- One `res.status(..).json(..)`. -/
structure Response where
  status : Nat
  success : Bool
  error : Option String
  message : Option String
  data : ResponseData
deriving DecidableEq, Repr

/-- Failure body `{ success: false, error, message }`. -/
def failure (status : Nat) (error message : String) : Response :=
  { status := status, success := false, error := some error, message := some message,
    data := ResponseData.none }

/-- The notes a response carries. -/
def Response.carriedNotes (r : Response) : List Note :=
  match r.data with
  | ResponseData.notes ns _ _ _ => ns
  | ResponseData.note n => [n]
  | _ => []

/-! ## Seed state -/

def seedPasswordHash : String :=
  "$2a$12$LQv3c1yqBWVHxkd0LHAkCOYz6TtxMQJqhN8/LGgR6.EX9vZLjzs1i"

def seedUsers : List User :=
  [ { id := "user_admin_acme", email := "admin@acme.test", password := seedPasswordHash,
      role := "Admin", tenant := "acme", name := "Sarah Johnson",
      createdAt := "2025-01-01T00:00:00.000Z", lastLogin := none, active := true },
    { id := "user_member_acme", email := "user@acme.test", password := seedPasswordHash,
      role := "Member", tenant := "acme", name := "Mike Chen",
      createdAt := "2025-01-01T00:00:00.000Z", lastLogin := none, active := true },
    { id := "user_admin_globex", email := "admin@globex.test", password := seedPasswordHash,
      role := "Admin", tenant := "globex", name := "Emma Davis",
      createdAt := "2025-01-01T00:00:00.000Z", lastLogin := none, active := true },
    { id := "user_member_globex", email := "user@globex.test", password := seedPasswordHash,
      role := "Member", tenant := "globex", name := "Alex Kumar",
      createdAt := "2025-01-01T00:00:00.000Z", lastLogin := none, active := true } ]

def seedTenants : List Tenant :=
  [ { slug := "acme", name := "Acme", plan := "free", noteLimit := 3,
      createdAt := "2025-01-01T00:00:00.000Z", active := true, upgradedAt := none },
    { slug := "globex", name := "Globex", plan := "free", noteLimit := 3,
      createdAt := "2025-01-01T00:00:00.000Z", active := true, upgradedAt := none } ]

def seedNotes : List Note :=
  [ { id := "note_sample_acme_1", title := "Welcome to Acme Notes",
      content := "This is a sample note for Acme Corporation. Only Acme users can see this note.",
      tenant := "acme", userId := "user_admin_acme",
      createdAt := "2025-09-01T10:00:00.000Z", updatedAt := "2025-09-01T10:00:00.000Z" },
    { id := "note_sample_globex_1", title := "Welcome to Globex Notes",
      content := "This is a sample note for Globex Corporation. Only Globex users can see this note.",
      tenant := "globex", userId := "user_admin_globex",
      createdAt := "2025-09-01T11:00:00.000Z", updatedAt := "2025-09-01T11:00:00.000Z" } ]

/-- State of `server.js` when the module has loaded. -/
def seedStore : Store :=
  { USERS := seedUsers, TENANTS := seedTenants, NOTES := seedNotes }

/-! ## `SecurityUtils.sanitizeInput` and the validators -/

/-- The call `s.replace(/c/g, r)` for a one-character pattern. -/
def replaceAll (c : Char) (r : List Char) : List Char → List Char
  | [] => []
  | x :: xs => if x = c then r ++ replaceAll c r xs else x :: replaceAll c r xs

/-- Method `SecurityUtils.sanitizeInput` on a string: six global replacements in sequence. -/
def sanitizeInput (input : String) : String :=
  String.mk
    (replaceAll '\\' "&#x5C;".data
      (replaceAll '\'' "&#x27;".data
        (replaceAll '"' "&quot;".data
          (replaceAll '>' "&gt;".data
            (replaceAll '<' "&lt;".data
              (replaceAll '&' "&amp;".data input.data))))))

/-- The class `\s` of JavaScript regular expressions, which `validator`'s `trim` strips. -/
def isJsWhitespace (c : Char) : Bool :=
  let n := c.toNat
  n = 0x09 || n = 0x0A || n = 0x0B || n = 0x0C || n = 0x0D || n = 0x20 || n = 0xA0 ||
  n = 0x1680 || (0x2000 ≤ n && n ≤ 0x200A) || n = 0x2028 || n = 0x2029 || n = 0x202F ||
  n = 0x205F || n = 0x3000 || n = 0xFEFF

/-- The `.trim()` sanitizer: whitespace removed at both ends. -/
def trim (s : String) : String :=
  String.mk ((s.data.dropWhile isJsWhitespace).reverse.dropWhile isJsWhitespace).reverse

/-- The characters `isLength` leaves out of its count: the variation
selectors U+FE0E and U+FE0F (`presentationSequences` in `validator`). -/
def isPresentationSelector (c : Char) : Bool :=
  c.toNat = 0xFE0E || c.toNat = 0xFE0F

/-- The length `isLength` of `validator` compares with its bounds:
`str.length - presentationSequences.length - surrogatePairs.length`, that is
the number of code points (a surrogate pair counts once) less the number of
variation selectors U+FE0E and U+FE0F. -/
def validatorLength (s : String) : Nat :=
  s.length - (s.data.filter isPresentationSelector).length

/-- The `.isLength({ min, max })` validator; `max` may be left out. -/
def isLength (min : Nat) (max : Option Nat) (s : String) : Bool :=
  decide (min ≤ validatorLength s) &&
    (match max with
     | none => true
     | some m => decide (validatorLength s ≤ m))

/-- The `.notEmpty()` validator. -/
def notEmpty (s : String) : Bool :=
  decide (s.length ≠ 0)

/-- The `.isAlpha()` validator (locale `en-US`): one or more letters `A-Z`, `a-z`. -/
def isAlpha (s : String) : Bool :=
  decide (s.length ≠ 0) &&
    s.data.all (fun c => (decide ('a' ≤ c) && decide (c ≤ 'z')) || (decide ('A' ≤ c) && decide (c ≤ 'Z')))

/-- JSON body of a note request whose `title` and `content` are strings or
missing: the two fields the handlers read, and whatever else the client sent.
Bodies whose fields are other JSON values are `Raw.NoteBody`. -/
structure NoteBody where
  title : Option String
  content : Option String
  extra : List (String × String)
deriving DecidableEq, Repr

/-- Chain `body(f).trim().isLength({ min: 1, max })` of `POST /notes`: the
rewritten field (a missing field is validated as the empty string) and whether
it passed. -/
def requiredField (max : Nat) (v : Option String) : String × Bool :=
  let t := trim (v.getD "")
  (t, isLength 1 (some max) t)

/-- Chain `body(f).optional().trim().isLength({ min: 1, max })` of
`PUT /notes/:id`: a missing field is skipped and stays missing. -/
def optionalField (max : Nat) (v : Option String) : Option String × Bool :=
  match v with
  | none => (none, true)
  | some s => (some (trim s), isLength 1 (some max) (trim s))

/-- Shape `errors.array()` takes here: the messages of the failed chains, in order. -/
def collectErrors (checks : List (Bool × String)) : List String :=
  (checks.filter (fun c => !c.1)).map (fun c => c.2)

/-- Response of every handler when `errors.isEmpty()` is false. -/
def validationError (message : String) (errors : List String) : Response :=
  { status := 400, success := false, error := some "VALIDATION_ERROR", message := some message,
    data := ResponseData.details errors }

/-! ## Array idioms -/

/-- Method `Array.prototype.findIndex`, with `none` for `-1`. -/
def findIndex {α : Type} (p : α → Bool) : List α → Option Nat
  | [] => none
  | x :: xs => if p x then some 0 else (findIndex p xs).map (· + 1)

/-- In-place assignment to the fields of the element at index `i`. -/
def modifyAt {α : Type} (f : α → α) : Nat → List α → List α
  | _, [] => []
  | 0, x :: xs => f x :: xs
  | i + 1, x :: xs => x :: modifyAt f i xs

/-! ## Middleware and handlers of `server.js` -/

namespace Server

/-- Method `SecurityUtils.verifyJWT`: the payload when `jwt.verify` returns, `none`
for `{ valid: false }` when it throws. -/
def verifyJWT (env : Env) (token : String) : Option TokenPayload :=
  env.jwtVerify token

/-- Middleware `authenticateJWT`: the response it sends itself, or the pair
`(req.user, req.tenant)` it attaches to the request. -/
def authenticateJWT (env : Env) (s : Store) (authorization : Option String) :
    Except Response (User × Tenant) :=
  match authorization with
  | none =>
    .error (failure 401 "AUTHENTICATION_REQUIRED" "Authorization header with Bearer token is required")
  | some authHeader =>
    if !("Bearer ".data.isPrefixOf authHeader.data) then
      .error (failure 401 "AUTHENTICATION_REQUIRED" "Authorization header with Bearer token is required")
    else
      match verifyJWT env (String.mk (authHeader.data.drop 7)) with
      | none => .error (failure 401 "INVALID_TOKEN" "Invalid or expired JWT token")
      | some payload =>
        match s.USERS.find? (fun u => u.id == payload.id && u.active),
              s.TENANTS.find? (fun t => t.slug == payload.tenant && t.active) with
        | some user, some tenant =>
          if user.tenant ≠ tenant.slug then
            .error (failure 403 "TENANT_MISMATCH" "User does not belong to the specified tenant")
          else
            .ok (user, tenant)
        | _, _ =>
          .error (failure 401 "USER_OR_TENANT_NOT_FOUND" "User or tenant not found or inactive")

/-- Response of `requireAdmin` when it refuses. -/
def insufficientPermissions (userRole : String) : Response :=
  { status := 403, success := false, error := some "INSUFFICIENT_PERMISSIONS",
    message := some "Admin role required for this operation",
    data := ResponseData.userRole userRole }

/-- Middleware `requireAdmin` on `req.user`: the 403 it sends, or `none` when it
calls `next()`. -/
def requireAdmin (user : Option User) : Option Response :=
  match user with
  | none => some (insufficientPermissions "none")
  | some u => if u.role ≠ "Admin" then some (insufficientPermissions u.role) else none

/-- Method `SecurityUtils.generateJWT`; the two `Date.now()` are the clock readings `k` and `k + 1`. -/
def generateJWT (env : Env) (k : Nat) (user : User) (tenant : Tenant) : String :=
  env.jwtSign
    { id := user.id, email := user.email, role := user.role, tenant := tenant.slug,
      iat := env.clock k / 1000, exp := env.clock (k + 1) / 1000 + 24 * 60 * 60 }

/-- Handler of `POST /auth/login`. -/
def login (env : Env) (s : Store) (email password : Option String) : Response × Store :=
  let errors := collectErrors
    [ (env.isEmail (email.getD ""), "Valid email is required"),
      (isLength 1 none (password.getD ""), "Password is required") ]
  if errors ≠ [] then (validationError "Invalid input data" errors, s)
  else
    let email := env.normalizeEmail (email.getD "")
    match findIndex (fun u => u.email == email && u.active) s.USERS with
    | none => (failure 401 "INVALID_CREDENTIALS" "Invalid email or password", s)
    | some userIndex =>
      match s.USERS[userIndex]? with
      | none => (failure 500 "LOGIN_ERROR" "Internal login error", s)
      | some user =>
        let isValidPassword :=
          if password = some "password" then true
          else env.bcryptCompare (password.getD "") user.password
        if !isValidPassword then (failure 401 "INVALID_CREDENTIALS" "Invalid email or password", s)
        else
          match s.TENANTS.find? (fun t => t.slug == user.tenant && t.active) with
          | none => (failure 401 "TENANT_NOT_FOUND" "Tenant not found or inactive", s)
          | some tenant =>
            let lastLogin := env.toISOString (env.clock 0)
            let user := { user with lastLogin := some lastLogin }
            ({ status := 200, success := true, error := none, message := some "Login successful",
               data := ResponseData.login (generateJWT env 1 user tenant)
                 { id := user.id, email := user.email, name := user.name, role := user.role,
                   tenant := user.tenant }
                 { slug := tenant.slug, name := tenant.name, plan := tenant.plan,
                   noteLimit := tenant.noteLimit } },
             { s with USERS := modifyAt (fun u => { u with lastLogin := some lastLogin }) userIndex s.USERS })

/-- Handler of `GET /notes`. -/
def getNotes (env : Env) (s : Store) (authorization : Option String) : Response × Store :=
  match authenticateJWT env s authorization with
  | .error r => (r, s)
  | .ok (_, tenant) =>
    let tenantNotes := s.NOTES.filter (fun note => note.tenant == tenant.slug)
    let canCreateMore :=
      tenant.plan == "pro" || tenant.noteLimit == -1 ||
        decide ((tenantNotes.length : Int) < tenant.noteLimit)
    ({ status := 200, success := true, error := none, message := none,
       data := ResponseData.notes tenantNotes tenantNotes.length tenant
         { current := tenantNotes.length, limit := tenant.noteLimit,
           canCreateMore := canCreateMore, planType := tenant.plan } }, s)

/-- The 404 of the three `/notes/:id` handlers. -/
def noteNotFound : Response :=
  failure 404 "NOTE_NOT_FOUND" "Note not found or access denied"

/-- Handler of `GET /notes/:id`. -/
def getNote (env : Env) (s : Store) (authorization : Option String) (id : String) :
    Response × Store :=
  match authenticateJWT env s authorization with
  | .error r => (r, s)
  | .ok (_, tenant) =>
    let errors := collectErrors [(notEmpty id, "Note ID is required")]
    if errors ≠ [] then (validationError "Invalid note ID" errors, s)
    else
      match s.NOTES.find? (fun n => n.id == id && n.tenant == tenant.slug) with
      | none => (noteNotFound, s)
      | some note =>
        ({ status := 200, success := true, error := none, message := none,
           data := ResponseData.note note }, s)

/-- The 403 of `POST /notes` when the plan limit is reached. -/
def noteLimitExceeded (currentCount : Nat) (tenant : Tenant) : Response :=
  { status := 403, success := false, error := some "NOTE_LIMIT_EXCEEDED",
    message := some "Note limit reached for your subscription plan",
    data := ResponseData.limit currentCount tenant.noteLimit tenant.plan true }

/-- Handler of `POST /notes`.  `createdAt` and `updatedAt` come from two
separate `new Date()`, the clock readings 0 and 1. -/
def createNote (env : Env) (s : Store) (authorization : Option String) (body : NoteBody) :
    Response × Store :=
  let title := requiredField 200 body.title
  let content := requiredField 50000 body.content
  match authenticateJWT env s authorization with
  | .error r => (r, s)
  | .ok (user, tenant) =>
    let errors := collectErrors
      [ (title.2, "Title is required and must be 1-200 characters"),
        (content.2, "Content is required and must be 1-50000 characters") ]
    if errors ≠ [] then (validationError "Invalid input data" errors, s)
    else
      let tenantNotes := s.NOTES.filter (fun note => note.tenant == tenant.slug)
      if tenant.plan = "free" ∧ tenant.noteLimit ≠ -1 ∧
          (tenantNotes.length : Int) ≥ tenant.noteLimit then
        (noteLimitExceeded tenantNotes.length tenant, s)
      else
        let newNote : Note :=
          { id := env.uuidv4,
            title := sanitizeInput title.1,
            content := sanitizeInput content.1,
            tenant := tenant.slug,
            userId := user.id,
            createdAt := env.toISOString (env.clock 0),
            updatedAt := env.toISOString (env.clock 1) }
        ({ status := 201, success := true, error := none,
           message := some "Note created successfully", data := ResponseData.note newNote },
         { s with NOTES := s.NOTES ++ [newNote] })

/-- The three assignments of `PUT /notes/:id` to `NOTES[noteIndex]`. -/
def applyUpdate (title content : Option String) (updatedAt : String) (n : Note) : Note :=
  { n with
    title := (title.map sanitizeInput).getD n.title,
    content := (content.map sanitizeInput).getD n.content,
    updatedAt := updatedAt }

/-- Handler of `PUT /notes/:id`. -/
def updateNote (env : Env) (s : Store) (authorization : Option String) (id : String)
    (body : NoteBody) : Response × Store :=
  let title := optionalField 200 body.title
  let content := optionalField 50000 body.content
  match authenticateJWT env s authorization with
  | .error r => (r, s)
  | .ok (_, tenant) =>
    let errors := collectErrors
      [ (notEmpty id, "Note ID is required"),
        (title.2, "Title must be 1-200 characters"),
        (content.2, "Content must be 1-50000 characters") ]
    if errors ≠ [] then (validationError "Invalid input data" errors, s)
    else
      match findIndex (fun n => n.id == id && n.tenant == tenant.slug) s.NOTES with
      | none => (noteNotFound, s)
      | some noteIndex =>
        let notes := modifyAt (applyUpdate title.1 content.1 (env.toISOString (env.clock 0)))
          noteIndex s.NOTES
        match notes[noteIndex]? with
        | none => (failure 500 "UPDATE_ERROR" "Error updating note", s)
        | some note =>
          ({ status := 200, success := true, error := none,
             message := some "Note updated successfully", data := ResponseData.note note },
           { s with NOTES := notes })

/-- Handler of `DELETE /notes/:id`. -/
def deleteNote (env : Env) (s : Store) (authorization : Option String) (id : String) :
    Response × Store :=
  match authenticateJWT env s authorization with
  | .error r => (r, s)
  | .ok (_, tenant) =>
    let errors := collectErrors [(notEmpty id, "Note ID is required")]
    if errors ≠ [] then (validationError "Invalid note ID" errors, s)
    else
      match findIndex (fun n => n.id == id && n.tenant == tenant.slug) s.NOTES with
      | none => (noteNotFound, s)
      | some noteIndex =>
        ({ status := 200, success := true, error := none,
           message := some "Note deleted successfully", data := ResponseData.none },
         { s with NOTES := s.NOTES.eraseIdx noteIndex })

/-- The three assignments of the upgrade handler to `TENANTS[tenantIndex]`. -/
def applyUpgrade (upgradedAt : String) (t : Tenant) : Tenant :=
  { t with plan := "pro", noteLimit := -1, upgradedAt := some upgradedAt }

/-- Handler of `POST /tenants/:slug/upgrade`, behind `authenticateJWT` and `requireAdmin`. -/
def upgradeTenant (env : Env) (s : Store) (authorization : Option String) (slug : String) :
    Response × Store :=
  match authenticateJWT env s authorization with
  | .error r => (r, s)
  | .ok (user, _) =>
    match requireAdmin (some user) with
    | some r => (r, s)
    | none =>
      let errors := collectErrors [(isAlpha slug, "Valid tenant slug is required")]
      if errors ≠ [] then (validationError "Invalid tenant slug" errors, s)
      else if user.tenant ≠ slug then
        (failure 403 "UNAUTHORIZED_TENANT_ACCESS" "You can only upgrade your own tenant", s)
      else
        match findIndex (fun t => t.slug == slug && t.active) s.TENANTS with
        | none => (failure 404 "TENANT_NOT_FOUND" "Tenant not found", s)
        | some tenantIndex =>
          match s.TENANTS[tenantIndex]? with
          | none => (failure 500 "UPGRADE_ERROR" "Error upgrading tenant", s)
          | some tenant =>
            if tenant.plan = "pro" then
              (failure 400 "ALREADY_PRO_PLAN" "Tenant is already on Pro plan", s)
            else
              ({ status := 200, success := true, error := none,
                 message := some "Tenant upgraded to Pro plan successfully",
                 data := ResponseData.tenant (applyUpgrade (env.toISOString (env.clock 0)) tenant) },
               { s with TENANTS :=
                   modifyAt (applyUpgrade (env.toISOString (env.clock 0))) tenantIndex s.TENANTS })

/-- One request to the API. -/
inductive Request where
  | login (email password : Option String)
  | getNotes (authorization : Option String)
  | getNote (authorization : Option String) (id : String)
  | createNote (authorization : Option String) (body : NoteBody)
  | updateNote (authorization : Option String) (id : String) (body : NoteBody)
  | deleteNote (authorization : Option String) (id : String)
  | upgradeTenant (authorization : Option String) (slug : String)
deriving DecidableEq, Repr

/-- One request run to completion against the store. -/
def handle (env : Env) (s : Store) : Request → Response × Store
  | .login email password => login env s email password
  | .getNotes a => getNotes env s a
  | .getNote a id => getNote env s a id
  | .createNote a body => createNote env s a body
  | .updateNote a id body => updateNote env s a id body
  | .deleteNote a id => deleteNote env s a id
  | .upgradeTenant a slug => upgradeTenant env s a slug

/-- Stores the server can be in: the seed, and whatever a request makes of a reachable store. -/
inductive Reachable : Store → Prop where
  | seed : Reachable seedStore
  | step {s : Store} (env : Env) (req : Request) : Reachable s → Reachable (handle env s req).2

end Server

/-! ## The store operations of `app.js` -/

namespace App

def JWT_SECRET : String := "multittenant_notes_ai_secret_2025"

/-- Constant `CONFIG.TOKEN_EXPIRY`, 24 hours in milliseconds. -/
def TOKEN_EXPIRY : Nat := 24 * 60 * 60 * 1000

def FREE_PLAN_LIMIT : Int := 3

/-- Constant `CONFIG.PRO_PLAN_LIMIT`, the sentinel for "unlimited". -/
def PRO_PLAN_LIMIT : Int := -1

/-- Element of `TEST_ACCOUNTS`. -/
structure Account where
  email : String
  password : String
  role : String
  tenant : String
  name : String
  avatar : String
  id : String
deriving DecidableEq, Repr

def TEST_ACCOUNTS : List Account :=
  [ { email := "admin@acme.test", password := "password", role := "Admin", tenant := "acme",
      name := "Sarah Johnson", avatar := "SJ", id := "user_admin_acme" },
    { email := "user@acme.test", password := "password", role := "Member", tenant := "acme",
      name := "Mike Chen", avatar := "MC", id := "user_member_acme" },
    { email := "admin@globex.test", password := "password", role := "Admin", tenant := "globex",
      name := "Emma Davis", avatar := "ED", id := "user_admin_globex" },
    { email := "user@globex.test", password := "password", role := "Member", tenant := "globex",
      name := "Alex Kumar", avatar := "AK", id := "user_member_globex" } ]

/-- Value of a property of the `TENANTS` object. -/
structure TenantRecord where
  slug : String
  name : String
  plan : String
  noteLimit : Int
deriving DecidableEq, Repr

/-- The `TENANTS` object as the list of its own properties, key first.
Properties inherited from `Object.prototype` are not part of the model. -/
def seedTenants : List (String × TenantRecord) :=
  [ ("acme", { slug := "acme", name := "Acme Corporation", plan := "free",
               noteLimit := FREE_PLAN_LIMIT }),
    ("globex", { slug := "globex", name := "Globex Corporation", plan := "free",
                 noteLimit := FREE_PLAN_LIMIT }) ]

def seedNotes : List Note :=
  [ { id := "acme_note_001", title := "Product Strategy 2025",
      content := "Key initiatives for next year: AI integration, user experience improvements, and market expansion.\n\n**Timeline**: October - December 2025\n**Owner**: Product Team\n\n### Success Metrics\n- User engagement +25%\n- Search accuracy >95%\n- System uptime 99.9%",
      tenant := "acme", userId := "user_admin_acme",
      createdAt := "2025-09-25T10:00:00Z", updatedAt := "2025-09-27T14:30:00Z" },
    { id := "acme_note_002", title := "Engineering Best Practices",
      content := "# Development Standards\n\n## Code Review Process\n1. All PRs require 2 approvals\n2. Automated testing must pass\n3. Security scan completion\n4. Performance benchmarks\n\n## Performance Goals\n- API response time < 200ms\n- 99.9% uptime SLA\n- Zero security vulnerabilities",
      tenant := "acme", userId := "user_member_acme",
      createdAt := "2025-09-20T09:00:00Z", updatedAt := "2025-09-26T16:45:00Z" },
    { id := "globex_note_001", title := "Manufacturing Process Optimization",
      content := "## Current Challenges\n\n- Production line efficiency at 78%\n- Quality control inconsistencies\n- Supply chain delays averaging 3.2 days\n\n## Proposed Solutions\n1. **IoT Integration** - Real-time sensor monitoring\n2. **AI-Powered Analytics** - Pattern recognition for defect prediction\n3. **Supply Chain Enhancement** - Multiple supplier partnerships\n\n**Expected ROI**: 35% efficiency gain within 6 months",
      tenant := "globex", userId := "user_admin_globex",
      createdAt := "2025-09-18T11:30:00Z", updatedAt := "2025-09-28T08:15:00Z" } ]

/-- The module-level variables of `app.js`.  `currentTenant` holds the record
by value; in JavaScript it is the very object stored in `TENANTS`, which
`upgradeTenant` keeps in step by writing to both. -/
structure State where
  TENANTS : List (String × TenantRecord)
  NOTES_DATABASE : List Note
  currentUser : Option Account
  currentTenant : Option TenantRecord
  currentToken : Option String
  notes : List Note
deriving DecidableEq, Repr

/-- State of `app.js` when the script has loaded. -/
def seedState : State :=
  { TENANTS := seedTenants, NOTES_DATABASE := seedNotes, currentUser := none,
    currentTenant := none, currentToken := none, notes := [] }

/-- Claims of the browser-side token (`payload` in `generateJWT`). -/
structure Payload where
  userId : String
  email : String
  role : String
  tenant : String
  name : String
  avatar : String
  iat : Nat
  exp : Nat
deriving DecidableEq, Repr

/-- Built-ins of the browser that `app.js` calls.  `atob` and `parse` are
`none` when they throw; `clock k` is the `k`-th reading of the clock during a
call, in milliseconds; `random` is `Math.random().toString(36).substr(2, 5)`. -/
structure Runtime where
  btoa : String → String
  atob : String → Option String
  stringify : Payload → String
  parse : String → Option Payload
  clock : Nat → Nat
  toISOString : Nat → String
  random : String

/-- Method `String.prototype.split` with a one-character separator. -/
def split (sep : Char) : List Char → List (List Char)
  | [] => [[]]
  | c :: cs =>
    if c = sep then [] :: split sep cs
    else
      match split sep cs with
      | [] => [[c]]
      | p :: ps => (c :: p) :: ps

/-- Lookup `TENANTS[key]`. -/
def tenantAt (tenants : List (String × TenantRecord)) (key : String) : Option TenantRecord :=
  match tenants with
  | [] => none
  | (k, t) :: rest => if k = key then some t else tenantAt rest key

/-- Assignment to fields of the object `TENANTS[key]`. -/
def modifyTenant (f : TenantRecord → TenantRecord) (key : String) :
    List (String × TenantRecord) → List (String × TenantRecord)
  | [] => []
  | (k, t) :: rest => if k = key then (k, f t) :: rest else (k, t) :: modifyTenant f key rest

/-- Function `generateJWT`; the two `Date.now()` are the clock readings `k` and `k + 1`. -/
def generateJWT (rt : Runtime) (k : Nat) (user : Account) (tenant : TenantRecord) : String :=
  rt.btoa (rt.stringify
      { userId := user.id, email := user.email, role := user.role, tenant := tenant.slug,
        name := user.name, avatar := user.avatar, iat := rt.clock k,
        exp := rt.clock (k + 1) + TOKEN_EXPIRY })
    ++ "." ++ rt.btoa JWT_SECRET

/-- Function `validateJWT`, with `now` the value of its `Date.now()`; `none` is `null`. -/
def validateJWT (rt : Runtime) (now : Nat) (token : Option String) : Option Payload :=
  match token with
  | none => none
  | some token =>
    if token = "" then none
    else
      match split '.' token.data with
      | [p0, p1] =>
        match rt.atob (String.mk p0) with
        | none => none
        | some json =>
          match rt.parse json with
          | none => none
          | some payload =>
            match rt.atob (String.mk p1) with
            | none => none
            | some secret =>
              if secret ≠ JWT_SECRET then none
              else if now > payload.exp then none
              else some payload
      | _ => none

/-- Function `authenticateUser`: the error string, or user, tenant and token. -/
def authenticateUser (rt : Runtime) (s : State) (email password : String) :
    Except String (Account × TenantRecord × String) :=
  match TEST_ACCOUNTS.find? (fun acc => acc.email == email) with
  | none => .error "Invalid credentials"
  | some account =>
    if account.password ≠ password then .error "Invalid credentials"
    else
      match tenantAt s.TENANTS account.tenant with
      | none => .error "Tenant not found"
      | some tenant => .ok (account, tenant, generateJWT rt 0 account tenant)

/-- Function `requireAuth`, with `now` the clock reading of its `validateJWT`. -/
def requireAuth (rt : Runtime) (now : Nat) (s : State) : Except String Payload :=
  if s.currentToken = none ∨ s.currentToken = some "" ∨ s.currentUser = none ∨
      s.currentTenant = none then
    .error "Authentication required"
  else
    match validateJWT rt now s.currentToken with
    | none => .error "Invalid or expired token"
    | some payload => .ok payload

/-- Function `validateTenantAccess`. -/
def validateTenantAccess (rt : Runtime) (now : Nat) (s : State) (resourceTenant : String) :
    Except String Bool :=
  match requireAuth rt now s with
  | .error e => .error e
  | .ok payload =>
    if resourceTenant ≠ payload.tenant then .error "Access denied: Tenant isolation violation"
    else .ok true

/-- Function `filterNotesByTenant`. -/
def filterNotesByTenant (notes : List Note) (tenantSlug : String) : List Note :=
  notes.filter (fun note => note.tenant == tenantSlug)

/-- Object returned by `checkNoteLimit`; `limit` and `current` are absent on the unlimited path. -/
structure LimitCheck where
  canCreate : Bool
  remaining : Int
  limit : Option Int
  current : Option Nat
deriving DecidableEq, Repr

/-- Function `checkNoteLimit`. -/
def checkNoteLimit (s : State) (tenantSlug : String) : Except String LimitCheck :=
  match tenantAt s.TENANTS tenantSlug with
  | none => .error "Tenant not found"
  | some tenant =>
    if tenant.plan = "pro" ∨ tenant.noteLimit = -1 then
      .ok { canCreate := true, remaining := -1, limit := none, current := none }
    else
      let currentNotes := filterNotesByTenant s.NOTES_DATABASE tenantSlug
      let remaining : Int := tenant.noteLimit - (currentNotes.length : Int)
      .ok { canCreate := decide (remaining > 0), remaining := remaining,
            limit := some tenant.noteLimit, current := some currentNotes.length }

/-- The two assignments of `upgradeTenant` to a tenant object. -/
def applyUpgrade (t : TenantRecord) : TenantRecord :=
  { t with plan := "pro", noteLimit := PRO_PLAN_LIMIT }

/-- Function `upgradeTenant`; the value on success stands for `{ success: true, plan: 'pro' }`. -/
def upgradeTenant (s : State) (tenantSlug : String) : Except String String × State :=
  match s.currentUser with
  | none => (.error "Only administrators can upgrade subscriptions", s)
  | some user =>
    if user.role ≠ "Admin" then (.error "Only administrators can upgrade subscriptions", s)
    else
      match tenantAt s.TENANTS tenantSlug with
      | none => (.error "Tenant not found", s)
      | some tenant =>
        if tenant.plan = "pro" then (.error "Tenant already on Pro plan", s)
        else
          (.ok "pro",
           { s with
             TENANTS := modifyTenant applyUpgrade tenantSlug s.TENANTS,
             currentTenant :=
               match s.currentTenant with
               | none => none
               | some ct => if ct.slug = tenantSlug then some (applyUpgrade ct) else some ct })

/-- Test `!x?.trim()` of `createNote` and `updateNote`: missing, or blank after trimming. -/
def blank (v : Option String) : Bool :=
  match v with
  | none => true
  | some x => decide (trim x = "")

/-- Function `createNote`: clock reading 0 is `requireAuth`, 1 goes into the id, 2 is `now`. -/
def createNote (rt : Runtime) (s : State) (title content : Option String) :
    Except String Note × State :=
  match requireAuth rt (rt.clock 0) s with
  | .error e => (.error e, s)
  | .ok payload =>
    match checkNoteLimit s payload.tenant with
    | .error e => (.error e, s)
    | .ok limitCheck =>
      if !limitCheck.canCreate then
        (.error "Note limit reached. Upgrade to Pro for unlimited notes.", s)
      else if blank title || blank content then (.error "Title and content are required", s)
      else
        let noteId := payload.tenant ++ "_note_" ++ toString (rt.clock 1) ++ "_" ++ rt.random
        let now := rt.toISOString (rt.clock 2)
        let newNote : Note :=
          { id := noteId, title := trim (title.getD ""), content := trim (content.getD ""),
            tenant := payload.tenant, userId := payload.userId, createdAt := now,
            updatedAt := now }
        (.ok newNote, { s with NOTES_DATABASE := s.NOTES_DATABASE ++ [newNote] })

/-- Function `getNotes`, with `now` the clock reading of its `requireAuth`. -/
def getNotes (rt : Runtime) (now : Nat) (s : State) : Except String (List Note) :=
  match requireAuth rt now s with
  | .error e => .error e
  | .ok payload => .ok (filterNotesByTenant s.NOTES_DATABASE payload.tenant)

/-- Function `getNote`: `requireAuth` at clock reading 0, `validateTenantAccess` at 1. -/
def getNote (rt : Runtime) (s : State) (noteId : String) : Except String Note :=
  match requireAuth rt (rt.clock 0) s with
  | .error e => .error e
  | .ok _ =>
    match s.NOTES_DATABASE.find? (fun n => n.id == noteId) with
    | none => .error "Note not found"
    | some note =>
      match validateTenantAccess rt (rt.clock 1) s note.tenant with
      | .error e => .error e
      | .ok _ => .ok note

/-- Function `updateNote`: clock readings 0 and 1 as in `getNote`, 2 is the new `updatedAt`. -/
def updateNote (rt : Runtime) (s : State) (noteId : String) (title content : Option String) :
    Except String Note × State :=
  match requireAuth rt (rt.clock 0) s with
  | .error e => (.error e, s)
  | .ok _ =>
    if blank title || blank content then (.error "Title and content are required", s)
    else
      match findIndex (fun n => n.id == noteId) s.NOTES_DATABASE with
      | none => (.error "Note not found", s)
      | some noteIndex =>
        match s.NOTES_DATABASE[noteIndex]? with
        | none => (.error "Note not found", s)
        | some note =>
          match validateTenantAccess rt (rt.clock 1) s note.tenant with
          | .error e => (.error e, s)
          | .ok _ =>
            let updated : Note :=
              { note with title := trim (title.getD ""), content := trim (content.getD ""),
                          updatedAt := rt.toISOString (rt.clock 2) }
            (.ok updated,
             { s with NOTES_DATABASE := modifyAt (fun _ => updated) noteIndex s.NOTES_DATABASE })

/-- Function `deleteNote`; the value on success is the `id` of `{ success: true, id }`. -/
def deleteNote (rt : Runtime) (s : State) (noteId : String) : Except String String × State :=
  match requireAuth rt (rt.clock 0) s with
  | .error e => (.error e, s)
  | .ok _ =>
    match findIndex (fun n => n.id == noteId) s.NOTES_DATABASE with
    | none => (.error "Note not found", s)
    | some noteIndex =>
      match s.NOTES_DATABASE[noteIndex]? with
      | none => (.error "Note not found", s)
      | some note =>
        match validateTenantAccess rt (rt.clock 1) s note.tenant with
        | .error e => (.error e, s)
        | .ok _ => (.ok noteId, { s with NOTES_DATABASE := s.NOTES_DATABASE.eraseIdx noteIndex })

/-- What `performLogin` does to the module state: `authenticateUser` reads the
clock twice, the `getNotes` that follows reads it a third time; when
`getNotes` throws the three assignments before it stay. -/
def performLogin (rt : Runtime) (s : State) (email password : String) : State :=
  match authenticateUser rt s email password with
  | .error _ => s
  | .ok (user, tenant, token) =>
    let s1 : State :=
      { s with currentUser := some user, currentTenant := some tenant, currentToken := some token }
    match getNotes rt (rt.clock 2) s1 with
    | .error _ => s1
    | .ok ns => { s1 with notes := ns }

/-- What `handleLogout` does to the module state. -/
def handleLogout (s : State) : State :=
  { s with currentUser := none, currentTenant := none, currentToken := none, notes := [] }

/-- Member `window.API.logout`. -/
def logout (s : State) : State :=
  { s with currentUser := none, currentTenant := none, currentToken := none }

/-- One call into `app.js` that can touch the module state. -/
inductive Call where
  | performLogin (email password : String)
  | handleLogout
  | logout
  | createNote (title content : Option String)
  | getNotes
  | getNote (noteId : String)
  | updateNote (noteId : String) (title content : Option String)
  | deleteNote (noteId : String)
  | upgradeTenant (tenantSlug : String)
deriving DecidableEq, Repr

/-- State after one call. -/
def step (rt : Runtime) (s : State) : Call → State
  | .performLogin email password => performLogin rt s email password
  | .handleLogout => handleLogout s
  | .logout => logout s
  | .createNote title content => (createNote rt s title content).2
  | .getNotes => s
  | .getNote _ => s
  | .updateNote noteId title content => (updateNote rt s noteId title content).2
  | .deleteNote noteId => (deleteNote rt s noteId).2
  | .upgradeTenant tenantSlug => (upgradeTenant s tenantSlug).2

/-- States `app.js` can be in. -/
inductive Reachable : State → Prop where
  | seed : Reachable seedState
  | step {s : State} (rt : Runtime) (c : Call) : Reachable s → Reachable (step rt s c)

end App

/-! ## Worked examples: a concrete environment -/

/-- An environment for the worked examples: the bearer token of a seed user
is that user's id, and the clock starts at 2025-10-01T10:00:00Z. -/
def demoEnv : Env :=
  { jwtVerify := fun tok =>
      (seedUsers.find? (fun u => u.id == tok)).map
        (fun u => { id := u.id, email := u.email, role := u.role, tenant := u.tenant,
                    iat := 1759312800, exp := 1759399200 }),
    jwtSign := fun p => p.id,
    bcryptCompare := fun _ _ => false,
    isEmail := fun e => e.data.contains '@',
    normalizeEmail := fun e => e,
    uuidv4 := "3f2b8c1e-5d4a-4c6b-8e7f-000000000001",
    clock := fun k => 1759312800000 + k,
    toISOString := fun _ => "2025-10-01T10:00:00.000Z" }

/-- The seed user `user@acme.test`. -/
def memberAcme : User :=
  { id := "user_member_acme", email := "user@acme.test", password := seedPasswordHash,
    role := "Member", tenant := "acme", name := "Mike Chen",
    createdAt := "2025-01-01T00:00:00.000Z", lastLogin := none, active := true }

/-- The seed user `admin@acme.test`. -/
def adminAcme : User :=
  { id := "user_admin_acme", email := "admin@acme.test", password := seedPasswordHash,
    role := "Admin", tenant := "acme", name := "Sarah Johnson",
    createdAt := "2025-01-01T00:00:00.000Z", lastLogin := none, active := true }

/-- The seed tenant `acme`. -/
def acmeTenant : Tenant :=
  { slug := "acme", name := "Acme", plan := "free", noteLimit := 3,
    createdAt := "2025-01-01T00:00:00.000Z", active := true, upgradedAt := none }

/-- The seed note of tenant `globex`. -/
def globexNote : Note :=
  { id := "note_sample_globex_1", title := "Welcome to Globex Notes",
    content := "This is a sample note for Globex Corporation. Only Globex users can see this note.",
    tenant := "globex", userId := "user_admin_globex",
    createdAt := "2025-09-01T11:00:00.000Z", updatedAt := "2025-09-01T11:00:00.000Z" }

/-- Number of notes of a tenant in a list of notes. -/
def noteCount (notes : List Note) (slug : String) : Nat :=
  (notes.filter (fun n => n.tenant == slug)).length

/-- What the claims ask of a listing `result` of the notes of tenant `T` out of
`store`: only notes of `T`, every stored note of `T` as often as it is stored,
in storage order. -/
def IsListingFor (T : String) (store result : List Note) : Prop :=
  (∀ n ∈ result, n.tenant = T) ∧
  (∀ n, n.tenant = T → result.count n = store.count n) ∧
  result.Sublist store

/-- The seed store after tenant `acme` has filled its three notes. -/
def acmeFullStore : Store :=
  { seedStore with
    NOTES := seedNotes ++
      [ { id := "0b9a6c1e-5d4a-4c6b-8e7f-000000000002", title := "Roadmap", content := "Q4 goals",
          tenant := "acme", userId := "user_member_acme",
          createdAt := "2025-09-02T09:00:00.000Z", updatedAt := "2025-09-02T09:00:00.000Z" },
        { id := "0b9a6c1e-5d4a-4c6b-8e7f-000000000003", title := "Retro", content := "Sprint 12",
          tenant := "acme", userId := "user_admin_acme",
          createdAt := "2025-09-03T09:00:00.000Z", updatedAt := "2025-09-03T09:00:00.000Z" } ] }

/-- A body that passes the validators of `POST /notes` and also carries
fields the handler never reads. -/
def demoBody : NoteBody :=
  { title := some "  Plan ", content := some "Ship it",
    extra := [("tenant", "globex"), ("userId", "user_admin_globex")] }

namespace App

/-- A runtime for the worked examples: `btoa` and `atob` are the identity, a
payload is written as its user id and read back from `TEST_ACCOUNTS`, and the
clock stands at 2025-10-01T10:00:00Z. -/
def demoRuntime : Runtime :=
  { btoa := fun x => x,
    atob := fun x => some x,
    stringify := fun p => p.userId,
    parse := fun j =>
      (TEST_ACCOUNTS.find? (fun a => a.id == j)).map
        (fun a => { userId := a.id, email := a.email, role := a.role, tenant := a.tenant,
                    name := a.name, avatar := a.avatar, iat := 1759312800000,
                    exp := 1759312800000 + TOKEN_EXPIRY }),
    clock := fun _ => 1759312800000,
    toISOString := fun _ => "2025-10-01T10:00:00.000Z",
    random := "k3x9q" }

/-- The seed record of tenant `acme`. -/
def acmeRecord : TenantRecord :=
  { slug := "acme", name := "Acme Corporation", plan := "free", noteLimit := FREE_PLAN_LIMIT }

/-- The seed state after `admin@acme.test` has logged in. -/
def adminAcmeSession : State :=
  performLogin demoRuntime seedState "admin@acme.test" "password"

/-- Claims of the token of `adminAcmeSession`. -/
def adminAcmePayload : Payload :=
  { userId := "user_admin_acme", email := "admin@acme.test", role := "Admin", tenant := "acme",
    name := "Sarah Johnson", avatar := "SJ", iat := 1759312800000,
    exp := 1759312800000 + TOKEN_EXPIRY }

end App

/-- The plan-limit invariant of a store: tenant slugs are pairwise distinct and
every tenant on the free plan holds at most `noteLimit` notes. -/
def LimitInv (s : Store) : Prop :=
  (s.TENANTS.map Tenant.slug).Nodup ∧
  ∀ t ∈ s.TENANTS, t.plan = "free" → (noteCount s.NOTES t.slug : Int) ≤ t.noteLimit

/-- The data-model invariant of a tenant record: the plan is `pro` exactly when
the note limit is the sentinel -1. -/
def PlanMatchesLimit (plan : String) (noteLimit : Int) : Prop :=
  plan = "pro" ↔ noteLimit = -1

/-- How a plan may change over one operation: `pro` stays `pro`, and `free`
can only have been `free` before. -/
def PlanStep (before after : String) : Prop :=
  (before = "pro" → after = "pro") ∧ (after = "free" → before = "free")

/-- The store after a sequence of requests, each run to completion in its own
environment before the next. -/
def runRequests (s : Store) (ops : List (Env × Server.Request)) : Store :=
  ops.foldl (fun st op => (Server.handle op.1 st op.2).2) s

/-- The store after `admin@acme.test` has upgraded `acme` from the seed state. -/
def acmeProStore : Store :=
  (Server.upgradeTenant demoEnv seedStore (some "Bearer user_admin_acme") "acme").2

/-- The record of `acme` in `acmeProStore`. -/
def acmeProTenant : Tenant :=
  Server.applyUpgrade "2025-10-01T10:00:00.000Z" acmeTenant

/-- The six replacements of `SecurityUtils.sanitizeInput`, on the characters of the input. -/
def sanitizeChars (cs : List Char) : List Char :=
  replaceAll '\\' "&#x5C;".data
    (replaceAll '\'' "&#x27;".data
      (replaceAll '"' "&quot;".data
        (replaceAll '>' "&gt;".data
          (replaceAll '<' "&lt;".data
            (replaceAll '&' "&amp;".data cs)))))

/-- The characters `SecurityUtils.sanitizeInput` rewrites. -/
def specialChars : List Char :=
  ['&', '<', '>', '"', '\'', '\\']

/-- The entity a single character is written as: the substitution
`&` to `&amp;`, `<` to `&lt;`, `>` to `&gt;`, `"` to `&quot;`, `'` to `&#x27;`,
backslash to `&#x5C;`, any other character unchanged. -/
def escapeChar (c : Char) : List Char :=
  if c = '&' then "&amp;".data
  else if c = '<' then "&lt;".data
  else if c = '>' then "&gt;".data
  else if c = '"' then "&quot;".data
  else if c = '\'' then "&#x27;".data
  else if c = '\\' then "&#x5C;".data
  else [c]

/-- A body whose title and content hold an ampersand. -/
def ampersandBody : NoteBody :=
  { title := some "R&D", content := some "Q&A", extra := [] }

/-- The store after `user@acme.test` has created a note from `ampersandBody`. -/
def ampersandStore : Store :=
  (Server.createNote demoEnv seedStore (some "Bearer user_member_acme") ampersandBody).2

/-- The seed note of tenant `acme`. -/
def acmeNote : Note :=
  { id := "note_sample_acme_1", title := "Welcome to Acme Notes",
    content := "This is a sample note for Acme Corporation. Only Acme users can see this note.",
    tenant := "acme", userId := "user_admin_acme",
    createdAt := "2025-09-01T10:00:00.000Z", updatedAt := "2025-09-01T10:00:00.000Z" }

/-- A `PUT` body that renames a note and leaves the content out. -/
def renameBody : NoteBody :=
  { title := some "Welcome, everyone", content := none, extra := [] }

namespace App

/-- The note `updateNote` returns in `adminAcmeSession` for `acme_note_001`
with title `Strategy` and content `Revised`. -/
def renamedNote : Note :=
  { id := "acme_note_001", title := "Strategy", content := "Revised", tenant := "acme",
    userId := "user_admin_acme", createdAt := "2025-09-25T10:00:00Z",
    updatedAt := "2025-10-01T10:00:00.000Z" }

end App

/-- The seed store after `admin@acme.test` has deleted the seed note of `acme`. -/
def acmeEmptiedStore : Store :=
  (Server.deleteNote demoEnv seedStore (some "Bearer user_admin_acme") "note_sample_acme_1").2

namespace App

/-- The seed note `acme_note_001`. -/
def acmeNote001 : Note :=
  { id := "acme_note_001", title := "Product Strategy 2025",
    content := "Key initiatives for next year: AI integration, user experience improvements, and market expansion.\n\n**Timeline**: October - December 2025\n**Owner**: Product Team\n\n### Success Metrics\n- User engagement +25%\n- Search accuracy >95%\n- System uptime 99.9%",
    tenant := "acme", userId := "user_admin_acme",
    createdAt := "2025-09-25T10:00:00Z", updatedAt := "2025-09-27T14:30:00Z" }

end App

/-- The seed store without the note of `globex`. -/
def acmeOnlyStore : Store :=
  { seedStore with NOTES := [acmeNote] }

namespace App

/-- The test account `admin@acme.test`. -/
def adminAcmeAccount : Account :=
  { email := "admin@acme.test", password := "password", role := "Admin", tenant := "acme",
    name := "Sarah Johnson", avatar := "SJ", id := "user_admin_acme" }

/-- The token `generateJWT` issues to `admin@acme.test` in `demoRuntime`, at
clock reading 1759312800000. -/
def adminAcmeToken : String :=
  generateJWT demoRuntime 0 adminAcmeAccount acmeRecord

/-- Claims that `demoRuntime` reads from the payload segment `user_admin_globex`. -/
def adminGlobexPayload : Payload :=
  { userId := "user_admin_globex", email := "admin@globex.test", role := "Admin",
    tenant := "globex", name := "Emma Davis", avatar := "ED", iat := 1759312800000,
    exp := 1759312800000 + TOKEN_EXPIRY }

end App

/-- The claims `POST /auth/login` signs for `user@acme.test` in `env`: the two
`Date.now()` of `generateJWT` are the clock readings 1 and 2 of the login. -/
def memberAcmeClaims (env : Env) : TokenPayload :=
  { id := "user_member_acme", email := "user@acme.test", role := "Member", tenant := "acme",
    iat := env.clock 1 / 1000, exp := env.clock 2 / 1000 + 24 * 60 * 60 }

/-- The record of `user@acme.test` once the login in `env` has stamped `lastLogin`. -/
def memberAcmeAfterLogin (env : Env) : User :=
  { memberAcme with lastLogin := some (env.toISOString (env.clock 0)) }

/-- The store after `user@acme.test` has logged in, in `env`, from the seed state. -/
def memberAcmeLoginStore (env : Env) : Store :=
  (Server.login env seedStore (some "user@acme.test") (some "password")).2

/-- The `Authorization` header that carries the token of that login. -/
def memberAcmeHeader (env : Env) : Option String :=
  some ("Bearer " ++ env.jwtSign (memberAcmeClaims env))

/-- An environment whose clock advances one millisecond between two readings
and whose `toISOString` tells the first reading from the later ones. -/
def tickingEnv : Env :=
  { demoEnv with
    toISOString := fun ms =>
      if ms = 1759312800000 then "2025-10-01T10:00:00.000Z" else "2025-10-01T10:00:00.001Z" }

namespace App

/-- The seed record of tenant `globex`. -/
def globexRecord : TenantRecord :=
  { slug := "globex", name := "Globex Corporation", plan := "free", noteLimit := FREE_PLAN_LIMIT }

end App

/-- The characters that must not survive `SecurityUtils.sanitizeInput`. -/
def markupChars : List Char :=
  ['<', '>', '"', '\'', '\\']

/-- The single-pass substitution on the characters of a string: every
character is written as its entity, from left to right. -/
def substituteChars : List Char → List Char
  | [] => []
  | c :: cs => escapeChar c ++ substituteChars cs

/-- The single-pass per-character substitution on a string. -/
def substituteInput (input : String) : String :=
  String.mk (substituteChars input.data)

/-- A value handed to `SecurityUtils.sanitizeInput`: a string, or a value of
another type (`typeof input !== 'string'`). -/
inductive JsValue (α : Type) where
  | string (s : String)
  | other (v : α)
deriving DecidableEq, Repr

/-- Method `SecurityUtils.sanitizeInput` on any value: a value that is not a
string is returned as it is, a string goes through the six replacements. -/
def sanitizeInputValue {α : Type} : JsValue α → JsValue α
  | JsValue.string s => JsValue.string (sanitizeInput s)
  | JsValue.other v => JsValue.other v

/-- The state of `app.js` after a sequence of calls, each run to completion
with its own readings of the clock and of `Math.random` before the next. -/
def runCalls (s : App.State) (ops : List (App.Runtime × App.Call)) : App.State :=
  ops.foldl (fun st op => App.step op.1 st op.2) s

/-! ## Note requests whose title and content need not be strings

The handlers of `Server` above take a title and a content that are strings
or missing.  A JSON body can also carry an array, a number, `null` and so on.
This section embeds the `/notes` handlers once more for such bodies; on
bodies whose fields are strings the two embeddings agree
(`raw_handle_ofRequest`), and every store `Server` reaches is one of the
stores reached here (`raw_reachable_ofStore`). -/

/-- A `title` or `content` of a request body as the `express-validator` chain
reads it.  `JsValue.string s` is a value that is not an array, `s` being the
string the chain reads it as (`toString(value)`: a JSON string is read as
itself, `null` as the empty string, a number as its decimal form);
`JsValue.other items` is a JSON array, `items` being the strings its elements
are read as. -/
abbrev FieldValue : Type := JsValue (List String)

namespace Raw

/-- Element of `NOTES` when title and content need not be strings. -/
structure Note where
  id : String
  title : FieldValue
  content : FieldValue
  tenant : String
  userId : String
  createdAt : String
  updatedAt : String
deriving DecidableEq, Repr

/-- The in-memory database of `server.js` with such notes. -/
structure Store where
  USERS : List User
  TENANTS : List Tenant
  NOTES : List Note
deriving DecidableEq, Repr

/-- JSON body of a note request: the two fields the handlers read, each
missing or any value, and whatever else the client sent. -/
structure NoteBody where
  title : Option FieldValue
  content : Option FieldValue
  extra : List (String × String)
deriving DecidableEq, Repr

/-- Everything a JSON response carries besides `success`, `error` and `message`. -/
inductive ResponseData where
  | none
  | details (errors : List String)
  | userRole (role : String)
  | login (token : String) (user : UserSummary) (tenant : TenantSummary)
  | notes (notes : List Note) (count : Nat) (tenant : Tenant) (usage : Usage)
  | note (note : Note)
  | limit (currentCount : Nat) (limit : Int) (plan : String) (upgradeRequired : Bool)
  | tenant (tenant : Tenant)
deriving DecidableEq, Repr

/-- One `res.status(..).json(..)`. -/
structure Response where
  status : Nat
  success : Bool
  error : Option String
  message : Option String
  data : ResponseData
deriving DecidableEq, Repr

/-- A note with a string title and a string content, as a note of this section. -/
def ofNote (n : SaasNotes.Note) : Note :=
  { id := n.id, title := JsValue.string n.title, content := JsValue.string n.content,
    tenant := n.tenant, userId := n.userId, createdAt := n.createdAt, updatedAt := n.updatedAt }

/-- Response data of the handlers of `Server`, as response data of this section. -/
def ofData : SaasNotes.ResponseData → ResponseData
  | SaasNotes.ResponseData.none => ResponseData.none
  | SaasNotes.ResponseData.details errors => ResponseData.details errors
  | SaasNotes.ResponseData.userRole role => ResponseData.userRole role
  | SaasNotes.ResponseData.login token user tenant => ResponseData.login token user tenant
  | SaasNotes.ResponseData.notes notes count tenant usage =>
    ResponseData.notes (notes.map ofNote) count tenant usage
  | SaasNotes.ResponseData.note note => ResponseData.note (ofNote note)
  | SaasNotes.ResponseData.limit currentCount limit plan upgradeRequired =>
    ResponseData.limit currentCount limit plan upgradeRequired
  | SaasNotes.ResponseData.tenant tenant => ResponseData.tenant tenant

/-- A response of the handlers of `Server`, as a response of this section. -/
def ofResponse (r : SaasNotes.Response) : Response :=
  { status := r.status, success := r.success, error := r.error, message := r.message,
    data := ofData r.data }

/-- A store whose notes have string titles and contents, as a store of this section. -/
def ofStore (s : SaasNotes.Store) : Store :=
  { USERS := s.USERS, TENANTS := s.TENANTS, NOTES := s.NOTES.map ofNote }

/-- A body whose fields are strings or missing, as a body of this section. -/
def ofBody (b : SaasNotes.NoteBody) : NoteBody :=
  { title := b.title.map JsValue.string, content := b.content.map JsValue.string,
    extra := b.extra }

/-- The arrays `USERS` and `TENANTS`, which is all that `authenticateJWT`, the
login handler and the upgrade handler read and write. -/
def Store.principals (s : Store) : SaasNotes.Store :=
  { USERS := s.USERS, TENANTS := s.TENANTS, NOTES := [] }

/-- State of `server.js` when the module has loaded. -/
def seedStore : Store :=
  ofStore SaasNotes.seedStore

/-- Middleware `authenticateJWT`, which reads `USERS` and `TENANTS` only. -/
def authenticateJWT (env : Env) (s : Store) (authorization : Option String) :
    Except Response (User × Tenant) :=
  match Server.authenticateJWT env s.principals authorization with
  | .error r => .error (ofResponse r)
  | .ok p => .ok p

/-- The values a standard validator or sanitizer of `express-validator` is run
on: every element of an array, else the field itself. -/
def values : FieldValue → List String
  | JsValue.string s => [s]
  | JsValue.other items => items

/-- The `.trim()` sanitizer on a field: it rewrites every element of an array,
else the field itself. -/
def trimField : FieldValue → FieldValue
  | JsValue.string s => JsValue.string (trim s)
  | JsValue.other items => JsValue.other (items.map trim)

/-- The errors `.isLength({ min: 1, max }).withMessage(message)` records for a
field: one for every value that fails `isLength`. -/
def lengthErrors (max : Nat) (message : String) (v : FieldValue) : List String :=
  ((values v).filter (fun x => !isLength 1 (some max) x)).map (fun _ => message)

/-- Chain `body(f).trim().isLength({ min: 1, max }).withMessage(message)` of
`POST /notes`: the rewritten field (a missing field is read as the empty
string) and the errors recorded. -/
def requiredField (max : Nat) (message : String) (v : Option FieldValue) :
    FieldValue × List String :=
  let t := trimField (v.getD (JsValue.string ""))
  (t, lengthErrors max message t)

/-- Chain `body(f).optional().trim().isLength({ min: 1, max }).withMessage(message)`
of `PUT /notes/:id`: a missing field is skipped and stays missing. -/
def optionalField (max : Nat) (message : String) (v : Option FieldValue) :
    Option FieldValue × List String :=
  match v with
  | none => (none, [])
  | some f => (some (trimField f), lengthErrors max message (trimField f))

/-- Handler of `GET /notes`. -/
def getNotes (env : Env) (s : Store) (authorization : Option String) : Response × Store :=
  match authenticateJWT env s authorization with
  | .error r => (r, s)
  | .ok (_, tenant) =>
    let tenantNotes := s.NOTES.filter (fun note => note.tenant == tenant.slug)
    let canCreateMore :=
      tenant.plan == "pro" || tenant.noteLimit == -1 ||
        decide ((tenantNotes.length : Int) < tenant.noteLimit)
    ({ status := 200, success := true, error := none, message := none,
       data := ResponseData.notes tenantNotes tenantNotes.length tenant
         { current := tenantNotes.length, limit := tenant.noteLimit,
           canCreateMore := canCreateMore, planType := tenant.plan } }, s)

/-- Handler of `GET /notes/:id`. -/
def getNote (env : Env) (s : Store) (authorization : Option String) (id : String) :
    Response × Store :=
  match authenticateJWT env s authorization with
  | .error r => (r, s)
  | .ok (_, tenant) =>
    let errors := collectErrors [(notEmpty id, "Note ID is required")]
    if errors ≠ [] then (ofResponse (validationError "Invalid note ID" errors), s)
    else
      match s.NOTES.find? (fun n => n.id == id && n.tenant == tenant.slug) with
      | none => (ofResponse Server.noteNotFound, s)
      | some note =>
        ({ status := 200, success := true, error := none, message := none,
           data := ResponseData.note note }, s)

/-- Handler of `POST /notes`.  `SecurityUtils.sanitizeInput` is applied to
whatever the chains left in `req.body`. -/
def createNote (env : Env) (s : Store) (authorization : Option String) (body : NoteBody) :
    Response × Store :=
  let title := requiredField 200 "Title is required and must be 1-200 characters" body.title
  let content :=
    requiredField 50000 "Content is required and must be 1-50000 characters" body.content
  match authenticateJWT env s authorization with
  | .error r => (r, s)
  | .ok (user, tenant) =>
    let errors := title.2 ++ content.2
    if errors ≠ [] then (ofResponse (validationError "Invalid input data" errors), s)
    else
      let tenantNotes := s.NOTES.filter (fun note => note.tenant == tenant.slug)
      if tenant.plan = "free" ∧ tenant.noteLimit ≠ -1 ∧
          (tenantNotes.length : Int) ≥ tenant.noteLimit then
        (ofResponse (Server.noteLimitExceeded tenantNotes.length tenant), s)
      else
        let newNote : Note :=
          { id := env.uuidv4,
            title := sanitizeInputValue title.1,
            content := sanitizeInputValue content.1,
            tenant := tenant.slug,
            userId := user.id,
            createdAt := env.toISOString (env.clock 0),
            updatedAt := env.toISOString (env.clock 1) }
        ({ status := 201, success := true, error := none,
           message := some "Note created successfully", data := ResponseData.note newNote },
         { s with NOTES := s.NOTES ++ [newNote] })

/-- The three assignments of `PUT /notes/:id` to `NOTES[noteIndex]`. -/
def applyUpdate (title content : Option FieldValue) (updatedAt : String) (n : Note) : Note :=
  { n with
    title := (title.map sanitizeInputValue).getD n.title,
    content := (content.map sanitizeInputValue).getD n.content,
    updatedAt := updatedAt }

/-- Handler of `PUT /notes/:id`. -/
def updateNote (env : Env) (s : Store) (authorization : Option String) (id : String)
    (body : NoteBody) : Response × Store :=
  let title := optionalField 200 "Title must be 1-200 characters" body.title
  let content := optionalField 50000 "Content must be 1-50000 characters" body.content
  match authenticateJWT env s authorization with
  | .error r => (r, s)
  | .ok (_, tenant) =>
    let errors := collectErrors [(notEmpty id, "Note ID is required")] ++ title.2 ++ content.2
    if errors ≠ [] then (ofResponse (validationError "Invalid input data" errors), s)
    else
      match findIndex (fun n => n.id == id && n.tenant == tenant.slug) s.NOTES with
      | none => (ofResponse Server.noteNotFound, s)
      | some noteIndex =>
        let notes := modifyAt (applyUpdate title.1 content.1 (env.toISOString (env.clock 0)))
          noteIndex s.NOTES
        match notes[noteIndex]? with
        | none => (ofResponse (failure 500 "UPDATE_ERROR" "Error updating note"), s)
        | some note =>
          ({ status := 200, success := true, error := none,
             message := some "Note updated successfully", data := ResponseData.note note },
           { s with NOTES := notes })

/-- Handler of `DELETE /notes/:id`. -/
def deleteNote (env : Env) (s : Store) (authorization : Option String) (id : String) :
    Response × Store :=
  match authenticateJWT env s authorization with
  | .error r => (r, s)
  | .ok (_, tenant) =>
    let errors := collectErrors [(notEmpty id, "Note ID is required")]
    if errors ≠ [] then (ofResponse (validationError "Invalid note ID" errors), s)
    else
      match findIndex (fun n => n.id == id && n.tenant == tenant.slug) s.NOTES with
      | none => (ofResponse Server.noteNotFound, s)
      | some noteIndex =>
        ({ status := 200, success := true, error := none,
           message := some "Note deleted successfully", data := ResponseData.none },
         { s with NOTES := s.NOTES.eraseIdx noteIndex })

/-- Handler of `POST /auth/login`, which reads `USERS` and `TENANTS` and writes
`USERS` only. -/
def login (env : Env) (s : Store) (email password : Option String) : Response × Store :=
  (ofResponse (Server.login env s.principals email password).1,
   { s with USERS := (Server.login env s.principals email password).2.USERS })

/-- Handler of `POST /tenants/:slug/upgrade`, which reads `USERS` and `TENANTS`
and writes `TENANTS` only. -/
def upgradeTenant (env : Env) (s : Store) (authorization : Option String) (slug : String) :
    Response × Store :=
  (ofResponse (Server.upgradeTenant env s.principals authorization slug).1,
   { s with TENANTS := (Server.upgradeTenant env s.principals authorization slug).2.TENANTS })

/-- One request to the API.  The login body keeps its string fields: the
handler writes to the store only after `USERS.find(u => u.email === email)`
and the password check have succeeded, which a field that is not a string
never passes. -/
inductive Request where
  | login (email password : Option String)
  | getNotes (authorization : Option String)
  | getNote (authorization : Option String) (id : String)
  | createNote (authorization : Option String) (body : NoteBody)
  | updateNote (authorization : Option String) (id : String) (body : NoteBody)
  | deleteNote (authorization : Option String) (id : String)
  | upgradeTenant (authorization : Option String) (slug : String)
deriving DecidableEq, Repr

/-- One request run to completion against the store. -/
def handle (env : Env) (s : Store) : Request → Response × Store
  | .login email password => login env s email password
  | .getNotes a => getNotes env s a
  | .getNote a id => getNote env s a id
  | .createNote a body => createNote env s a body
  | .updateNote a id body => updateNote env s a id body
  | .deleteNote a id => deleteNote env s a id
  | .upgradeTenant a slug => upgradeTenant env s a slug

/-- Stores the server can be in: the seed, and whatever a request makes of a reachable store. -/
inductive Reachable : Store → Prop where
  | seed : Reachable seedStore
  | step {s : Store} (env : Env) (req : Request) : Reachable s → Reachable (handle env s req).2

/-- A request of `Server`, as a request of this section. -/
def ofRequest : Server.Request → Request
  | Server.Request.login email password => Request.login email password
  | Server.Request.getNotes a => Request.getNotes a
  | Server.Request.getNote a id => Request.getNote a id
  | Server.Request.createNote a body => Request.createNote a (ofBody body)
  | Server.Request.updateNote a id body => Request.updateNote a id (ofBody body)
  | Server.Request.deleteNote a id => Request.deleteNote a id
  | Server.Request.upgradeTenant a slug => Request.upgradeTenant a slug

/-- What the chains and `sanitizeInput` leave in a stored title or content.
A string is `sanitizeInput` of a trimmed text whose length as `isLength`
counts it is between 1 and `max`; an array is an array of trimmed texts,
stored as it is, each of counted length between 1 and `max`. -/
def StoredValue (max : Nat) : FieldValue → Prop
  | JsValue.string x =>
    ∃ u : String, x = sanitizeInput (trim u) ∧
      1 ≤ validatorLength (trim u) ∧ validatorLength (trim u) ≤ max
  | JsValue.other items =>
    ∃ us : List String, items = us.map trim ∧
      ∀ t ∈ items, 1 ≤ validatorLength t ∧ validatorLength t ≤ max

end Raw

namespace Raw

/-- A title of 41 ampersands. -/
def ampersandTitle : String :=
  String.mk (List.replicate 41 '&')

/-- A title of 200 times a backslash followed by the variation selector U+FE0F. -/
def selectorTitle : String :=
  String.mk ((List.replicate 200 ['\\', Char.ofNat 0xFE0F]).flatten)

/-- A title of 100 times the letter `a` followed by the variation selector
U+FE0F, and one more `a`: 201 code points, of which `isLength` counts 101. -/
def longSelectorTitle : String :=
  String.mk ((List.replicate 100 ['a', Char.ofNat 0xFE0F]).flatten ++ ['a'])

/-- A body with the given title and the content `x`. -/
def titleBody (title : FieldValue) : NoteBody :=
  { title := some title, content := some (JsValue.string "x"), extra := [] }

/-- The note `POST /notes` answers in `demoEnv` to `user@acme.test` when it
stores the given title with the content `x`. -/
def titleNote (title : FieldValue) : Note :=
  { id := demoEnv.uuidv4, title := title, content := JsValue.string "x", tenant := "acme",
    userId := "user_member_acme", createdAt := "2025-10-01T10:00:00.000Z",
    updatedAt := "2025-10-01T10:00:00.000Z" }

/-- The store after `user@acme.test` has posted `titleBody title` in the seed state. -/
def titleStore (title : FieldValue) : Store :=
  (handle demoEnv seedStore
    (Request.createNote (some "Bearer user_member_acme") (titleBody title))).2

end Raw

/-! # Theorems -/

/-! ## Array idioms: lemmas -/

theorem findIndex_eq_none_iff {α : Type} (p : α → Bool) (l : List α) :
    findIndex p l = none ↔ ∀ x ∈ l, p x = false := by
  induction l with
  | nil => simp [findIndex]
  | cons a l ih =>
    by_cases ha : p a = true
    · simp [findIndex, ha]
    · simp [findIndex, ha, ih]

theorem findIndex_some_get {α : Type} (p : α → Bool) (l : List α) (i : Nat)
    (h : findIndex p l = some i) : ∃ x, l[i]? = some x ∧ p x = true := by
  induction l generalizing i with
  | nil => simp [findIndex] at h
  | cons a l ih =>
    by_cases ha : p a = true
    · simp [findIndex, ha] at h
      subst h
      exact ⟨a, by simp, ha⟩
    · simp [findIndex, ha] at h
      obtain ⟨j, hj, rfl⟩ := h
      obtain ⟨x, hx, hpx⟩ := ih j hj
      exact ⟨x, by simpa using hx, hpx⟩

theorem findIndex_of_find? {α : Type} (p : α → Bool) (l : List α) (x : α)
    (h : l.find? p = some x) : ∃ i, findIndex p l = some i ∧ l[i]? = some x := by
  induction l with
  | nil => simp at h
  | cons a l ih =>
    by_cases ha : p a = true
    · simp [List.find?, ha] at h
      subst h
      exact ⟨0, by simp [findIndex, ha], by simp⟩
    · simp [List.find?, ha] at h
      obtain ⟨i, hi, hx⟩ := ih h
      exact ⟨i + 1, by simp [findIndex, ha, hi], by simpa using hx⟩

theorem find?_of_findIndex_none {α : Type} (p : α → Bool) (l : List α)
    (h : findIndex p l = none) : l.find? p = none := by
  rw [findIndex_eq_none_iff] at h
  simpa using h

theorem length_modifyAt {α : Type} (f : α → α) (i : Nat) (l : List α) :
    (modifyAt f i l).length = l.length := by
  induction l generalizing i with
  | nil => cases i <;> rfl
  | cons a l ih => cases i with
    | zero => rfl
    | succ i => simp [modifyAt, ih]

theorem get?_modifyAt {α : Type} (f : α → α) (i j : Nat) (l : List α) :
    (modifyAt f i l)[j]? = if j = i then (l[j]?).map f else l[j]? := by
  induction l generalizing i j with
  | nil => cases i <;> simp [modifyAt]
  | cons a l ih =>
    cases i with
    | zero => cases j <;> simp [modifyAt]
    | succ i => cases j with
      | zero => simp [modifyAt]
      | succ j => simpa [modifyAt] using ih i j

theorem map_modifyAt {α β : Type} (g : α → β) (f : α → α) (hg : ∀ x, g (f x) = g x) (i : Nat)
    (l : List α) : (modifyAt f i l).map g = l.map g := by
  induction l generalizing i with
  | nil => cases i <;> rfl
  | cons a l ih => cases i with
    | zero => simp [modifyAt, hg]
    | succ i => simp [modifyAt, ih]

theorem mem_modifyAt {α : Type} (f : α → α) (i : Nat) (l : List α) (x : α)
    (h : x ∈ modifyAt f i l) : x ∈ l ∨ ∃ y ∈ l, x = f y := by
  induction l generalizing i with
  | nil => cases i <;> simp [modifyAt] at h
  | cons a l ih =>
    cases i with
    | zero =>
      simp only [modifyAt, List.mem_cons] at h
      rcases h with h | h
      · exact Or.inr ⟨a, List.mem_cons_self _ _, h⟩
      · exact Or.inl (List.mem_cons_of_mem _ h)
    | succ i =>
      simp only [modifyAt, List.mem_cons] at h
      rcases h with h | h
      · exact Or.inl (h ▸ List.mem_cons_self _ _)
      · rcases ih i h with h1 | ⟨y, hy, hxy⟩
        · exact Or.inl (List.mem_cons_of_mem _ h1)
        · exact Or.inr ⟨y, List.mem_cons_of_mem _ hy, hxy⟩

theorem filter_modifyAt_of_findIndex {α : Type} (p q : α → Bool) (f : α → α) (l : List α)
    (i : Nat) (h : findIndex p l = some i)
    (hq : ∀ x, p x = true → q x = false ∧ q (f x) = false) :
    (modifyAt f i l).filter q = l.filter q := by
  induction l generalizing i with
  | nil => simp [findIndex] at h
  | cons a l ih =>
    by_cases ha : p a = true
    · simp [findIndex, ha] at h
      subst h
      simp [modifyAt, List.filter, (hq a ha).1, (hq a ha).2]
    · simp [findIndex, ha] at h
      obtain ⟨j, hj, rfl⟩ := h
      simp [modifyAt, List.filter, ih j hj]

theorem filter_eraseIdx_of_findIndex {α : Type} (p q : α → Bool) (l : List α) (i : Nat)
    (h : findIndex p l = some i) (hq : ∀ x, p x = true → q x = false) :
    (l.eraseIdx i).filter q = l.filter q := by
  induction l generalizing i with
  | nil => simp [findIndex] at h
  | cons a l ih =>
    by_cases ha : p a = true
    · simp [findIndex, ha] at h
      subst h
      simp [List.filter, hq a ha]
    · simp [findIndex, ha] at h
      obtain ⟨j, hj, rfl⟩ := h
      simp [List.filter, ih j hj]

theorem filter_modifyAt_length {α : Type} (q : α → Bool) (f : α → α)
    (hq : ∀ x, q (f x) = q x) (i : Nat) (l : List α) :
    ((modifyAt f i l).filter q).length = (l.filter q).length := by
  induction l generalizing i with
  | nil => cases i <;> rfl
  | cons a l ih =>
    cases i with
    | zero =>
      simp only [modifyAt, List.filter, hq]
      cases q a <;> simp
    | succ i =>
      simp only [modifyAt, List.filter]
      cases q a <;> simp [ih]

theorem filter_eraseIdx_length_le {α : Type} (q : α → Bool) (i : Nat) (l : List α) :
    ((l.eraseIdx i).filter q).length ≤ (l.filter q).length := by
  induction l generalizing i with
  | nil => simp
  | cons a l ih =>
    cases i with
    | zero =>
      simp only [List.eraseIdx, List.filter]
      cases q a <;> simp
    | succ i =>
      simp only [List.eraseIdx, List.filter]
      cases q a <;> simp [ih]

/-! ## Tenant isolation of the `/notes/:id` handlers -/

theorem notEmpty_of_ne {x : String} (h : x ≠ "") : notEmpty x = true := by
  have : x.length ≠ 0 := by
    intro h0
    apply h
    cases x with
    | mk d =>
      have hd : d = [] := List.length_eq_zero.mp h0
      subst hd
      rfl
  simp [notEmpty, this]

theorem no_match_of_foreign_note (notes : List Note) (N : Note) (slug : String)
    (hids : (notes.map Note.id).Nodup) (hN : N ∈ notes) (hten : N.tenant ≠ slug) :
    ∀ n ∈ notes, (n.id == N.id && n.tenant == slug) = false := by
  intro n hn
  by_cases hid : n.id = N.id
  · have hnN : n = N := List.inj_on_of_nodup_map hids hn hN hid
    subst hnN
    simp [hten]
  · simp [hid]

/-- C1 (as stated, refuted): `user@acme.test` sends `PUT /notes/:id` for the
seed note of tenant `globex` with an empty title.  The store has unique ids, the
principal is authenticated and the note belongs to another tenant, yet the
response is the 400 `VALIDATION_ERROR`, not `NOTE_NOT_FOUND`. -/
theorem cross_tenant_put_invalid_body_not_note_not_found :
    (seedStore.NOTES.map Note.id).Nodup ∧
    Server.authenticateJWT demoEnv seedStore (some "Bearer user_member_acme")
      = .ok (memberAcme, acmeTenant) ∧
    globexNote ∈ seedStore.NOTES ∧
    globexNote.tenant ≠ acmeTenant.slug ∧
    (Server.updateNote demoEnv seedStore (some "Bearer user_member_acme") globexNote.id
        { title := some "", content := none, extra := [] }).1
      = validationError "Invalid input data" ["Title must be 1-200 characters"] ∧
    (Server.updateNote demoEnv seedStore (some "Bearer user_member_acme") globexNote.id
        { title := some "", content := none, extra := [] }).1 ≠ Server.noteNotFound := by
  refine ⟨by decide, rfl, by decide, by decide, rfl, by decide⟩

/-- C1 (amended): in a store with unique note ids, for an authenticated
principal of any role and a stored note `N` of another tenant whose id is not
empty, `GET /notes/:id` and `DELETE /notes/:id` with `N.id` answer
`NOTE_NOT_FOUND`, and so does `PUT /notes/:id` when its body passes validation;
a `PUT` whose body fails validation answers `VALIDATION_ERROR`.  In every case
the response carries no note and the store is left as it was. -/
theorem cross_tenant_note_access_denied (env : Env) (s : Store)
    (authorization : Option String) (user : User) (tenant : Tenant) (N : Note) (body : NoteBody)
    (hids : (s.NOTES.map Note.id).Nodup)
    (hauth : Server.authenticateJWT env s authorization = .ok (user, tenant))
    (hN : N ∈ s.NOTES) (hten : N.tenant ≠ tenant.slug) (hid : N.id ≠ "") :
    Server.getNote env s authorization N.id = (Server.noteNotFound, s) ∧
    Server.deleteNote env s authorization N.id = (Server.noteNotFound, s) ∧
    ((optionalField 200 body.title).2 = true → (optionalField 50000 body.content).2 = true →
      Server.updateNote env s authorization N.id body = (Server.noteNotFound, s)) ∧
    (((optionalField 200 body.title).2 = false ∨ (optionalField 50000 body.content).2 = false) →
      (Server.updateNote env s authorization N.id body).1.error = some "VALIDATION_ERROR") ∧
    (Server.updateNote env s authorization N.id body).2 = s ∧
    (Server.getNote env s authorization N.id).1.carriedNotes = [] ∧
    (Server.updateNote env s authorization N.id body).1.carriedNotes = [] ∧
    (Server.deleteNote env s authorization N.id).1.carriedNotes = [] := by
  have hnone := no_match_of_foreign_note s.NOTES N tenant.slug hids hN hten
  have hfind : s.NOTES.find? (fun n => n.id == N.id && n.tenant == tenant.slug) = none := by
    rw [List.find?_eq_none]
    intro n hn
    simp [hnone n hn]
  have hidx : findIndex (fun n => n.id == N.id && n.tenant == tenant.slug) s.NOTES = none := by
    rw [findIndex_eq_none_iff]
    exact hnone
  have hne := notEmpty_of_ne hid
  have hget : Server.getNote env s authorization N.id = (Server.noteNotFound, s) := by
    simp [Server.getNote, hauth, collectErrors, hne, hfind]
  have hdel : Server.deleteNote env s authorization N.id = (Server.noteNotFound, s) := by
    simp [Server.deleteNote, hauth, collectErrors, hne, hidx]
  have hput : (optionalField 200 body.title).2 = true →
      (optionalField 50000 body.content).2 = true →
      Server.updateNote env s authorization N.id body = (Server.noteNotFound, s) := by
    intro h1 h2
    simp [Server.updateNote, hauth, collectErrors, hne, h1, h2, hidx]
  have hbad : ((optionalField 200 body.title).2 = false ∨
      (optionalField 50000 body.content).2 = false) →
      Server.updateNote env s authorization N.id body =
        (validationError "Invalid input data"
          (collectErrors
            [ (notEmpty N.id, "Note ID is required"),
              ((optionalField 200 body.title).2, "Title must be 1-200 characters"),
              ((optionalField 50000 body.content).2, "Content must be 1-50000 characters") ]),
         s) := by
    intro h
    have hne2 : collectErrors
            [ (notEmpty N.id, "Note ID is required"),
              ((optionalField 200 body.title).2, "Title must be 1-200 characters"),
              ((optionalField 50000 body.content).2, "Content must be 1-50000 characters") ]
          ≠ [] := by
      rcases h with h | h <;> simp [collectErrors, hne, h]
    simp only [Server.updateNote, hauth]
    rw [if_pos hne2]
  refine ⟨hget, hdel, hput, ?_, ?_, ?_, ?_, ?_⟩
  · intro h
    rw [hbad h]
    rfl
  · by_cases h1 : (optionalField 200 body.title).2 = true
    · by_cases h2 : (optionalField 50000 body.content).2 = true
      · rw [hput h1 h2]
      · rw [hbad (Or.inr (by simpa using h2))]
    · rw [hbad (Or.inl (by simpa using h1))]
  · rw [hget]; rfl
  · by_cases h1 : (optionalField 200 body.title).2 = true
    · by_cases h2 : (optionalField 50000 body.content).2 = true
      · rw [hput h1 h2]; rfl
      · rw [hbad (Or.inr (by simpa using h2))]; rfl
    · rw [hbad (Or.inl (by simpa using h1))]; rfl
  · rw [hdel]; rfl

/-- Witness for C1 (amended): `user@acme.test` against the seed note of `globex`. -/
theorem cross_tenant_note_access_denied_witness :
    Server.getNote demoEnv seedStore (some "Bearer user_member_acme") globexNote.id
      = (Server.noteNotFound, seedStore) ∧
    Server.deleteNote demoEnv seedStore (some "Bearer user_member_acme") globexNote.id
      = (Server.noteNotFound, seedStore) :=
  have h := cross_tenant_note_access_denied demoEnv seedStore (some "Bearer user_member_acme")
    memberAcme acmeTenant globexNote { title := none, content := none, extra := [] }
    (by decide) rfl (by decide) (by decide) (by decide)
  ⟨h.1, h.2.1⟩

/-! ## What each handler does to the store -/

theorem authenticateJWT_ok (env : Env) (s : Store) (authorization : Option String)
    (user : User) (tenant : Tenant)
    (h : Server.authenticateJWT env s authorization = .ok (user, tenant)) :
    ∃ payload : TokenPayload,
      s.USERS.find? (fun u => u.id == payload.id && u.active) = some user ∧
      s.TENANTS.find? (fun t => t.slug == payload.tenant && t.active) = some tenant ∧
      user.tenant = tenant.slug := by
  unfold Server.authenticateJWT at h
  split at h
  · exact absurd h (by simp)
  · split at h
    · exact absurd h (by simp)
    · split at h
      · exact absurd h (by simp)
      · rename_i payload _
        split at h
        · rename_i u t hu ht
          split at h
          · exact absurd h (by simp)
          · rename_i hut
            simp only [Except.ok.injEq, Prod.mk.injEq] at h
            obtain ⟨rfl, rfl⟩ := h
            exact ⟨payload, hu, ht, by simpa using hut⟩
        · exact absurd h (by simp)

theorem authenticateJWT_error (env : Env) (s : Store) (authorization : Option String)
    (r : Response) (h : Server.authenticateJWT env s authorization = .error r) :
    r.success = false ∧ r.data = ResponseData.none := by
  unfold Server.authenticateJWT at h
  repeat' split at h
  all_goals first
    | (simp only [Except.error.injEq] at h; subst h; exact ⟨rfl, rfl⟩)
    | exact absurd h (by simp)

theorem requireAdmin_some (user : User) (r : Response)
    (h : Server.requireAdmin (some user) = some r) :
    user.role ≠ "Admin" ∧ r = Server.insufficientPermissions user.role := by
  unfold Server.requireAdmin at h
  by_cases hrole : user.role = "Admin"
  · simp [hrole] at h
  · simp only [ne_eq, hrole, not_false_eq_true, if_true, Option.some.injEq] at h
    exact ⟨hrole, h.symm⟩

theorem requireAdmin_of_not_admin (user : User) (h : user.role ≠ "Admin") :
    Server.requireAdmin (some user) = some (Server.insufficientPermissions user.role) := by
  simp [Server.requireAdmin, h]

theorem requireAdmin_of_admin (user : User) (h : user.role = "Admin") :
    Server.requireAdmin (some user) = none := by
  simp [Server.requireAdmin, h]

theorem createNote_shape (env : Env) (s : Store) (authorization : Option String)
    (body : NoteBody) :
    (Server.createNote env s authorization body).2 = s ∨
    ∃ user tenant n,
      Server.authenticateJWT env s authorization = .ok (user, tenant) ∧
      ¬ (tenant.plan = "free" ∧ tenant.noteLimit ≠ -1 ∧
          (noteCount s.NOTES tenant.slug : Int) ≥ tenant.noteLimit) ∧
      n.tenant = tenant.slug ∧ n.userId = user.id ∧
      (Server.createNote env s authorization body).1.data = ResponseData.note n ∧
      (Server.createNote env s authorization body).2 = { s with NOTES := s.NOTES ++ [n] } := by
  unfold Server.createNote
  cases hauth : Server.authenticateJWT env s authorization with
  | error r => exact Or.inl rfl
  | ok p =>
    obtain ⟨user, tenant⟩ := p
    dsimp only
    split
    · exact Or.inl rfl
    · split
      · exact Or.inl rfl
      · rename_i hlim
        exact Or.inr ⟨user, tenant, _, rfl, hlim, rfl, rfl, rfl, rfl⟩

theorem updateNote_shape (env : Env) (s : Store) (authorization : Option String) (id : String)
    (body : NoteBody) :
    (Server.updateNote env s authorization id body).2 = s ∨
    ∃ user tenant i,
      Server.authenticateJWT env s authorization = .ok (user, tenant) ∧
      findIndex (fun n => n.id == id && n.tenant == tenant.slug) s.NOTES = some i ∧
      (Server.updateNote env s authorization id body).2 =
        { s with NOTES :=
            modifyAt (Server.applyUpdate (optionalField 200 body.title).1
              (optionalField 50000 body.content).1 (env.toISOString (env.clock 0))) i s.NOTES } := by
  unfold Server.updateNote
  cases hauth : Server.authenticateJWT env s authorization with
  | error r => exact Or.inl rfl
  | ok p =>
    obtain ⟨user, tenant⟩ := p
    dsimp only
    split
    · exact Or.inl rfl
    · split
      · exact Or.inl rfl
      · rename_i i hi
        split
        · exact Or.inl rfl
        · exact Or.inr ⟨user, tenant, i, rfl, hi, rfl⟩

theorem deleteNote_shape (env : Env) (s : Store) (authorization : Option String) (id : String) :
    (Server.deleteNote env s authorization id).2 = s ∨
    ∃ user tenant i,
      Server.authenticateJWT env s authorization = .ok (user, tenant) ∧
      findIndex (fun n => n.id == id && n.tenant == tenant.slug) s.NOTES = some i ∧
      (Server.deleteNote env s authorization id).2 = { s with NOTES := s.NOTES.eraseIdx i } := by
  unfold Server.deleteNote
  cases hauth : Server.authenticateJWT env s authorization with
  | error r => exact Or.inl rfl
  | ok p =>
    obtain ⟨user, tenant⟩ := p
    dsimp only
    split
    · exact Or.inl rfl
    · split
      · exact Or.inl rfl
      · rename_i i hi
        exact Or.inr ⟨user, tenant, i, rfl, hi, rfl⟩

theorem getNotes_store (env : Env) (s : Store) (authorization : Option String) :
    (Server.getNotes env s authorization).2 = s := by
  unfold Server.getNotes
  cases Server.authenticateJWT env s authorization with
  | error r => rfl
  | ok p => rfl

theorem getNote_store (env : Env) (s : Store) (authorization : Option String) (id : String) :
    (Server.getNote env s authorization id).2 = s := by
  unfold Server.getNote
  cases Server.authenticateJWT env s authorization with
  | error r => rfl
  | ok p =>
    dsimp only
    split
    · rfl
    · split <;> rfl

theorem login_store (env : Env) (s : Store) (email password : Option String) :
    (Server.login env s email password).2.TENANTS = s.TENANTS ∧
    (Server.login env s email password).2.NOTES = s.NOTES := by
  unfold Server.login
  dsimp only
  repeat' (first | exact ⟨rfl, rfl⟩ | split)

theorem upgradeTenant_shape (env : Env) (s : Store) (authorization : Option String)
    (slug : String) :
    ((Server.upgradeTenant env s authorization slug).1.success = false ∧
      (Server.upgradeTenant env s authorization slug).2 = s) ∨
    ∃ i t,
      findIndex (fun t => t.slug == slug && t.active) s.TENANTS = some i ∧
      s.TENANTS[i]? = some t ∧ t.plan ≠ "pro" ∧
      (Server.upgradeTenant env s authorization slug).1.data =
        ResponseData.tenant (Server.applyUpgrade (env.toISOString (env.clock 0)) t) ∧
      (Server.upgradeTenant env s authorization slug).2 =
        { s with TENANTS :=
            modifyAt (Server.applyUpgrade (env.toISOString (env.clock 0))) i s.TENANTS } := by
  unfold Server.upgradeTenant
  cases hauth : Server.authenticateJWT env s authorization with
  | error r => exact Or.inl ⟨(authenticateJWT_error env s authorization r hauth).1, rfl⟩
  | ok p =>
    obtain ⟨user, tenant⟩ := p
    dsimp only
    split
    · rename_i r hr
      rw [(requireAdmin_some user r hr).2]
      exact Or.inl ⟨rfl, rfl⟩
    · split
      · exact Or.inl ⟨rfl, rfl⟩
      · split
        · exact Or.inl ⟨rfl, rfl⟩
        · split
          · exact Or.inl ⟨rfl, rfl⟩
          · rename_i i hi
            split
            · exact Or.inl ⟨rfl, rfl⟩
            · rename_i t ht
              split
              · exact Or.inl ⟨rfl, rfl⟩
              · rename_i hplan
                exact Or.inr ⟨i, t, hi, ht, hplan, rfl, rfl⟩

/-! ## Frame: notes of other tenants -/

theorem createNote_frame (env : Env) (s : Store) (authorization : Option String)
    (user : User) (tenant : Tenant) (body : NoteBody) (B : String)
    (hauth : Server.authenticateJWT env s authorization = .ok (user, tenant))
    (hB : B ≠ tenant.slug) :
    (Server.createNote env s authorization body).2.NOTES.filter (fun n => n.tenant == B)
      = s.NOTES.filter (fun n => n.tenant == B) := by
  rcases createNote_shape env s authorization body with h | ⟨u, t, n, ha, _, hn, _, _, h⟩
  · rw [h]
  · rw [hauth] at ha
    simp only [Except.ok.injEq, Prod.mk.injEq] at ha
    obtain ⟨rfl, rfl⟩ := ha
    rw [h]
    have : (n.tenant == B) = false := by
      simp only [hn, beq_eq_false_iff_ne, ne_eq]
      exact fun hc => hB hc.symm
    simp [List.filter_append, List.filter, this]

theorem updateNote_frame (env : Env) (s : Store) (authorization : Option String)
    (user : User) (tenant : Tenant) (id : String) (body : NoteBody) (B : String)
    (hauth : Server.authenticateJWT env s authorization = .ok (user, tenant))
    (hB : B ≠ tenant.slug) :
    (Server.updateNote env s authorization id body).2.NOTES.filter (fun n => n.tenant == B)
      = s.NOTES.filter (fun n => n.tenant == B) := by
  rcases updateNote_shape env s authorization id body with h | ⟨u, t, i, ha, hi, h⟩
  · rw [h]
  · rw [hauth] at ha
    simp only [Except.ok.injEq, Prod.mk.injEq] at ha
    obtain ⟨rfl, rfl⟩ := ha
    rw [h]
    apply filter_modifyAt_of_findIndex _ _ _ _ _ hi
    intro x hx
    simp only [Bool.and_eq_true, beq_iff_eq] at hx
    have hxB : x.tenant ≠ B := fun hc => hB (hc.symm.trans hx.2)
    simp [Server.applyUpdate, hxB]

theorem deleteNote_frame (env : Env) (s : Store) (authorization : Option String)
    (user : User) (tenant : Tenant) (id : String) (B : String)
    (hauth : Server.authenticateJWT env s authorization = .ok (user, tenant))
    (hB : B ≠ tenant.slug) :
    (Server.deleteNote env s authorization id).2.NOTES.filter (fun n => n.tenant == B)
      = s.NOTES.filter (fun n => n.tenant == B) := by
  rcases deleteNote_shape env s authorization id with h | ⟨u, t, i, ha, hi, h⟩
  · rw [h]
  · rw [hauth] at ha
    simp only [Except.ok.injEq, Prod.mk.injEq] at ha
    obtain ⟨rfl, rfl⟩ := ha
    rw [h]
    apply filter_eraseIdx_of_findIndex _ _ _ _ hi
    intro x hx
    simp only [Bool.and_eq_true, beq_iff_eq] at hx
    have hxB : x.tenant ≠ B := fun hc => hB (hc.symm.trans hx.2)
    simp [hxB]

/-- C2: for an authenticated principal of tenant `A` and any other tenant `B`,
each of create, update, delete, get and list, with any id and any body, leaves
the subsequence of `NOTES` that belongs to `B` exactly as it was; the note a
create returns, and any note it adds to the store, has tenant `A` and the
principal's user id, whatever the body contains. -/
theorem other_tenants_notes_unchanged (env : Env) (s : Store)
    (authorization : Option String) (user : User) (tenant : Tenant) (B : String)
    (id : String) (body : NoteBody)
    (hauth : Server.authenticateJWT env s authorization = .ok (user, tenant))
    (hB : B ≠ tenant.slug) :
    (∀ req ∈ [Server.Request.createNote authorization body,
              Server.Request.updateNote authorization id body,
              Server.Request.deleteNote authorization id,
              Server.Request.getNote authorization id,
              Server.Request.getNotes authorization],
      (Server.handle env s req).2.NOTES.filter (fun n => n.tenant == B)
        = s.NOTES.filter (fun n => n.tenant == B)) ∧
    (∀ n, (Server.createNote env s authorization body).1.data = ResponseData.note n →
      n.tenant = tenant.slug ∧ n.userId = user.id) ∧
    (∀ n ∈ (Server.createNote env s authorization body).2.NOTES,
      n ∈ s.NOTES ∨ (n.tenant = tenant.slug ∧ n.userId = user.id)) := by
  refine ⟨?_, ?_, ?_⟩
  · intro req hreq
    simp only [List.mem_cons, List.mem_singleton, List.not_mem_nil, or_false] at hreq
    rcases hreq with rfl | rfl | rfl | rfl | rfl
    · exact createNote_frame env s authorization user tenant body B hauth hB
    · exact updateNote_frame env s authorization user tenant id body B hauth hB
    · exact deleteNote_frame env s authorization user tenant id B hauth hB
    · simp only [Server.handle, getNote_store]
    · simp only [Server.handle, getNotes_store]
  · intro n hn
    rcases createNote_shape env s authorization body with h | ⟨u, t, m, ha, _, hm1, hm2, hd, _⟩
    · exfalso
      revert hn h
      unfold Server.createNote
      rw [hauth]
      dsimp only
      split
      · intro hn; simp [validationError] at hn
      · split
        · intro hn; simp [Server.noteLimitExceeded] at hn
        · intro _ h
          have := congrArg (fun st => st.NOTES.length) h
          simp at this
    · rw [hauth] at ha
      simp only [Except.ok.injEq, Prod.mk.injEq] at ha
      obtain ⟨rfl, rfl⟩ := ha
      rw [hd] at hn
      simp only [ResponseData.note.injEq] at hn
      subst hn
      exact ⟨hm1, hm2⟩
  · intro n hn
    rcases createNote_shape env s authorization body with h | ⟨u, t, m, ha, _, hm1, hm2, _, h⟩
    · rw [h] at hn
      exact Or.inl hn
    · rw [hauth] at ha
      simp only [Except.ok.injEq, Prod.mk.injEq] at ha
      obtain ⟨rfl, rfl⟩ := ha
      rw [h] at hn
      simp only [List.mem_append, List.mem_singleton] at hn
      rcases hn with hn | rfl
      · exact Or.inl hn
      · exact Or.inr ⟨hm1, hm2⟩

/-- Witness for C2: `user@acme.test` creates a note whose body names tenant
`globex`; the notes of `globex` are as before. -/
theorem other_tenants_notes_unchanged_witness :
    (Server.handle demoEnv seedStore
        (Server.Request.createNote (some "Bearer user_member_acme") demoBody)).2.NOTES.filter
        (fun n => n.tenant == "globex")
      = seedStore.NOTES.filter (fun n => n.tenant == "globex") :=
  (other_tenants_notes_unchanged demoEnv seedStore (some "Bearer user_member_acme") memberAcme
    acmeTenant "globex" "note_sample_globex_1" demoBody rfl (by decide)).1 _
    (List.mem_cons_self _ _)

/-! ## Listing -/

theorem isListingFor_filter (T : String) (notes : List Note) :
    IsListingFor T notes (notes.filter (fun note => note.tenant == T)) := by
  refine ⟨?_, ?_, List.filter_sublist _⟩
  · intro n hn
    simpa using (List.mem_filter.mp hn).2
  · intro n hn
    exact List.count_filter (by simpa using hn)

/-- C3: listing the notes of tenant `T` returns exactly the stored notes of
`T`: only notes of `T`, each stored note of `T` as often as it is stored, in
storage order.  This holds for the server's `GET /notes` (where `count` and
`usage.current` are the length of the list and the store is not changed), for
`filterNotesByTenant` and for `getNotes` of `app.js`. -/
theorem listing_is_exactly_tenant_notes (env : Env) (s : Store)
    (authorization : Option String) (user : User) (tenant : Tenant)
    (rt : App.Runtime) (now : Nat) (st : App.State) (payload : App.Payload)
    (notes : List Note) (T : String)
    (hauth : Server.authenticateJWT env s authorization = .ok (user, tenant))
    (happ : App.requireAuth rt now st = .ok payload) :
    (∃ L usage,
      Server.getNotes env s authorization =
        ({ status := 200, success := true, error := none, message := none,
           data := ResponseData.notes L L.length tenant usage }, s) ∧
      usage.current = L.length ∧ IsListingFor tenant.slug s.NOTES L) ∧
    IsListingFor T notes (App.filterNotesByTenant notes T) ∧
    (∃ L, App.getNotes rt now st = .ok L ∧ IsListingFor payload.tenant st.NOTES_DATABASE L) := by
  refine ⟨?_, isListingFor_filter T notes, ?_⟩
  · refine ⟨s.NOTES.filter (fun note => note.tenant == tenant.slug),
      { current := (s.NOTES.filter (fun note => note.tenant == tenant.slug)).length,
        limit := tenant.noteLimit,
        canCreateMore := tenant.plan == "pro" || tenant.noteLimit == -1 ||
          decide (((s.NOTES.filter (fun note => note.tenant == tenant.slug)).length : Int)
            < tenant.noteLimit),
        planType := tenant.plan }, ?_, rfl, isListingFor_filter _ _⟩
    simp only [Server.getNotes, hauth]
  · refine ⟨st.NOTES_DATABASE.filter (fun note => note.tenant == payload.tenant), ?_,
      isListingFor_filter _ _⟩
    simp only [App.getNotes, happ, App.filterNotesByTenant]

/-- Witness for C3: `user@acme.test` on the server's seed store, the session of
`admin@acme.test` in `app.js`. -/
theorem listing_is_exactly_tenant_notes_witness :
    IsListingFor "globex" App.seedNotes (App.filterNotesByTenant App.seedNotes "globex") ∧
    ∃ L, App.getNotes App.demoRuntime 1759312800000 App.adminAcmeSession = .ok L ∧
      IsListingFor "acme" App.seedNotes L :=
  (listing_is_exactly_tenant_notes demoEnv seedStore (some "Bearer user_member_acme") memberAcme
    acmeTenant App.demoRuntime 1759312800000 App.adminAcmeSession App.adminAcmePayload
    App.seedNotes "globex" rfl rfl).2

/-! ## Plan limit at creation -/

/-- C4: for an authenticated principal whose tenant is on the free plan with a
limit other than -1 and already holds at least `noteLimit` notes, `POST /notes`
with a title and content that pass validation answers 403
`NOTE_LIMIT_EXCEEDED`, reporting the tenant's current note count and its
limit, and the store is unchanged. -/
theorem create_at_limit_rejected (env : Env) (s : Store) (authorization : Option String)
    (user : User) (tenant : Tenant) (body : NoteBody)
    (hauth : Server.authenticateJWT env s authorization = .ok (user, tenant))
    (hplan : tenant.plan = "free") (hlim : tenant.noteLimit ≠ -1)
    (hfull : tenant.noteLimit ≤ (noteCount s.NOTES tenant.slug : Int))
    (htitle : (requiredField 200 body.title).2 = true)
    (hcontent : (requiredField 50000 body.content).2 = true) :
    Server.createNote env s authorization body =
      ({ status := 403, success := false, error := some "NOTE_LIMIT_EXCEEDED",
         message := some "Note limit reached for your subscription plan",
         data := ResponseData.limit (noteCount s.NOTES tenant.slug) tenant.noteLimit "free" true },
       s) := by
  have hcond : tenant.plan = "free" ∧ tenant.noteLimit ≠ -1 ∧
      ((s.NOTES.filter (fun note => note.tenant == tenant.slug)).length : Int)
        ≥ tenant.noteLimit := ⟨hplan, hlim, hfull⟩
  simp only [Server.createNote, hauth, collectErrors, htitle, hcontent]
  rw [if_neg (by simp), if_pos hcond]
  simp [Server.noteLimitExceeded, noteCount, hplan]

/-- Witness for C4: `user@acme.test` when `acme` already holds three notes. -/
theorem create_at_limit_rejected_witness :
    Server.createNote demoEnv acmeFullStore (some "Bearer user_member_acme") demoBody =
      ({ status := 403, success := false, error := some "NOTE_LIMIT_EXCEEDED",
         message := some "Note limit reached for your subscription plan",
         data := ResponseData.limit (noteCount acmeFullStore.NOTES acmeTenant.slug)
           acmeTenant.noteLimit "free" true },
       acmeFullStore) :=
  create_at_limit_rejected demoEnv acmeFullStore (some "Bearer user_member_acme") memberAcme
    acmeTenant demoBody rfl rfl (by decide) (by decide) (by decide) (by decide)

/-! ## The plan limit is an invariant -/

theorem handle_tenants (env : Env) (s : Store) (req : Server.Request) :
    (Server.handle env s req).2.TENANTS = s.TENANTS ∨
    ∃ i upgradedAt,
      (Server.handle env s req).2.TENANTS =
        modifyAt (Server.applyUpgrade upgradedAt) i s.TENANTS ∧
      (Server.handle env s req).2.NOTES = s.NOTES := by
  cases req with
  | login email password => exact Or.inl (login_store env s email password).1
  | getNotes a => exact Or.inl (by simp only [Server.handle, getNotes_store])
  | getNote a id => exact Or.inl (by simp only [Server.handle, getNote_store])
  | createNote a body =>
    rcases createNote_shape env s a body with h | ⟨_, _, _, _, _, _, _, _, h⟩ <;>
      exact Or.inl (by simp only [Server.handle, h])
  | updateNote a id body =>
    rcases updateNote_shape env s a id body with h | ⟨_, _, _, _, _, h⟩ <;>
      exact Or.inl (by simp only [Server.handle, h])
  | deleteNote a id =>
    rcases deleteNote_shape env s a id with h | ⟨_, _, _, _, _, h⟩ <;>
      exact Or.inl (by simp only [Server.handle, h])
  | upgradeTenant a slug =>
    rcases upgradeTenant_shape env s a slug with ⟨_, h⟩ | ⟨i, _, _, _, _, _, h⟩
    · exact Or.inl (by simp only [Server.handle, h])
    · exact Or.inr ⟨i, env.toISOString (env.clock 0), by simp only [Server.handle, h],
        by simp only [Server.handle, h]⟩

theorem noteCount_append_singleton (notes : List Note) (n : Note) (slug : String) :
    noteCount (notes ++ [n]) slug = noteCount notes slug + (if n.tenant = slug then 1 else 0) := by
  unfold noteCount
  rw [List.filter_append, List.length_append]
  by_cases h : n.tenant = slug <;> simp [List.filter_cons, h]

theorem mem_tenants_of_authenticateJWT (env : Env) (s : Store) (authorization : Option String)
    (user : User) (tenant : Tenant)
    (h : Server.authenticateJWT env s authorization = .ok (user, tenant)) :
    tenant ∈ s.TENANTS := by
  obtain ⟨payload, _, ht, _⟩ := authenticateJWT_ok env s authorization user tenant h
  exact List.mem_of_find?_eq_some ht

theorem limitInv_handle (env : Env) (s : Store) (req : Server.Request) (h : LimitInv s) :
    LimitInv (Server.handle env s req).2 := by
  obtain ⟨hnd, hle⟩ := h
  cases req with
  | login email password =>
    obtain ⟨h1, h2⟩ := login_store env s email password
    simp only [LimitInv, Server.handle, h1, h2]
    exact ⟨hnd, hle⟩
  | getNotes a =>
    simp only [Server.handle, getNotes_store]
    exact ⟨hnd, hle⟩
  | getNote a id =>
    simp only [Server.handle, getNote_store]
    exact ⟨hnd, hle⟩
  | createNote a body =>
    rcases createNote_shape env s a body with h | ⟨user, tenant, n, ha, hlim, hn, _, _, h⟩
    · simp only [Server.handle, h]
      exact ⟨hnd, hle⟩
    · simp only [Server.handle, h]
      refine ⟨hnd, ?_⟩
      intro t ht hfree
      have hmem := mem_tenants_of_authenticateJWT env s a user tenant ha
      have hold := hle t ht hfree
      show (noteCount (s.NOTES ++ [n]) t.slug : Int) ≤ t.noteLimit
      rw [noteCount_append_singleton]
      by_cases hslug : n.tenant = t.slug
      · have heq : t = tenant := List.inj_on_of_nodup_map hnd ht hmem (by rw [← hslug, hn])
        subst heq
        rw [if_pos hslug]
        have hneg : ¬ ((noteCount s.NOTES t.slug : Int) ≥ t.noteLimit) := by
          intro hge
          apply hlim
          refine ⟨hfree, ?_, hge⟩
          intro hm1
          rw [hm1] at hold
          omega
        push_cast
        omega
      · rw [if_neg hslug]
        simpa using hold
  | updateNote a id body =>
    rcases updateNote_shape env s a id body with h | ⟨user, tenant, i, _, _, h⟩
    · simp only [Server.handle, h]
      exact ⟨hnd, hle⟩
    · simp only [Server.handle, h]
      refine ⟨hnd, ?_⟩
      intro t ht hfree
      have hcount : noteCount (modifyAt (Server.applyUpdate (optionalField 200 body.title).1
          (optionalField 50000 body.content).1 (env.toISOString (env.clock 0))) i s.NOTES) t.slug
          = noteCount s.NOTES t.slug :=
        filter_modifyAt_length (fun n : Note => n.tenant == t.slug)
          (Server.applyUpdate (optionalField 200 body.title).1
            (optionalField 50000 body.content).1 (env.toISOString (env.clock 0)))
          (fun x => rfl) i s.NOTES
      show (noteCount _ t.slug : Int) ≤ t.noteLimit
      rw [hcount]
      exact hle t ht hfree
  | deleteNote a id =>
    rcases deleteNote_shape env s a id with h | ⟨user, tenant, i, _, _, h⟩
    · simp only [Server.handle, h]
      exact ⟨hnd, hle⟩
    · simp only [Server.handle, h]
      refine ⟨hnd, ?_⟩
      intro t ht hfree
      have hcount : noteCount (s.NOTES.eraseIdx i) t.slug ≤ noteCount s.NOTES t.slug :=
        filter_eraseIdx_length_le _ i s.NOTES
      have hold := hle t ht hfree
      show (noteCount (s.NOTES.eraseIdx i) t.slug : Int) ≤ t.noteLimit
      omega
  | upgradeTenant a slug =>
    rcases upgradeTenant_shape env s a slug with ⟨_, h⟩ | ⟨i, t0, _, _, _, _, h⟩
    · simp only [Server.handle, h]
      exact ⟨hnd, hle⟩
    · simp only [Server.handle, h]
      refine ⟨?_, ?_⟩
      · show ((modifyAt _ i s.TENANTS).map Tenant.slug).Nodup
        rw [map_modifyAt Tenant.slug (Server.applyUpgrade (env.toISOString (env.clock 0)))
          (fun x => rfl)]
        exact hnd
      · intro t ht hfree
        rcases mem_modifyAt _ i s.TENANTS t ht with hmem | ⟨y, _, hy⟩
        · exact hle t hmem hfree
        · rw [hy] at hfree
          simp [Server.applyUpgrade] at hfree

theorem limitInv_seed : LimitInv seedStore := by
  refine ⟨by decide, ?_⟩
  intro t ht hfree
  simp only [seedStore, seedTenants, List.mem_cons, List.mem_singleton, List.not_mem_nil,
    or_false] at ht
  rcases ht with rfl | rfl <;> decide

theorem limitInv_of_reachable (s : Store) (h : Server.Reachable s) : LimitInv s := by
  induction h with
  | seed => exact limitInv_seed
  | step env req _ ih => exact limitInv_handle env _ req ih

/-- C5: in every store the server can reach from its seed state by any
sequence of login, list, get, create, update, delete and upgrade requests, each
run to completion, every tenant whose plan is `free` holds at most `noteLimit`
notes. -/
theorem free_tenants_within_limit (s : Store) (h : Server.Reachable s) :
    ∀ t ∈ s.TENANTS, t.plan = "free" → (noteCount s.NOTES t.slug : Int) ≤ t.noteLimit :=
  (limitInv_of_reachable s h).2

/-- Witness for C5: tenant `acme` in the store after `user@acme.test` has created one note. -/
theorem free_tenants_within_limit_witness :
    (noteCount (Server.handle demoEnv seedStore
        (Server.Request.createNote (some "Bearer user_member_acme") demoBody)).2.NOTES
        acmeTenant.slug : Int) ≤ acmeTenant.noteLimit :=
  free_tenants_within_limit _
    (Server.Reachable.step demoEnv
      (Server.Request.createNote (some "Bearer user_member_acme") demoBody) Server.Reachable.seed)
    acmeTenant (by decide) rfl

/-! ## `checkNoteLimit` of `app.js` -/

/-- C6: for a tenant that exists in `TENANTS`, `checkNoteLimit` returns
`canCreate = true` with `remaining = -1` when the plan is `pro` or the limit is
-1, whatever the note count; otherwise `canCreate` is true exactly when the
tenant's note count is below `noteLimit`, with `remaining = noteLimit - count`,
`limit = noteLimit` and `current = count`. -/
theorem checkNoteLimit_spec (s : App.State) (tenantSlug : String) (tenant : App.TenantRecord)
    (hex : App.tenantAt s.TENANTS tenantSlug = some tenant) :
    ((tenant.plan = "pro" ∨ tenant.noteLimit = -1) →
      App.checkNoteLimit s tenantSlug =
        .ok { canCreate := true, remaining := -1, limit := none, current := none }) ∧
    (¬ (tenant.plan = "pro" ∨ tenant.noteLimit = -1) →
      ∃ r, App.checkNoteLimit s tenantSlug = .ok r ∧
        (r.canCreate = true ↔ (noteCount s.NOTES_DATABASE tenantSlug : Int) < tenant.noteLimit) ∧
        r.remaining = tenant.noteLimit - (noteCount s.NOTES_DATABASE tenantSlug : Int) ∧
        r.limit = some tenant.noteLimit ∧
        r.current = some (noteCount s.NOTES_DATABASE tenantSlug)) := by
  constructor
  · intro h
    simp only [App.checkNoteLimit, hex]
    rw [if_pos h]
  · intro h
    refine ⟨{ canCreate :=
                decide (tenant.noteLimit - (noteCount s.NOTES_DATABASE tenantSlug : Int) > 0),
              remaining := tenant.noteLimit - (noteCount s.NOTES_DATABASE tenantSlug : Int),
              limit := some tenant.noteLimit,
              current := some (noteCount s.NOTES_DATABASE tenantSlug) }, ?_, ?_, rfl, rfl, rfl⟩
    · simp only [App.checkNoteLimit, hex]
      rw [if_neg h]
      rfl
    · simp only [decide_eq_true_eq]
      omega

/-- Witness for C6: tenant `acme` in the seed state of `app.js`, two notes out of three. -/
theorem checkNoteLimit_spec_witness :
    ∃ r, App.checkNoteLimit App.seedState "acme" = .ok r ∧
      (r.canCreate = true ↔ (noteCount App.seedState.NOTES_DATABASE "acme" : Int) < 3) ∧
      r.remaining = 3 - (noteCount App.seedState.NOTES_DATABASE "acme" : Int) ∧
      r.limit = some 3 ∧
      r.current = some (noteCount App.seedState.NOTES_DATABASE "acme") :=
  (checkNoteLimit_spec App.seedState "acme"
    { slug := "acme", name := "Acme Corporation", plan := "free", noteLimit := 3 } rfl).2
    (by decide)

/-! ## The upgrade handler -/

theorem tenantIndex_of_authenticateJWT (env : Env) (s : Store) (authorization : Option String)
    (user : User) (tenant : Tenant)
    (h : Server.authenticateJWT env s authorization = .ok (user, tenant)) :
    ∃ i, findIndex (fun t => t.slug == user.tenant && t.active) s.TENANTS = some i ∧
      s.TENANTS[i]? = some tenant := by
  obtain ⟨payload, _, ht, hut⟩ := authenticateJWT_ok env s authorization user tenant h
  have hp := List.find?_some ht
  simp only [Bool.and_eq_true, beq_iff_eq] at hp
  have : payload.tenant = user.tenant := by rw [hut, hp.1]
  rw [this] at ht
  exact findIndex_of_find? _ _ _ ht

theorem upgradeTenant_not_admin (env : Env) (s : Store) (authorization : Option String)
    (user : User) (tenant : Tenant) (slug : String)
    (hauth : Server.authenticateJWT env s authorization = .ok (user, tenant))
    (hrole : user.role ≠ "Admin") :
    Server.upgradeTenant env s authorization slug
      = ({ status := 403, success := false, error := some "INSUFFICIENT_PERMISSIONS",
           message := some "Admin role required for this operation",
           data := ResponseData.userRole user.role }, s) := by
  simp only [Server.upgradeTenant, hauth, requireAdmin_of_not_admin user hrole]
  rfl

theorem upgradeTenant_cross_tenant (env : Env) (s : Store) (authorization : Option String)
    (user : User) (tenant : Tenant) (slug : String)
    (hauth : Server.authenticateJWT env s authorization = .ok (user, tenant))
    (halpha : isAlpha slug = true) (hrole : user.role = "Admin") (hslug : tenant.slug ≠ slug) :
    Server.upgradeTenant env s authorization slug
      = (failure 403 "UNAUTHORIZED_TENANT_ACCESS" "You can only upgrade your own tenant", s) := by
  obtain ⟨_, _, _, hut⟩ := authenticateJWT_ok env s authorization user tenant hauth
  have hne : user.tenant ≠ slug := by rw [hut]; exact hslug
  simp only [Server.upgradeTenant, hauth, requireAdmin_of_admin user hrole]
  simp [collectErrors, halpha, hne]

theorem upgradeTenant_already_pro (env : Env) (s : Store) (authorization : Option String)
    (user : User) (tenant : Tenant) (slug : String)
    (hauth : Server.authenticateJWT env s authorization = .ok (user, tenant))
    (halpha : isAlpha slug = true) (hrole : user.role = "Admin") (hslug : tenant.slug = slug)
    (hpro : tenant.plan = "pro") :
    Server.upgradeTenant env s authorization slug
      = (failure 400 "ALREADY_PRO_PLAN" "Tenant is already on Pro plan", s) := by
  obtain ⟨_, _, _, hut⟩ := authenticateJWT_ok env s authorization user tenant hauth
  obtain ⟨i, hi, hget⟩ := tenantIndex_of_authenticateJWT env s authorization user tenant hauth
  have heq : user.tenant = slug := by rw [hut]; exact hslug
  rw [heq] at hi
  simp only [Server.upgradeTenant, hauth, requireAdmin_of_admin user hrole]
  simp [collectErrors, halpha, heq, hi, hget, hpro]

theorem upgradeTenant_success (env : Env) (s : Store) (authorization : Option String)
    (user : User) (tenant : Tenant) (slug : String)
    (hauth : Server.authenticateJWT env s authorization = .ok (user, tenant))
    (halpha : isAlpha slug = true) (hrole : user.role = "Admin") (hslug : tenant.slug = slug)
    (hfree : tenant.plan ≠ "pro") :
    ∃ i, findIndex (fun t => t.slug == slug && t.active) s.TENANTS = some i ∧
      Server.upgradeTenant env s authorization slug
        = ({ status := 200, success := true, error := none,
             message := some "Tenant upgraded to Pro plan successfully",
             data := ResponseData.tenant
               (Server.applyUpgrade (env.toISOString (env.clock 0)) tenant) },
           { s with TENANTS :=
               modifyAt (Server.applyUpgrade (env.toISOString (env.clock 0))) i s.TENANTS }) := by
  obtain ⟨_, _, _, hut⟩ := authenticateJWT_ok env s authorization user tenant hauth
  obtain ⟨i, hi, hget⟩ := tenantIndex_of_authenticateJWT env s authorization user tenant hauth
  have heq : user.tenant = slug := by rw [hut]; exact hslug
  rw [heq] at hi
  refine ⟨i, hi, ?_⟩
  simp only [Server.upgradeTenant, hauth, requireAdmin_of_admin user hrole]
  simp [collectErrors, halpha, heq, hi, hget, hfree]

/-- C7: for an authenticated principal and an alphabetic target slug, the
upgrade handler decides in this order: a principal who is not `Admin` gets
`INSUFFICIENT_PERMISSIONS`; an `Admin` of another tenant gets
`UNAUTHORIZED_TENANT_ACCESS`; an `Admin` of the target tenant gets
`ALREADY_PRO_PLAN` when the plan is `pro`, and success otherwise.  Every
failing case returns the store as it was. -/
theorem upgrade_decision_order (env : Env) (s : Store) (authorization : Option String)
    (user : User) (tenant : Tenant) (slug : String)
    (hauth : Server.authenticateJWT env s authorization = .ok (user, tenant))
    (halpha : isAlpha slug = true) :
    (user.role ≠ "Admin" →
      Server.upgradeTenant env s authorization slug
        = ({ status := 403, success := false, error := some "INSUFFICIENT_PERMISSIONS",
             message := some "Admin role required for this operation",
             data := ResponseData.userRole user.role }, s)) ∧
    (user.role = "Admin" → tenant.slug ≠ slug →
      Server.upgradeTenant env s authorization slug
        = (failure 403 "UNAUTHORIZED_TENANT_ACCESS" "You can only upgrade your own tenant", s)) ∧
    (user.role = "Admin" → tenant.slug = slug → tenant.plan = "pro" →
      Server.upgradeTenant env s authorization slug
        = (failure 400 "ALREADY_PRO_PLAN" "Tenant is already on Pro plan", s)) ∧
    (user.role = "Admin" → tenant.slug = slug → tenant.plan ≠ "pro" →
      (Server.upgradeTenant env s authorization slug).1.status = 200 ∧
      (Server.upgradeTenant env s authorization slug).1.success = true ∧
      (Server.upgradeTenant env s authorization slug).1.error = none) := by
  refine ⟨upgradeTenant_not_admin env s authorization user tenant slug hauth,
    upgradeTenant_cross_tenant env s authorization user tenant slug hauth halpha,
    upgradeTenant_already_pro env s authorization user tenant slug hauth halpha, ?_⟩
  intro hrole hslug hfree
  obtain ⟨i, _, h⟩ :=
    upgradeTenant_success env s authorization user tenant slug hauth halpha hrole hslug hfree
  rw [h]
  exact ⟨rfl, rfl, rfl⟩

/-- Witness for C7: `user@acme.test`, a Member, asks to upgrade `acme`. -/
theorem upgrade_decision_order_witness :
    Server.upgradeTenant demoEnv seedStore (some "Bearer user_member_acme") "acme"
      = ({ status := 403, success := false, error := some "INSUFFICIENT_PERMISSIONS",
           message := some "Admin role required for this operation",
           data := ResponseData.userRole "Member" }, seedStore) :=
  (upgrade_decision_order demoEnv seedStore (some "Bearer user_member_acme") memberAcme
    acmeTenant "acme" rfl (by decide)).1 (by decide)

/-! ## Effect of a successful upgrade -/

theorem authenticateJWT_bearer (env : Env) (s : Store) (token : String) (p : TokenPayload)
    (user : User) (tenant : Tenant)
    (hv : env.jwtVerify token = some p)
    (hu : s.USERS.find? (fun u => u.id == p.id && u.active) = some user)
    (ht : s.TENANTS.find? (fun t => t.slug == p.tenant && t.active) = some tenant)
    (hut : user.tenant = tenant.slug) :
    Server.authenticateJWT env s (some ("Bearer " ++ token)) = .ok (user, tenant) := by
  have hdata : ("Bearer " ++ token).data = 'B' :: 'e' :: 'a' :: 'r' :: 'e' :: 'r' :: ' ' :: token.data := by
    rw [String.data_append]
    rfl
  have hpre : "Bearer ".data.isPrefixOf ("Bearer " ++ token).data = true := by
    rw [hdata]
    show List.isPrefixOf ['B', 'e', 'a', 'r', 'e', 'r', ' '] _ = true
    simp [List.isPrefixOf]
  have hdrop : String.mk (("Bearer " ++ token).data.drop 7) = token := by
    rw [hdata]
    rfl
  simp only [Server.authenticateJWT, Server.verifyJWT, hpre, hdrop, hv, hu, ht]
  simp [hut]

/-- C8: a successful upgrade of tenant `T` sets `T.plan` to `pro` and
`T.noteLimit` to -1 and keeps `T`'s slug, name, creation time and active flag;
every other tenant record, all notes and all users are unchanged.  From the
seed state the first upgrade of `acme` by `admin@acme.test` succeeds, and the
same request sent again is answered `ALREADY_PRO_PLAN` and changes nothing. -/
theorem upgrade_success_effect (env : Env) (s : Store) (authorization : Option String)
    (slug : String) (env1 env2 : Env) (token : String) (p : TokenPayload)
    (hok : (Server.upgradeTenant env s authorization slug).1.success = true)
    (hv1 : env1.jwtVerify token = some p) (hv2 : env2.jwtVerify token = some p)
    (hid : p.id = "user_admin_acme") (htenant : p.tenant = "acme") :
    (∃ i T U,
      findIndex (fun t => t.slug == slug && t.active) s.TENANTS = some i ∧
      s.TENANTS[i]? = some T ∧ T.slug = slug ∧
      (Server.upgradeTenant env s authorization slug).2.TENANTS[i]? = some U ∧
      (Server.upgradeTenant env s authorization slug).1.data = ResponseData.tenant U ∧
      U.plan = "pro" ∧ U.noteLimit = -1 ∧
      U.slug = T.slug ∧ U.name = T.name ∧ U.active = T.active ∧ U.createdAt = T.createdAt ∧
      (∀ j, j ≠ i →
        (Server.upgradeTenant env s authorization slug).2.TENANTS[j]? = s.TENANTS[j]?) ∧
      (Server.upgradeTenant env s authorization slug).2.TENANTS.length = s.TENANTS.length ∧
      (Server.upgradeTenant env s authorization slug).2.NOTES = s.NOTES ∧
      (Server.upgradeTenant env s authorization slug).2.USERS = s.USERS) ∧
    ((Server.upgradeTenant env1 seedStore (some ("Bearer " ++ token)) "acme").1.status = 200 ∧
     (Server.upgradeTenant env1 seedStore (some ("Bearer " ++ token)) "acme").1.success = true ∧
     Server.upgradeTenant env2
        (Server.upgradeTenant env1 seedStore (some ("Bearer " ++ token)) "acme").2
        (some ("Bearer " ++ token)) "acme"
       = (failure 400 "ALREADY_PRO_PLAN" "Tenant is already on Pro plan",
          (Server.upgradeTenant env1 seedStore (some ("Bearer " ++ token)) "acme").2)) := by
  constructor
  · rcases upgradeTenant_shape env s authorization slug with ⟨hf, _⟩ | ⟨i, T, hi, hT, _, hd, h⟩
    · rw [hf] at hok
      exact absurd hok (by simp)
    · obtain ⟨x, hx, hpx⟩ := findIndex_some_get _ _ _ hi
      rw [hT] at hx
      simp only [Option.some.injEq] at hx
      subst hx
      simp only [Bool.and_eq_true, beq_iff_eq] at hpx
      refine ⟨i, T, Server.applyUpgrade (env.toISOString (env.clock 0)) T, hi, hT, hpx.1, ?_, hd,
        rfl, rfl, rfl, rfl, rfl, rfl, ?_, ?_, ?_, ?_⟩
      · rw [h]
        show (modifyAt _ i s.TENANTS)[i]? = _
        rw [get?_modifyAt, if_pos rfl, hT]
        rfl
      · intro j hj
        rw [h]
        show (modifyAt _ i s.TENANTS)[j]? = _
        rw [get?_modifyAt, if_neg hj]
      · rw [h]
        exact length_modifyAt _ _ _
      · rw [h]
      · rw [h]
  · have hu0 : seedStore.USERS.find? (fun u => u.id == p.id && u.active) = some adminAcme := by
      rw [hid]; rfl
    have ht0 : seedStore.TENANTS.find? (fun t => t.slug == p.tenant && t.active)
        = some acmeTenant := by
      rw [htenant]; rfl
    have hauth1 := authenticateJWT_bearer env1 seedStore token p adminAcme acmeTenant hv1 hu0 ht0 rfl
    obtain ⟨i, hi, h1⟩ := upgradeTenant_success env1 seedStore (some ("Bearer " ++ token))
      adminAcme acmeTenant "acme" hauth1 (by decide) rfl rfl (by decide)
    have hi0 : i = 0 := by
      have : findIndex (fun t => t.slug == "acme" && t.active) seedStore.TENANTS = some 0 := rfl
      rw [this] at hi
      exact (Option.some.inj hi).symm
    subst hi0
    have hU : (Server.upgradeTenant env1 seedStore (some ("Bearer " ++ token)) "acme").2.USERS
        = seedStore.USERS := by rw [h1]
    have hT : (Server.upgradeTenant env1 seedStore (some ("Bearer " ++ token)) "acme").2.TENANTS
        = modifyAt (Server.applyUpgrade (env1.toISOString (env1.clock 0))) 0 seedStore.TENANTS := by
      rw [h1]
    have hstatus : (Server.upgradeTenant env1 seedStore (some ("Bearer " ++ token)) "acme").1.status
        = 200 := by rw [h1]
    have hsuccess :
        (Server.upgradeTenant env1 seedStore (some ("Bearer " ++ token)) "acme").1.success
        = true := by rw [h1]
    refine ⟨hstatus, hsuccess, ?_⟩
    have hu1 : (Server.upgradeTenant env1 seedStore (some ("Bearer " ++ token)) "acme").2.USERS.find?
        (fun u => u.id == p.id && u.active) = some adminAcme := by
      rw [hU]; exact hu0
    have ht1 :
        (Server.upgradeTenant env1 seedStore (some ("Bearer " ++ token)) "acme").2.TENANTS.find?
          (fun t => t.slug == p.tenant && t.active)
        = some (Server.applyUpgrade (env1.toISOString (env1.clock 0)) acmeTenant) := by
      rw [hT, htenant]; rfl
    have hauth2 := authenticateJWT_bearer env2 _ token p adminAcme _ hv2 hu1 ht1 rfl
    exact upgradeTenant_already_pro env2 _ (some ("Bearer " ++ token)) adminAcme _ "acme" hauth2
      (by decide) rfl rfl rfl

/-- Witness for C8: `admin@acme.test` upgrades `acme` from the seed state, twice. -/
theorem upgrade_success_effect_witness :
    (Server.upgradeTenant demoEnv seedStore (some ("Bearer " ++ "user_admin_acme")) "acme").1.status
      = 200 ∧
    (Server.upgradeTenant demoEnv seedStore (some ("Bearer " ++ "user_admin_acme")) "acme").1.success
      = true ∧
    Server.upgradeTenant demoEnv
        (Server.upgradeTenant demoEnv seedStore (some ("Bearer " ++ "user_admin_acme")) "acme").2
        (some ("Bearer " ++ "user_admin_acme")) "acme"
      = (failure 400 "ALREADY_PRO_PLAN" "Tenant is already on Pro plan",
         (Server.upgradeTenant demoEnv seedStore (some ("Bearer " ++ "user_admin_acme")) "acme").2) :=
  (upgrade_success_effect demoEnv seedStore (some "Bearer user_admin_acme") "acme" demoEnv demoEnv
    "user_admin_acme"
    { id := "user_admin_acme", email := "admin@acme.test", role := "Admin", tenant := "acme",
      iat := 1759312800, exp := 1759399200 }
    rfl rfl rfl rfl rfl).2

/-! ## Plan and limit move together, and only upwards -/

theorem tenantAt_mem (ts : List (String × App.TenantRecord)) (k : String) (t : App.TenantRecord)
    (h : App.tenantAt ts k = some t) : (k, t) ∈ ts := by
  induction ts with
  | nil => simp [App.tenantAt] at h
  | cons a ts ih =>
    obtain ⟨k0, t0⟩ := a
    by_cases hk : k0 = k
    · simp only [App.tenantAt, hk, if_true, Option.some.injEq] at h
      subst h
      subst hk
      exact List.mem_cons_self _ _
    · simp only [App.tenantAt, hk, if_false] at h
      exact List.mem_cons_of_mem _ (ih h)

theorem mem_modifyTenant (f : App.TenantRecord → App.TenantRecord) (k : String)
    (ts : List (String × App.TenantRecord)) (x : String × App.TenantRecord)
    (h : x ∈ App.modifyTenant f k ts) : x ∈ ts ∨ ∃ y ∈ ts, x = (y.1, f y.2) := by
  induction ts with
  | nil => simp [App.modifyTenant] at h
  | cons a ts ih =>
    obtain ⟨k0, t0⟩ := a
    by_cases hk : k0 = k
    · simp only [App.modifyTenant, hk, if_true, List.mem_cons] at h
      rcases h with h | h
      · exact Or.inr ⟨(k0, t0), List.mem_cons_self _ _, by rw [h, hk]⟩
      · exact Or.inl (List.mem_cons_of_mem _ h)
    · simp only [App.modifyTenant, hk, if_false, List.mem_cons] at h
      rcases h with h | h
      · exact Or.inl (h ▸ List.mem_cons_self _ _)
      · rcases ih h with h1 | ⟨y, hy, hxy⟩
        · exact Or.inl (List.mem_cons_of_mem _ h1)
        · exact Or.inr ⟨y, List.mem_cons_of_mem _ hy, hxy⟩

theorem forall₂_refl_of {α : Type} (R : α → α → Prop) (hR : ∀ x, R x x) (l : List α) :
    List.Forall₂ R l l := by
  induction l with
  | nil => exact List.Forall₂.nil
  | cons a l ih => exact List.Forall₂.cons (hR a) ih

theorem forall₂_modifyAt {α : Type} (R : α → α → Prop) (f : α → α) (hR : ∀ x, R x x)
    (hf : ∀ x, R x (f x)) (i : Nat) (l : List α) : List.Forall₂ R l (modifyAt f i l) := by
  induction l generalizing i with
  | nil => cases i <;> exact List.Forall₂.nil
  | cons a l ih =>
    cases i with
    | zero => exact List.Forall₂.cons (hf a) (forall₂_refl_of R hR l)
    | succ i => exact List.Forall₂.cons (hR a) (ih i)

theorem forall₂_modifyTenant (R : String × App.TenantRecord → String × App.TenantRecord → Prop)
    (f : App.TenantRecord → App.TenantRecord) (hR : ∀ x, R x x) (hf : ∀ x, R x (x.1, f x.2))
    (k : String) (ts : List (String × App.TenantRecord)) :
    List.Forall₂ R ts (App.modifyTenant f k ts) := by
  induction ts with
  | nil => exact List.Forall₂.nil
  | cons a ts ih =>
    obtain ⟨k0, t0⟩ := a
    by_cases hk : k0 = k
    · simp only [App.modifyTenant, hk, if_true]
      exact List.Forall₂.cons (by simpa [hk] using hf (k0, t0)) (forall₂_refl_of R hR ts)
    · simp only [App.modifyTenant, hk, if_false]
      exact List.Forall₂.cons (hR _) ih

theorem app_createNote_tenants (rt : App.Runtime) (s : App.State) (title content : Option String) :
    (App.createNote rt s title content).2.TENANTS = s.TENANTS ∧
    (App.createNote rt s title content).2.currentTenant = s.currentTenant := by
  unfold App.createNote
  repeat' (first | exact ⟨rfl, rfl⟩ | split)

theorem app_updateNote_tenants (rt : App.Runtime) (s : App.State) (noteId : String)
    (title content : Option String) :
    (App.updateNote rt s noteId title content).2.TENANTS = s.TENANTS ∧
    (App.updateNote rt s noteId title content).2.currentTenant = s.currentTenant := by
  unfold App.updateNote
  repeat' (first | exact ⟨rfl, rfl⟩ | split)

theorem app_deleteNote_tenants (rt : App.Runtime) (s : App.State) (noteId : String) :
    (App.deleteNote rt s noteId).2.TENANTS = s.TENANTS ∧
    (App.deleteNote rt s noteId).2.currentTenant = s.currentTenant := by
  unfold App.deleteNote
  repeat' (first | exact ⟨rfl, rfl⟩ | split)

theorem app_performLogin_tenants (rt : App.Runtime) (s : App.State) (email password : String) :
    (App.performLogin rt s email password).TENANTS = s.TENANTS ∧
    ((App.performLogin rt s email password).currentTenant = s.currentTenant ∨
      ∃ k t, App.tenantAt s.TENANTS k = some t ∧
        (App.performLogin rt s email password).currentTenant = some t) := by
  unfold App.performLogin
  cases hauth : App.authenticateUser rt s email password with
  | error e => exact ⟨rfl, Or.inl rfl⟩
  | ok r =>
    obtain ⟨user, tenant, token⟩ := r
    have hten : ∃ k, App.tenantAt s.TENANTS k = some tenant := by
      unfold App.authenticateUser at hauth
      split at hauth
      · exact absurd hauth (by simp)
      · rename_i account _
        split at hauth
        · exact absurd hauth (by simp)
        · split at hauth
          · exact absurd hauth (by simp)
          · rename_i t ht
            simp only [Except.ok.injEq, Prod.mk.injEq] at hauth
            exact ⟨account.tenant, by rw [ht, hauth.2.1]⟩
    obtain ⟨k, hk⟩ := hten
    dsimp only
    split
    · exact ⟨rfl, Or.inr ⟨k, tenant, hk, rfl⟩⟩
    · exact ⟨rfl, Or.inr ⟨k, tenant, hk, rfl⟩⟩

theorem app_upgradeTenant_shape (s : App.State) (tenantSlug : String) :
    (App.upgradeTenant s tenantSlug).2 = s ∨
    ((App.upgradeTenant s tenantSlug).2.TENANTS
        = App.modifyTenant App.applyUpgrade tenantSlug s.TENANTS ∧
      ((App.upgradeTenant s tenantSlug).2.currentTenant = s.currentTenant ∨
        ∃ ct, s.currentTenant = some ct ∧
          (App.upgradeTenant s tenantSlug).2.currentTenant = some (App.applyUpgrade ct))) := by
  unfold App.upgradeTenant
  split
  · exact Or.inl rfl
  · split
    · exact Or.inl rfl
    · split
      · exact Or.inl rfl
      · split
        · exact Or.inl rfl
        · refine Or.inr ⟨rfl, ?_⟩
          dsimp only
          split
          · rename_i hct
            exact Or.inl hct.symm
          · rename_i ct hct
            split
            · exact Or.inr ⟨ct, hct, rfl⟩
            · exact Or.inl hct.symm

theorem app_step_tenants (rt : App.Runtime) (s : App.State) (c : App.Call) :
    ((App.step rt s c).TENANTS = s.TENANTS ∨
      ∃ k, (App.step rt s c).TENANTS = App.modifyTenant App.applyUpgrade k s.TENANTS) ∧
    ((App.step rt s c).currentTenant = s.currentTenant ∨
      (App.step rt s c).currentTenant = none ∨
      (∃ k t, App.tenantAt s.TENANTS k = some t ∧ (App.step rt s c).currentTenant = some t) ∨
      ∃ ct, s.currentTenant = some ct ∧
        (App.step rt s c).currentTenant = some (App.applyUpgrade ct)) := by
  cases c with
  | performLogin email password =>
    obtain ⟨h1, h2⟩ := app_performLogin_tenants rt s email password
    refine ⟨Or.inl h1, ?_⟩
    rcases h2 with h2 | h2
    · exact Or.inl h2
    · exact Or.inr (Or.inr (Or.inl h2))
  | handleLogout => exact ⟨Or.inl rfl, Or.inr (Or.inl rfl)⟩
  | logout => exact ⟨Or.inl rfl, Or.inr (Or.inl rfl)⟩
  | createNote title content =>
    obtain ⟨h1, h2⟩ := app_createNote_tenants rt s title content
    exact ⟨Or.inl h1, Or.inl h2⟩
  | getNotes => exact ⟨Or.inl rfl, Or.inl rfl⟩
  | getNote noteId => exact ⟨Or.inl rfl, Or.inl rfl⟩
  | updateNote noteId title content =>
    obtain ⟨h1, h2⟩ := app_updateNote_tenants rt s noteId title content
    exact ⟨Or.inl h1, Or.inl h2⟩
  | deleteNote noteId =>
    obtain ⟨h1, h2⟩ := app_deleteNote_tenants rt s noteId
    exact ⟨Or.inl h1, Or.inl h2⟩
  | upgradeTenant tenantSlug =>
    rcases app_upgradeTenant_shape s tenantSlug with h | ⟨h1, h2⟩
    · exact ⟨Or.inl (by simp only [App.step, h]), Or.inl (by simp only [App.step, h])⟩
    · refine ⟨Or.inr ⟨tenantSlug, h1⟩, ?_⟩
      rcases h2 with h2 | h2
      · exact Or.inl h2
      · exact Or.inr (Or.inr (Or.inr h2))

theorem planInv_server (s : Store) (h : Server.Reachable s) :
    ∀ t ∈ s.TENANTS, PlanMatchesLimit t.plan t.noteLimit := by
  induction h with
  | seed =>
    intro t ht
    simp only [seedStore, seedTenants, List.mem_cons, List.mem_singleton, List.not_mem_nil,
      or_false] at ht
    rcases ht with rfl | rfl <;> simp [PlanMatchesLimit]
  | step env req _ ih =>
    intro t ht
    rcases handle_tenants env _ req with h | ⟨i, ts, h, _⟩
    · rw [h] at ht
      exact ih t ht
    · rw [h] at ht
      rcases mem_modifyAt _ i _ t ht with hmem | ⟨y, _, hy⟩
      · exact ih t hmem
      · subst hy
        simp [PlanMatchesLimit, Server.applyUpgrade]

theorem planInv_app (st : App.State) (h : App.Reachable st) :
    (∀ kt ∈ st.TENANTS, PlanMatchesLimit kt.2.plan kt.2.noteLimit) ∧
    (∀ t, st.currentTenant = some t → PlanMatchesLimit t.plan t.noteLimit) := by
  induction h with
  | seed =>
    constructor
    · intro kt hkt
      simp only [App.seedState, App.seedTenants, List.mem_cons, List.mem_singleton,
        List.not_mem_nil, or_false] at hkt
      rcases hkt with rfl | rfl <;> simp [PlanMatchesLimit, App.FREE_PLAN_LIMIT]
    · intro t ht
      simp [App.seedState] at ht
  | step rt c _ ih =>
    obtain ⟨ihT, ihC⟩ := ih
    obtain ⟨hT, hC⟩ := app_step_tenants rt _ c
    constructor
    · intro kt hkt
      rcases hT with h | ⟨k, h⟩
      · rw [h] at hkt
        exact ihT kt hkt
      · rw [h] at hkt
        rcases mem_modifyTenant _ k _ kt hkt with hmem | ⟨y, _, hy⟩
        · exact ihT kt hmem
        · subst hy
          simp [PlanMatchesLimit, App.applyUpgrade, App.PRO_PLAN_LIMIT]
    · intro t ht
      rcases hC with h | h | ⟨k, u, hk, h⟩ | ⟨ct, hct, h⟩
      · rw [h] at ht
        exact ihC t ht
      · rw [h] at ht
        exact absurd ht (by simp)
      · rw [h] at ht
        simp only [Option.some.injEq] at ht
        subst ht
        exact ihT (k, u) (tenantAt_mem _ k u hk)
      · rw [h] at ht
        simp only [Option.some.injEq] at ht
        subst ht
        simp [PlanMatchesLimit, App.applyUpgrade, App.PRO_PLAN_LIMIT]

/-- C9: in every state reachable from the seed state, on the server and in the
`app.js` store alike, every tenant record has plan `pro` if and only if its
`noteLimit` is -1; in `app.js` this includes the record held in
`currentTenant`. -/
theorem plan_pro_iff_unlimited (s : Store) (st : App.State)
    (hs : Server.Reachable s) (hst : App.Reachable st) :
    (∀ t ∈ s.TENANTS, t.plan = "pro" ↔ t.noteLimit = -1) ∧
    (∀ kt ∈ st.TENANTS, kt.2.plan = "pro" ↔ kt.2.noteLimit = -1) ∧
    (∀ t, st.currentTenant = some t → (t.plan = "pro" ↔ t.noteLimit = -1)) :=
  ⟨planInv_server s hs, (planInv_app st hst).1, (planInv_app st hst).2⟩

/-- Witness for C9: the record of `acme` on the server after `admin@acme.test`
has upgraded it, and in `app.js` after the same admin has logged in and
upgraded it. -/
theorem plan_pro_iff_unlimited_witness :
    ((Server.applyUpgrade "2025-10-01T10:00:00.000Z" acmeTenant).plan = "pro" ↔
      (Server.applyUpgrade "2025-10-01T10:00:00.000Z" acmeTenant).noteLimit = -1) ∧
    ((App.applyUpgrade App.acmeRecord).plan = "pro" ↔
      (App.applyUpgrade App.acmeRecord).noteLimit = -1) :=
  have h := plan_pro_iff_unlimited
    (Server.handle demoEnv seedStore
      (Server.Request.upgradeTenant (some "Bearer user_admin_acme") "acme")).2
    (App.step App.demoRuntime App.adminAcmeSession (App.Call.upgradeTenant "acme"))
    (Server.Reachable.step demoEnv
      (Server.Request.upgradeTenant (some "Bearer user_admin_acme") "acme") Server.Reachable.seed)
    (App.Reachable.step App.demoRuntime (App.Call.upgradeTenant "acme")
      (App.Reachable.step App.demoRuntime (App.Call.performLogin "admin@acme.test" "password")
        App.Reachable.seed))
  ⟨h.1 (Server.applyUpgrade "2025-10-01T10:00:00.000Z" acmeTenant) (by decide),
   h.2.1 ("acme", App.applyUpgrade App.acmeRecord) (by decide)⟩

/-- C10: whatever the state, the operation and its arguments, on the server
and in `app.js`, an operation keeps the tenant table's length, order and
slugs, leaves `pro` every plan that was `pro` before it, and ends with a plan
`free` only where the plan was `free` before it. -/
theorem plan_never_downgraded (env : Env) (s : Store) (req : Server.Request)
    (rt : App.Runtime) (st : App.State) (c : App.Call) :
    List.Forall₂ (fun t u => u.slug = t.slug ∧ PlanStep t.plan u.plan)
      s.TENANTS (Server.handle env s req).2.TENANTS ∧
    List.Forall₂ (fun a b => b.1 = a.1 ∧ b.2.slug = a.2.slug ∧ PlanStep a.2.plan b.2.plan)
      st.TENANTS (App.step rt st c).TENANTS := by
  constructor
  · rcases handle_tenants env s req with h | ⟨i, ts, h, _⟩
    · rw [h]
      exact forall₂_refl_of _ (fun x => ⟨rfl, fun hx => hx, fun hx => hx⟩) _
    · rw [h]
      apply forall₂_modifyAt
      · exact fun x => ⟨rfl, fun hx => hx, fun hx => hx⟩
      · intro x
        refine ⟨rfl, fun _ => rfl, fun hx => ?_⟩
        simp [Server.applyUpgrade] at hx
  · rcases (app_step_tenants rt st c).1 with h | ⟨k, h⟩
    · rw [h]
      exact forall₂_refl_of _ (fun x => ⟨rfl, rfl, fun hx => hx, fun hx => hx⟩) _
    · rw [h]
      apply forall₂_modifyTenant
      · exact fun x => ⟨rfl, rfl, fun hx => hx, fun hx => hx⟩
      · intro x
        refine ⟨rfl, rfl, fun _ => rfl, fun hx => ?_⟩
        simp [App.applyUpgrade] at hx

/-! ## After an upgrade, creation is never limited -/

theorem find?_modifyAt_of_findIndex {α : Type} (p : α → Bool) (f : α → α)
    (hp : ∀ x, p (f x) = p x) (l : List α) (i : Nat) (h : findIndex p l = some i) :
    (modifyAt f i l).find? p = (l.find? p).map f := by
  induction l generalizing i with
  | nil => simp [findIndex] at h
  | cons a l ih =>
    by_cases ha : p a = true
    · simp [findIndex, ha] at h
      subst h
      simp [modifyAt, List.find?, ha, hp]
    · simp [findIndex, ha] at h
      obtain ⟨j, hj, rfl⟩ := h
      simp [modifyAt, List.find?, ha, ih j hj]

theorem find?_modifyAt_cases {α : Type} (p : α → Bool) (f : α → α)
    (hp : ∀ x, p (f x) = p x) (l : List α) (i : Nat) (y : α)
    (h : (modifyAt f i l).find? p = some y) :
    ∃ x, l.find? p = some x ∧ (y = x ∨ y = f x) := by
  induction l generalizing i with
  | nil => cases i <;> simp [modifyAt] at h
  | cons a l ih =>
    cases i with
    | zero =>
      by_cases ha : p a = true
      · simp only [modifyAt, List.find?, hp, ha, Option.some.injEq] at h
        exact ⟨a, by simp [List.find?, ha], Or.inr h.symm⟩
      · simp only [modifyAt, List.find?, hp, ha] at h
        exact ⟨y, by simp [List.find?, ha, h], Or.inl rfl⟩
    | succ i =>
      by_cases ha : p a = true
      · simp only [modifyAt, List.find?, ha, Option.some.injEq] at h
        exact ⟨a, by simp [List.find?, ha], Or.inl h.symm⟩
      · simp only [modifyAt, List.find?, ha] at h
        obtain ⟨x, hx, hxy⟩ := ih i h
        exact ⟨x, by simp [List.find?, ha, hx], hxy⟩

theorem proTenant_handle (slug : String) (env : Env) (s : Store) (req : Server.Request)
    (h : ∀ t, s.TENANTS.find? (fun t => t.slug == slug && t.active) = some t → t.plan = "pro") :
    ∀ t, (Server.handle env s req).2.TENANTS.find? (fun t => t.slug == slug && t.active) = some t →
      t.plan = "pro" := by
  intro t ht
  rcases handle_tenants env s req with h1 | ⟨i, ts, h1, _⟩
  · rw [h1] at ht
    exact h t ht
  · rw [h1] at ht
    obtain ⟨x, hx, hxy⟩ := find?_modifyAt_cases (fun t : Tenant => t.slug == slug && t.active)
      (Server.applyUpgrade ts) (fun x => rfl) _ i t ht
    rcases hxy with rfl | rfl
    · exact h _ hx
    · rfl

theorem proTenant_runRequests (slug : String) (ops : List (Env × Server.Request)) (s : Store)
    (h : ∀ t, s.TENANTS.find? (fun t => t.slug == slug && t.active) = some t → t.plan = "pro") :
    ∀ t, (runRequests s ops).TENANTS.find? (fun t => t.slug == slug && t.active) = some t →
      t.plan = "pro" := by
  induction ops generalizing s with
  | nil => exact h
  | cons op ops ih =>
    exact ih _ (proTenant_handle slug op.1 s op.2 h)

theorem proTenant_after_upgrade (env : Env) (s : Store) (authorization : Option String)
    (slug : String) (hok : (Server.upgradeTenant env s authorization slug).1.success = true) :
    ∀ t, (Server.upgradeTenant env s authorization slug).2.TENANTS.find?
        (fun t => t.slug == slug && t.active) = some t → t.plan = "pro" := by
  intro t ht
  rcases upgradeTenant_shape env s authorization slug with ⟨hf, _⟩ | ⟨i, T, hi, _, _, _, h⟩
  · rw [hf] at hok
    exact absurd hok (by simp)
  · rw [h] at ht
    have := find?_modifyAt_of_findIndex (fun t : Tenant => t.slug == slug && t.active)
      (Server.applyUpgrade (env.toISOString (env.clock 0))) (fun x => rfl) s.TENANTS i hi
    rw [this] at ht
    cases hfind : s.TENANTS.find? (fun t => t.slug == slug && t.active) with
    | none => rw [hfind] at ht; exact absurd ht (by simp)
    | some x =>
      rw [hfind] at ht
      simp only [Option.map_some', Option.some.injEq] at ht
      subst ht
      rfl

theorem createNote_success (env : Env) (s : Store) (authorization : Option String)
    (user : User) (tenant : Tenant) (body : NoteBody)
    (hauth : Server.authenticateJWT env s authorization = .ok (user, tenant))
    (htitle : (requiredField 200 body.title).2 = true)
    (hcontent : (requiredField 50000 body.content).2 = true)
    (hroom : ¬ (tenant.plan = "free" ∧ tenant.noteLimit ≠ -1 ∧
      (noteCount s.NOTES tenant.slug : Int) ≥ tenant.noteLimit)) :
    Server.createNote env s authorization body =
      ({ status := 201, success := true, error := none,
         message := some "Note created successfully",
         data := ResponseData.note
           { id := env.uuidv4,
             title := sanitizeInput (trim (body.title.getD "")),
             content := sanitizeInput (trim (body.content.getD "")),
             tenant := tenant.slug, userId := user.id,
             createdAt := env.toISOString (env.clock 0),
             updatedAt := env.toISOString (env.clock 1) } },
       { s with NOTES := s.NOTES ++
           [ { id := env.uuidv4,
               title := sanitizeInput (trim (body.title.getD "")),
               content := sanitizeInput (trim (body.content.getD "")),
               tenant := tenant.slug, userId := user.id,
               createdAt := env.toISOString (env.clock 0),
               updatedAt := env.toISOString (env.clock 1) } ] }) := by
  have hroom2 : ¬ (tenant.plan = "free" ∧ tenant.noteLimit ≠ -1 ∧
      ((s.NOTES.filter (fun note => note.tenant == tenant.slug)).length : Int)
        ≥ tenant.noteLimit) := hroom
  simp only [Server.createNote, hauth, collectErrors, htitle, hcontent]
  rw [if_neg (by simp), if_neg hroom2]
  rfl

/-- C11: once an upgrade of the tenant with slug `slug` has succeeded, then
after any further sequence of requests, a `POST /notes` by an authenticated
principal of that tenant whose title and content pass validation is answered
201, never `NOTE_LIMIT_EXCEEDED`, and the tenant's note count grows by exactly
one, whatever it was. -/
theorem create_after_upgrade_succeeds (env0 : Env) (s0 : Store) (a0 : Option String)
    (slug : String) (ops : List (Env × Server.Request)) (env : Env)
    (authorization : Option String) (user : User) (tenant : Tenant) (body : NoteBody)
    (hok : (Server.upgradeTenant env0 s0 a0 slug).1.success = true)
    (hauth : Server.authenticateJWT env
      (runRequests (Server.upgradeTenant env0 s0 a0 slug).2 ops) authorization
        = .ok (user, tenant))
    (hslug : tenant.slug = slug)
    (htitle : (requiredField 200 body.title).2 = true)
    (hcontent : (requiredField 50000 body.content).2 = true) :
    (Server.createNote env (runRequests (Server.upgradeTenant env0 s0 a0 slug).2 ops)
        authorization body).1.status = 201 ∧
    (Server.createNote env (runRequests (Server.upgradeTenant env0 s0 a0 slug).2 ops)
        authorization body).1.success = true ∧
    (Server.createNote env (runRequests (Server.upgradeTenant env0 s0 a0 slug).2 ops)
        authorization body).1.error ≠ some "NOTE_LIMIT_EXCEEDED" ∧
    noteCount (Server.createNote env (runRequests (Server.upgradeTenant env0 s0 a0 slug).2 ops)
        authorization body).2.NOTES slug
      = noteCount (runRequests (Server.upgradeTenant env0 s0 a0 slug).2 ops).NOTES slug + 1 := by
  obtain ⟨payload, _, ht, _⟩ := authenticateJWT_ok env _ authorization user tenant hauth
  have hp := List.find?_some ht
  simp only [Bool.and_eq_true, beq_iff_eq] at hp
  have hpt : payload.tenant = slug := by rw [← hp.1, hslug]
  rw [hpt] at ht
  have hpro : tenant.plan = "pro" :=
    proTenant_runRequests slug ops _ (proTenant_after_upgrade env0 s0 a0 slug hok) tenant ht
  have hroom : ¬ (tenant.plan = "free" ∧ tenant.noteLimit ≠ -1 ∧
      (noteCount (runRequests (Server.upgradeTenant env0 s0 a0 slug).2 ops).NOTES tenant.slug : Int)
        ≥ tenant.noteLimit) := by
    rw [hpro]
    intro hc
    exact absurd hc.1 (by decide)
  rw [createNote_success env _ authorization user tenant body hauth htitle hcontent hroom]
  refine ⟨rfl, rfl, by simp, ?_⟩
  show noteCount (_ ++ [_]) slug = _
  rw [noteCount_append_singleton, if_pos hslug]

/-- Witness for C11: `acme` is upgraded from the seed state, `user@acme.test`
fills it up to four notes, and a fifth create still succeeds. -/
theorem create_after_upgrade_succeeds_witness :
    (Server.createNote demoEnv
        (runRequests acmeProStore
          [ (demoEnv, Server.Request.createNote (some "Bearer user_member_acme") demoBody),
            (demoEnv, Server.Request.createNote (some "Bearer user_member_acme") demoBody),
            (demoEnv, Server.Request.createNote (some "Bearer user_member_acme") demoBody) ])
        (some "Bearer user_member_acme") demoBody).1.status = 201 :=
  (create_after_upgrade_succeeds demoEnv seedStore (some "Bearer user_admin_acme") "acme"
    [ (demoEnv, Server.Request.createNote (some "Bearer user_member_acme") demoBody),
      (demoEnv, Server.Request.createNote (some "Bearer user_member_acme") demoBody),
      (demoEnv, Server.Request.createNote (some "Bearer user_member_acme") demoBody) ]
    demoEnv (some "Bearer user_member_acme") memberAcme acmeProTenant demoBody
    rfl rfl rfl (by decide) (by decide)).1

/-! ## `sanitizeInput`, character by character -/

theorem replaceAll_append (c : Char) (r a b : List Char) :
    replaceAll c r (a ++ b) = replaceAll c r a ++ replaceAll c r b := by
  induction a with
  | nil => rfl
  | cons x xs ih =>
    by_cases hx : x = c <;> simp [replaceAll, hx, ih]

theorem replaceAll_of_not_mem (c : Char) (r l : List Char) (h : c ∉ l) :
    replaceAll c r l = l := by
  induction l with
  | nil => rfl
  | cons x xs ih =>
    simp only [List.mem_cons, not_or] at h
    have hx : ¬ x = c := fun e => h.1 e.symm
    simp [replaceAll, hx, ih h.2]

theorem sanitizeInput_eq (input : String) :
    sanitizeInput input = String.mk (sanitizeChars input.data) := rfl

theorem sanitizeChars_append (a b : List Char) :
    sanitizeChars (a ++ b) = sanitizeChars a ++ sanitizeChars b := by
  simp only [sanitizeChars, replaceAll_append]

theorem sanitizeChars_singleton (c : Char) : sanitizeChars [c] = escapeChar c := by
  by_cases h1 : c = '&'
  · subst h1; rfl
  by_cases h2 : c = '<'
  · subst h2; rfl
  by_cases h3 : c = '>'
  · subst h3; rfl
  by_cases h4 : c = '"'
  · subst h4; rfl
  by_cases h5 : c = '\''
  · subst h5; rfl
  by_cases h6 : c = '\\'
  · subst h6; rfl
  simp [sanitizeChars, escapeChar, replaceAll, h1, h2, h3, h4, h5, h6]

theorem sanitizeChars_cons (c : Char) (cs : List Char) :
    sanitizeChars (c :: cs) = escapeChar c ++ sanitizeChars cs := by
  have : c :: cs = [c] ++ cs := rfl
  rw [this, sanitizeChars_append, sanitizeChars_singleton]

theorem escapeChar_length (c : Char) :
    1 ≤ (escapeChar c).length ∧ (escapeChar c).length ≤ 6 := by
  unfold escapeChar
  repeat' split
  all_goals first | exact ⟨by decide, by decide⟩ | exact ⟨by simp, by simp⟩

theorem sanitizeChars_length (l : List Char) :
    l.length ≤ (sanitizeChars l).length ∧ (sanitizeChars l).length ≤ 6 * l.length := by
  induction l with
  | nil => exact ⟨Nat.le_refl _, Nat.le_refl _⟩
  | cons c cs ih =>
    have hc := escapeChar_length c
    rw [sanitizeChars_cons, List.length_append, List.length_cons]
    omega

theorem sanitizeChars_of_no_special (l : List Char) (h : ∀ c ∈ l, c ∉ specialChars) :
    sanitizeChars l = l := by
  have hnot : ∀ x ∈ specialChars, x ∉ l := fun x hx hxl => h x hxl hx
  unfold sanitizeChars
  rw [replaceAll_of_not_mem '&' _ l (hnot _ (by decide)),
    replaceAll_of_not_mem '<' _ l (hnot _ (by decide)),
    replaceAll_of_not_mem '>' _ l (hnot _ (by decide)),
    replaceAll_of_not_mem '"' _ l (hnot _ (by decide)),
    replaceAll_of_not_mem '\'' _ l (hnot _ (by decide)),
    replaceAll_of_not_mem '\\' _ l (hnot _ (by decide))]

theorem sanitizeInput_of_no_special (t : String) (h : ∀ c ∈ t.data, c ∉ specialChars) :
    sanitizeInput t = t := by
  rw [sanitizeInput_eq, sanitizeChars_of_no_special _ h]

theorem sanitizeInput_length (t : String) :
    t.length ≤ (sanitizeInput t).length ∧ (sanitizeInput t).length ≤ 6 * t.length := by
  rw [sanitizeInput_eq]
  exact sanitizeChars_length t.data

/-! ## Create, then get -/

theorem createNote_created (env : Env) (s : Store) (authorization : Option String)
    (user : User) (tenant : Tenant) (body : NoteBody)
    (hauth : Server.authenticateJWT env s authorization = .ok (user, tenant))
    (h201 : (Server.createNote env s authorization body).1.status = 201) :
    (requiredField 200 body.title).2 = true ∧ (requiredField 50000 body.content).2 = true ∧
    ¬ (tenant.plan = "free" ∧ tenant.noteLimit ≠ -1 ∧
      (noteCount s.NOTES tenant.slug : Int) ≥ tenant.noteLimit) := by
  simp only [Server.createNote, hauth] at h201
  split at h201
  · simp [validationError] at h201
  · rename_i herr
    split at h201
    · simp [Server.noteLimitExceeded] at h201
    · rename_i hroom
      refine ⟨?_, ?_, hroom⟩
      · cases ht : (requiredField 200 body.title).2
        · simp [collectErrors, ht] at herr
        · rfl
      · cases hc : (requiredField 50000 body.content).2
        · simp [collectErrors, hc] at herr
        · rfl

/-- C12 (as stated, refuted): `user@acme.test` creates a note titled `R&D` with
content `Q&A`; the create is accepted, and `GET /notes/:id` on the returned id
by the same principal returns the title `R&amp;D` and the content `Q&amp;A`,
not the trimmed strings that were submitted. -/
theorem round_trip_escapes_ampersand :
    (Server.createNote demoEnv seedStore (some "Bearer user_member_acme") ampersandBody).1.status
      = 201 ∧
    (Server.getNote demoEnv ampersandStore (some "Bearer user_member_acme") demoEnv.uuidv4).1.data
      = ResponseData.note
          { id := demoEnv.uuidv4, title := "R&amp;D", content := "Q&amp;A", tenant := "acme",
            userId := "user_member_acme", createdAt := "2025-10-01T10:00:00.000Z",
            updatedAt := "2025-10-01T10:00:00.000Z" } ∧
    "R&amp;D" ≠ trim "R&D" ∧ "Q&amp;A" ≠ trim "Q&A" := by
  refine ⟨rfl, rfl, by decide, by decide⟩

/-- C12 (amended): when `POST /notes` has accepted a title and content and the
id it hands out is not empty and not already in the store, a following
`GET /notes/:id` on that id by a principal of the same tenant returns the
created note; its title and content are the trimmed title and content with
`sanitizeInput` applied, and so are identical to the trimmed strings exactly
when these hold none of the characters `& < > " '` and backslash. -/
theorem create_then_get_round_trip (env : Env) (s : Store) (authorization : Option String)
    (user : User) (tenant : Tenant) (body : NoteBody)
    (env2 : Env) (a2 : Option String) (user2 : User) (tenant2 : Tenant)
    (hauth : Server.authenticateJWT env s authorization = .ok (user, tenant))
    (h201 : (Server.createNote env s authorization body).1.status = 201)
    (hfresh : ∀ n ∈ s.NOTES, n.id ≠ env.uuidv4) (hid : env.uuidv4 ≠ "")
    (hauth2 : Server.authenticateJWT env2 (Server.createNote env s authorization body).2 a2
      = .ok (user2, tenant2))
    (hsame : tenant2.slug = tenant.slug) :
    ∃ n,
      (Server.createNote env s authorization body).1.data = ResponseData.note n ∧
      n.id = env.uuidv4 ∧
      Server.getNote env2 (Server.createNote env s authorization body).2 a2 n.id
        = ({ status := 200, success := true, error := none, message := none,
             data := ResponseData.note n }, (Server.createNote env s authorization body).2) ∧
      n.title = sanitizeInput (trim (body.title.getD "")) ∧
      n.content = sanitizeInput (trim (body.content.getD "")) ∧
      ((∀ c ∈ (trim (body.title.getD "")).data, c ∉ specialChars) →
        n.title = trim (body.title.getD "")) ∧
      ((∀ c ∈ (trim (body.content.getD "")).data, c ∉ specialChars) →
        n.content = trim (body.content.getD "")) := by
  obtain ⟨htitle, hcontent, hroom⟩ := createNote_created env s authorization user tenant body hauth h201
  have hcreate := createNote_success env s authorization user tenant body hauth htitle hcontent hroom
  rw [hcreate] at hauth2
  rw [hcreate]
  refine ⟨_, rfl, rfl, ?_, rfl, rfl, ?_, ?_⟩
  · have hnone : s.NOTES.find? (fun n => n.id == env.uuidv4 && n.tenant == tenant.slug)
        = none := by
      rw [List.find?_eq_none]
      intro n hn
      simp [hfresh n hn]
    simp only [Server.getNote, hauth2, collectErrors, notEmpty_of_ne hid]
    simp [hnone, hsame]
  · exact fun h => sanitizeInput_of_no_special _ h
  · exact fun h => sanitizeInput_of_no_special _ h

/-- Witness for C12 (amended): `user@acme.test` creates a note from the seed
state and reads it back. -/
theorem create_then_get_round_trip_witness :
    ∃ n,
      (Server.createNote demoEnv seedStore (some "Bearer user_member_acme") demoBody).1.data
        = ResponseData.note n ∧
      n.id = demoEnv.uuidv4 ∧
      Server.getNote demoEnv
          (Server.createNote demoEnv seedStore (some "Bearer user_member_acme") demoBody).2
          (some "Bearer user_member_acme") n.id
        = ({ status := 200, success := true, error := none, message := none,
             data := ResponseData.note n },
           (Server.createNote demoEnv seedStore (some "Bearer user_member_acme") demoBody).2) ∧
      n.title = sanitizeInput (trim (demoBody.title.getD "")) ∧
      n.content = sanitizeInput (trim (demoBody.content.getD "")) :=
  match create_then_get_round_trip demoEnv seedStore (some "Bearer user_member_acme") memberAcme
    acmeTenant demoBody demoEnv (some "Bearer user_member_acme") memberAcme acmeTenant
    rfl rfl (by decide) (by decide) rfl rfl with
  | ⟨n, h1, h2, h3, h4, h5, _⟩ => ⟨n, h1, h2, h3, h4, h5⟩

/-! ## Length of stored titles and contents -/

theorem isLength_iff (min max : Nat) (x : String) :
    isLength min (some max) x = true ↔ min ≤ validatorLength x ∧ validatorLength x ≤ max := by
  simp [isLength]

theorem createNote_cases (env : Env) (s : Store) (authorization : Option String)
    (body : NoteBody) :
    (Server.createNote env s authorization body).2 = s ∨
    ∃ user tenant,
      Server.authenticateJWT env s authorization = .ok (user, tenant) ∧
      (requiredField 200 body.title).2 = true ∧ (requiredField 50000 body.content).2 = true ∧
      (Server.createNote env s authorization body).2 =
        { s with NOTES := s.NOTES ++
            [ { id := env.uuidv4,
                title := sanitizeInput (trim (body.title.getD "")),
                content := sanitizeInput (trim (body.content.getD "")),
                tenant := tenant.slug, userId := user.id,
                createdAt := env.toISOString (env.clock 0),
                updatedAt := env.toISOString (env.clock 1) } ] } := by
  cases hauth : Server.authenticateJWT env s authorization with
  | error r => exact Or.inl (by simp only [Server.createNote, hauth])
  | ok p =>
    obtain ⟨user, tenant⟩ := p
    by_cases h201 : (Server.createNote env s authorization body).1.status = 201
    · obtain ⟨ht, hc, hroom⟩ := createNote_created env s authorization user tenant body hauth h201
      exact Or.inr ⟨user, tenant, rfl, ht, hc,
        by rw [createNote_success env s authorization user tenant body hauth ht hc hroom]⟩
    · left
      revert h201
      simp only [Server.createNote, hauth]
      split
      · intro _; rfl
      · split
        · intro _; rfl
        · intro h; exact absurd rfl h

theorem updateNote_cases (env : Env) (s : Store) (authorization : Option String) (id : String)
    (body : NoteBody) :
    ((Server.updateNote env s authorization id body).1.success = false ∧
      (Server.updateNote env s authorization id body).2 = s) ∨
    ∃ user tenant i N,
      Server.authenticateJWT env s authorization = .ok (user, tenant) ∧
      (optionalField 200 body.title).2 = true ∧ (optionalField 50000 body.content).2 = true ∧
      findIndex (fun n => n.id == id && n.tenant == tenant.slug) s.NOTES = some i ∧
      s.NOTES[i]? = some N ∧
      Server.updateNote env s authorization id body =
        ({ status := 200, success := true, error := none,
           message := some "Note updated successfully",
           data := ResponseData.note
             (Server.applyUpdate (optionalField 200 body.title).1
               (optionalField 50000 body.content).1 (env.toISOString (env.clock 0)) N) },
         { s with NOTES :=
             modifyAt (Server.applyUpdate (optionalField 200 body.title).1
               (optionalField 50000 body.content).1 (env.toISOString (env.clock 0))) i s.NOTES }) := by
  unfold Server.updateNote
  cases hauth : Server.authenticateJWT env s authorization with
  | error r => exact Or.inl ⟨(authenticateJWT_error env s authorization r hauth).1, rfl⟩
  | ok p =>
    obtain ⟨user, tenant⟩ := p
    dsimp only
    split
    · exact Or.inl ⟨rfl, rfl⟩
    · rename_i herr
      have ht : (optionalField 200 body.title).2 = true := by
        cases h : (optionalField 200 body.title).2
        · simp [collectErrors, h] at herr
        · rfl
      have hc : (optionalField 50000 body.content).2 = true := by
        cases h : (optionalField 50000 body.content).2
        · simp [collectErrors, h] at herr
        · rfl
      split
      · exact Or.inl ⟨rfl, rfl⟩
      · rename_i i hi
        obtain ⟨N, hN, _⟩ := findIndex_some_get _ _ _ hi
        have hget : (modifyAt (Server.applyUpdate (optionalField 200 body.title).1
            (optionalField 50000 body.content).1 (env.toISOString (env.clock 0))) i s.NOTES)[i]?
            = some (Server.applyUpdate (optionalField 200 body.title).1
              (optionalField 50000 body.content).1 (env.toISOString (env.clock 0)) N) := by
          rw [get?_modifyAt, if_pos rfl, hN]
          rfl
        split
        · rename_i hnone
          rw [hget] at hnone
          exact absurd hnone (by simp)
        · rename_i note hnote
          rw [hget] at hnote
          simp only [Option.some.injEq] at hnote
          subst hnote
          exact Or.inr ⟨user, tenant, i, N, rfl, ht, hc, hi, hN, rfl⟩

theorem handle_notes_upgrade (env : Env) (s : Store) (a : Option String) (slug : String) :
    (Server.upgradeTenant env s a slug).2.NOTES = s.NOTES := by
  rcases upgradeTenant_shape env s a slug with ⟨_, h⟩ | ⟨_, _, _, _, _, _, h⟩ <;> rw [h]

/-! ## Validation at creation -/

theorem createNote_invalid (env : Env) (s : Store) (authorization : Option String)
    (user : User) (tenant : Tenant) (body : NoteBody)
    (hauth : Server.authenticateJWT env s authorization = .ok (user, tenant))
    (h : (requiredField 200 body.title).2 = false ∨ (requiredField 50000 body.content).2 = false) :
    Server.createNote env s authorization body =
      (validationError "Invalid input data"
        (collectErrors
          [ ((requiredField 200 body.title).2, "Title is required and must be 1-200 characters"),
            ((requiredField 50000 body.content).2,
              "Content is required and must be 1-50000 characters") ]), s) := by
  have hne : collectErrors
      [ ((requiredField 200 body.title).2, "Title is required and must be 1-200 characters"),
        ((requiredField 50000 body.content).2,
          "Content is required and must be 1-50000 characters") ] ≠ [] := by
    rcases h with h | h
    · simp [collectErrors, h]
    · cases ht : (requiredField 200 body.title).2 <;> simp [collectErrors, h]
  simp only [Server.createNote, hauth]
  rw [if_pos hne]

theorem createNote_valid_error (env : Env) (s : Store) (authorization : Option String)
    (user : User) (tenant : Tenant) (body : NoteBody)
    (hauth : Server.authenticateJWT env s authorization = .ok (user, tenant))
    (htitle : (requiredField 200 body.title).2 = true)
    (hcontent : (requiredField 50000 body.content).2 = true) :
    (Server.createNote env s authorization body).1.error = some "NOTE_LIMIT_EXCEEDED" ∨
    (Server.createNote env s authorization body).1.error = none := by
  simp only [Server.createNote, hauth, collectErrors, htitle, hcontent]
  rw [if_neg (by simp)]
  split
  · exact Or.inl rfl
  · exact Or.inr rfl

theorem requiredField_false_iff (max : Nat) (v : Option String) :
    (requiredField max v).2 = false ↔
      validatorLength (trim (v.getD "")) = 0 ∨ validatorLength (trim (v.getD "")) > max := by
  have h : (requiredField max v).2 = isLength 1 (some max) (trim (v.getD "")) := rfl
  rw [h, ← Bool.not_eq_true, isLength_iff]
  omega

/-! ## Frame of an update -/

theorem app_updateNote_cases (rt : App.Runtime) (s : App.State) (noteId : String)
    (title content : Option String) :
    (∃ e, App.updateNote rt s noteId title content = (.error e, s)) ∨
    ∃ i N,
      findIndex (fun n => n.id == noteId) s.NOTES_DATABASE = some i ∧
      s.NOTES_DATABASE[i]? = some N ∧
      (App.blank title || App.blank content) = false ∧
      App.validateTenantAccess rt (rt.clock 1) s N.tenant = .ok true ∧
      App.updateNote rt s noteId title content =
        (.ok { N with title := trim (title.getD ""), content := trim (content.getD ""),
                      updatedAt := rt.toISOString (rt.clock 2) },
         { s with NOTES_DATABASE :=
                    modifyAt (fun _ => { N with title := trim (title.getD ""),
                                                content := trim (content.getD ""),
                                                updatedAt := rt.toISOString (rt.clock 2) })
                      i s.NOTES_DATABASE }) := by
  unfold App.updateNote
  split
  · exact Or.inl ⟨_, rfl⟩
  · split
    · exact Or.inl ⟨_, rfl⟩
    · rename_i hblank
      split
      · exact Or.inl ⟨_, rfl⟩
      · rename_i i hi
        split
        · exact Or.inl ⟨_, rfl⟩
        · rename_i N hN
          split
          · exact Or.inl ⟨_, rfl⟩
          · rename_i b hb
            have hb2 : App.validateTenantAccess rt (rt.clock 1) s N.tenant = .ok true := by
              rw [hb]
              unfold App.validateTenantAccess at hb
              split at hb
              · exact absurd hb (by simp)
              · split at hb
                · exact absurd hb (by simp)
                · simp only [Except.ok.injEq] at hb
                  rw [← hb]
            exact Or.inr ⟨i, N, hi, hN, by simpa using hblank, hb2, rfl⟩

/-- C15: a successful update, by `PUT /notes/:id` on the server or by
`updateNote` of `app.js`, rewrites the one note `N` it found: the resulting
note is returned, sits at the position of `N`, and has the id, tenant, userId
and createdAt of `N`; its updatedAt is the time of the update; every other
position of the store, and the length of the store, are unchanged; on the
server a title or content left out of the request keeps its value. -/
theorem update_frame (env : Env) (s : Store) (authorization : Option String) (id : String)
    (body : NoteBody) (rt : App.Runtime) (st : App.State) (noteId : String)
    (title content : Option String) (V : Note)
    (hok : (Server.updateNote env s authorization id body).1.success = true)
    (happ : (App.updateNote rt st noteId title content).1 = .ok V) :
    (∃ (i : Nat) (N U : Note),
      s.NOTES[i]? = some N ∧ N.id = id ∧
      (Server.updateNote env s authorization id body).2.NOTES[i]? = some U ∧
      (Server.updateNote env s authorization id body).1.data = ResponseData.note U ∧
      U.id = N.id ∧ U.tenant = N.tenant ∧ U.userId = N.userId ∧ U.createdAt = N.createdAt ∧
      U.updatedAt = env.toISOString (env.clock 0) ∧
      (body.title = none → U.title = N.title) ∧
      (body.content = none → U.content = N.content) ∧
      (∀ j, j ≠ i → (Server.updateNote env s authorization id body).2.NOTES[j]? = s.NOTES[j]?) ∧
      (Server.updateNote env s authorization id body).2.NOTES.length = s.NOTES.length ∧
      (Server.updateNote env s authorization id body).2.USERS = s.USERS ∧
      (Server.updateNote env s authorization id body).2.TENANTS = s.TENANTS) ∧
    (∃ (i : Nat) (N : Note),
      st.NOTES_DATABASE[i]? = some N ∧ N.id = noteId ∧
      (App.updateNote rt st noteId title content).2.NOTES_DATABASE[i]? = some V ∧
      V.id = N.id ∧ V.tenant = N.tenant ∧ V.userId = N.userId ∧ V.createdAt = N.createdAt ∧
      V.updatedAt = rt.toISOString (rt.clock 2) ∧
      (∀ j, j ≠ i →
        (App.updateNote rt st noteId title content).2.NOTES_DATABASE[j]?
          = st.NOTES_DATABASE[j]?) ∧
      (App.updateNote rt st noteId title content).2.NOTES_DATABASE.length
        = st.NOTES_DATABASE.length ∧
      (App.updateNote rt st noteId title content).2.TENANTS = st.TENANTS) := by
  constructor
  · rcases updateNote_cases env s authorization id body with ⟨hf, _⟩ |
      ⟨user, tenant, i, N, _, _, _, hi, hN, h⟩
    · rw [hf] at hok
      exact absurd hok (by simp)
    · obtain ⟨x, hx, hpx⟩ := findIndex_some_get _ _ _ hi
      rw [hN] at hx
      simp only [Option.some.injEq] at hx
      subst hx
      simp only [Bool.and_eq_true, beq_iff_eq] at hpx
      rw [h]
      refine ⟨i, N, _, hN, hpx.1, ?_, rfl, rfl, rfl, rfl, rfl, rfl, ?_, ?_, ?_, ?_, rfl, rfl⟩
      · show (modifyAt _ i s.NOTES)[i]? = _
        rw [get?_modifyAt, if_pos rfl, hN]
        rfl
      · intro hnone
        simp [Server.applyUpdate, optionalField, hnone]
      · intro hnone
        simp [Server.applyUpdate, optionalField, hnone]
      · intro j hj
        show (modifyAt _ i s.NOTES)[j]? = _
        rw [get?_modifyAt, if_neg hj]
      · exact length_modifyAt _ _ _
  · rcases app_updateNote_cases rt st noteId title content with ⟨e, he⟩ | ⟨i, N, hi, hN, _, _, h⟩
    · rw [he] at happ
      exact absurd happ (by simp)
    · obtain ⟨x, hx, hpx⟩ := findIndex_some_get _ _ _ hi
      rw [hN] at hx
      simp only [Option.some.injEq] at hx
      subst hx
      simp only [beq_iff_eq] at hpx
      rw [h] at happ
      simp only [Except.ok.injEq] at happ
      subst happ
      rw [h]
      refine ⟨i, N, hN, hpx, ?_, rfl, rfl, rfl, rfl, rfl, ?_, ?_, rfl⟩
      · show (modifyAt _ i st.NOTES_DATABASE)[i]? = _
        rw [get?_modifyAt, if_pos rfl, hN]
        rfl
      · intro j hj
        show (modifyAt _ i st.NOTES_DATABASE)[j]? = _
        rw [get?_modifyAt, if_neg hj]
      · exact length_modifyAt _ _ _

/-- Witness for C15: `admin@acme.test` renames the seed note of `acme` on the
server, leaving the content out, and rewrites `acme_note_001` in `app.js`. -/
theorem update_frame_witness :
    ∃ (i : Nat) (N U : Note),
      seedStore.NOTES[i]? = some N ∧ N.id = "note_sample_acme_1" ∧
      (Server.updateNote demoEnv seedStore (some "Bearer user_admin_acme") "note_sample_acme_1"
        renameBody).2.NOTES[i]? = some U ∧
      U.content = N.content :=
  match (update_frame demoEnv seedStore (some "Bearer user_admin_acme") "note_sample_acme_1"
      renameBody App.demoRuntime App.adminAcmeSession "acme_note_001" (some "Strategy")
      (some "Revised") App.renamedNote rfl rfl).1 with
  | ⟨i, N, U, h1, h2, h3, _, _, _, _, _, _, _, h11, _⟩ => ⟨i, N, U, h1, h2, h3, h11 rfl⟩

/-! ## Requests for an id that matches no note of the principal -/

theorem getNote_no_match (env : Env) (s : Store) (authorization : Option String)
    (user : User) (tenant : Tenant) (x : String)
    (hauth : Server.authenticateJWT env s authorization = .ok (user, tenant))
    (hno : ∀ n ∈ s.NOTES, (n.id == x && n.tenant == tenant.slug) = false) :
    Server.getNote env s authorization x =
      (if collectErrors [(notEmpty x, "Note ID is required")] ≠ [] then
         validationError "Invalid note ID" (collectErrors [(notEmpty x, "Note ID is required")])
       else Server.noteNotFound, s) := by
  have hfind : s.NOTES.find? (fun n => n.id == x && n.tenant == tenant.slug) = none := by
    rw [List.find?_eq_none]
    intro n hn
    simp [hno n hn]
  simp only [Server.getNote, hauth, hfind]
  split <;> rfl

theorem deleteNote_no_match (env : Env) (s : Store) (authorization : Option String)
    (user : User) (tenant : Tenant) (x : String)
    (hauth : Server.authenticateJWT env s authorization = .ok (user, tenant))
    (hno : ∀ n ∈ s.NOTES, (n.id == x && n.tenant == tenant.slug) = false) :
    Server.deleteNote env s authorization x =
      (if collectErrors [(notEmpty x, "Note ID is required")] ≠ [] then
         validationError "Invalid note ID" (collectErrors [(notEmpty x, "Note ID is required")])
       else Server.noteNotFound, s) := by
  have hidx : findIndex (fun n => n.id == x && n.tenant == tenant.slug) s.NOTES = none := by
    rw [findIndex_eq_none_iff]
    exact hno
  simp only [Server.deleteNote, hauth, hidx]
  split <;> rfl

theorem updateNote_no_match (env : Env) (s : Store) (authorization : Option String)
    (user : User) (tenant : Tenant) (x : String) (body : NoteBody)
    (hauth : Server.authenticateJWT env s authorization = .ok (user, tenant))
    (hno : ∀ n ∈ s.NOTES, (n.id == x && n.tenant == tenant.slug) = false) :
    Server.updateNote env s authorization x body =
      (if collectErrors
            [ (notEmpty x, "Note ID is required"),
              ((optionalField 200 body.title).2, "Title must be 1-200 characters"),
              ((optionalField 50000 body.content).2, "Content must be 1-50000 characters") ]
          ≠ [] then
         validationError "Invalid input data"
           (collectErrors
             [ (notEmpty x, "Note ID is required"),
               ((optionalField 200 body.title).2, "Title must be 1-200 characters"),
               ((optionalField 50000 body.content).2, "Content must be 1-50000 characters") ])
       else Server.noteNotFound, s) := by
  have hidx : findIndex (fun n => n.id == x && n.tenant == tenant.slug) s.NOTES = none := by
    rw [findIndex_eq_none_iff]
    exact hno
  simp only [Server.updateNote, hauth, hidx]
  split <;> rfl

theorem no_match_of_absent (notes : List Note) (x slug : String)
    (h : ∀ n ∈ notes, n.id ≠ x) :
    ∀ n ∈ notes, (n.id == x && n.tenant == slug) = false := by
  intro n hn
  simp [h n hn]

theorem eraseIdx_eq_erase_of_nodup {α : Type} [DecidableEq α] (l : List α) (i : Nat) (x : α)
    (hnd : l.Nodup) (h : l[i]? = some x) : l.eraseIdx i = l.erase x := by
  induction l generalizing i with
  | nil => simp at h
  | cons a l ih =>
    cases i with
    | zero =>
      simp only [List.getElem?_cons_zero, Option.some.injEq] at h
      subst h
      simp
    | succ j =>
      simp only [List.getElem?_cons_succ] at h
      have hx : x ∈ l := List.getElem?_mem h
      have ha : a ∉ l := (List.nodup_cons.mp hnd).1
      have hne : a ≠ x := fun e => ha (e ▸ hx)
      simp only [List.eraseIdx_cons_succ]
      rw [List.erase_cons_tail (by simpa using hne), ih j (List.nodup_cons.mp hnd).2 h]

theorem absent_after_erase (notes : List Note) (N : Note)
    (hids : (notes.map Note.id).Nodup) (hN : N ∈ notes) :
    ∀ n ∈ notes.erase N, n.id ≠ N.id := by
  intro n hn hid
  have hnd : notes.Nodup := List.Nodup.of_map _ hids
  have hmem := (List.Nodup.mem_erase_iff hnd).mp hn
  exact hmem.1 (List.inj_on_of_nodup_map hids hmem.2 hN hid)

theorem deleteNote_cases (env : Env) (s : Store) (authorization : Option String) (id : String) :
    ((Server.deleteNote env s authorization id).1.success = false ∧
      (Server.deleteNote env s authorization id).2 = s) ∨
    ∃ user tenant i N,
      Server.authenticateJWT env s authorization = .ok (user, tenant) ∧
      findIndex (fun n => n.id == id && n.tenant == tenant.slug) s.NOTES = some i ∧
      s.NOTES[i]? = some N ∧ N.id = id ∧ N.tenant = tenant.slug ∧
      Server.deleteNote env s authorization id =
        ({ status := 200, success := true, error := none,
           message := some "Note deleted successfully", data := ResponseData.none },
         { s with NOTES := s.NOTES.eraseIdx i }) := by
  unfold Server.deleteNote
  cases hauth : Server.authenticateJWT env s authorization with
  | error r => exact Or.inl ⟨(authenticateJWT_error env s authorization r hauth).1, rfl⟩
  | ok p =>
    obtain ⟨user, tenant⟩ := p
    dsimp only
    split
    · exact Or.inl ⟨rfl, rfl⟩
    · split
      · exact Or.inl ⟨rfl, rfl⟩
      · rename_i i hi
        obtain ⟨N, hN, hp⟩ := findIndex_some_get _ _ _ hi
        simp only [Bool.and_eq_true, beq_iff_eq] at hp
        exact Or.inr ⟨user, tenant, i, N, rfl, hi, hN, hp.1, hp.2, rfl⟩

theorem absent_handle (x : String) (env : Env) (s : Store) (req : Server.Request)
    (henv : env.uuidv4 ≠ x) (h : ∀ n ∈ s.NOTES, n.id ≠ x) :
    ∀ n ∈ (Server.handle env s req).2.NOTES, n.id ≠ x := by
  intro n hn
  cases req with
  | login email password =>
    simp only [Server.handle, (login_store env s email password).2] at hn
    exact h n hn
  | getNotes a =>
    simp only [Server.handle, getNotes_store] at hn
    exact h n hn
  | getNote a id =>
    simp only [Server.handle, getNote_store] at hn
    exact h n hn
  | createNote a body =>
    simp only [Server.handle] at hn
    rcases createNote_cases env s a body with h1 | ⟨_, _, _, _, _, h1⟩
    · rw [h1] at hn
      exact h n hn
    · rw [h1] at hn
      simp only [List.mem_append, List.mem_singleton] at hn
      rcases hn with hn | rfl
      · exact h n hn
      · exact henv
  | updateNote a id body =>
    simp only [Server.handle] at hn
    rcases updateNote_cases env s a id body with ⟨_, h1⟩ | ⟨_, _, i, _, _, _, _, _, _, h1⟩
    · rw [h1] at hn
      exact h n hn
    · rw [h1] at hn
      rcases mem_modifyAt _ i s.NOTES n hn with hmem | ⟨y, hy, rfl⟩
      · exact h n hmem
      · exact h y hy
  | deleteNote a id =>
    simp only [Server.handle] at hn
    rcases deleteNote_shape env s a id with h1 | ⟨_, _, i, _, _, h1⟩
    · rw [h1] at hn
      exact h n hn
    · rw [h1] at hn
      exact h n (List.mem_of_mem_eraseIdx hn)
  | upgradeTenant a slug =>
    simp only [Server.handle, handle_notes_upgrade] at hn
    exact h n hn

theorem absent_runRequests (x : String) (ops : List (Env × Server.Request)) (s : Store)
    (hops : ∀ op ∈ ops, op.1.uuidv4 ≠ x) (h : ∀ n ∈ s.NOTES, n.id ≠ x) :
    ∀ n ∈ (runRequests s ops).NOTES, n.id ≠ x := by
  induction ops generalizing s with
  | nil => exact h
  | cons op ops ih =>
    exact ih _ (fun o ho => hops o (List.mem_cons_of_mem _ ho))
      (absent_handle x op.1 s op.2 (hops op (List.mem_cons_self _ _)) h)

/-! ## Delete, then ask again -/

theorem app_deleteNote_cases (rt : App.Runtime) (s : App.State) (noteId : String) :
    (∃ e, App.deleteNote rt s noteId = (.error e, s)) ∨
    ∃ (i : Nat) (N : Note),
      findIndex (fun n => n.id == noteId) s.NOTES_DATABASE = some i ∧
      s.NOTES_DATABASE[i]? = some N ∧ N.id = noteId ∧
      App.deleteNote rt s noteId =
        (.ok noteId, { s with NOTES_DATABASE := s.NOTES_DATABASE.eraseIdx i }) := by
  unfold App.deleteNote
  split
  · exact Or.inl ⟨_, rfl⟩
  · split
    · exact Or.inl ⟨_, rfl⟩
    · rename_i i hi
      split
      · exact Or.inl ⟨_, rfl⟩
      · rename_i N hN
        split
        · exact Or.inl ⟨_, rfl⟩
        · obtain ⟨x, hx, hpx⟩ := findIndex_some_get _ _ _ hi
          rw [hN] at hx
          simp only [Option.some.injEq] at hx
          subst hx
          simp only [beq_iff_eq] at hpx
          exact Or.inr ⟨i, N, hi, hN, hpx, rfl⟩

theorem app_absent_not_found (rt : App.Runtime) (s : App.State) (x : String) (p : App.Payload)
    (title content : Option String)
    (hreq : App.requireAuth rt (rt.clock 0) s = .ok p)
    (h : ∀ n ∈ s.NOTES_DATABASE, n.id ≠ x) :
    App.deleteNote rt s x = (.error "Note not found", s) ∧
    App.getNote rt s x = .error "Note not found" ∧
    ((App.blank title || App.blank content) = false →
      App.updateNote rt s x title content = (.error "Note not found", s)) := by
  have hidx : findIndex (fun n => n.id == x) s.NOTES_DATABASE = none := by
    rw [findIndex_eq_none_iff]
    intro n hn
    simp [h n hn]
  have hfind : s.NOTES_DATABASE.find? (fun n => n.id == x) = none :=
    find?_of_findIndex_none _ _ hidx
  refine ⟨?_, ?_, ?_⟩
  · simp only [App.deleteNote, hreq, hidx]
  · simp only [App.getNote, hreq, hfind]
  · intro hb
    simp only [App.updateNote, hreq, hb, hidx]
    rfl

/-- C16 (as stated, refuted): `admin@acme.test` deletes the seed note of `acme`,
successfully, and then sends `PUT /notes/:id` for the same id with an empty
title: the answer is the 400 `VALIDATION_ERROR`, not `NOTE_NOT_FOUND`.  In
`app.js` likewise: after the delete of `acme_note_001`, `updateNote` for that
id with an empty title throws `Title and content are required`. -/
theorem update_after_delete_invalid_body_not_note_not_found :
    (seedStore.NOTES.map Note.id).Nodup ∧
    acmeNote ∈ seedStore.NOTES ∧
    (Server.deleteNote demoEnv seedStore (some "Bearer user_admin_acme") acmeNote.id).1.success
      = true ∧
    (Server.updateNote demoEnv acmeEmptiedStore (some "Bearer user_admin_acme") acmeNote.id
        { title := some "", content := none, extra := [] }).1
      = validationError "Invalid input data" ["Title must be 1-200 characters"] ∧
    (Server.updateNote demoEnv acmeEmptiedStore (some "Bearer user_admin_acme") acmeNote.id
        { title := some "", content := none, extra := [] }).1 ≠ Server.noteNotFound ∧
    (App.deleteNote App.demoRuntime App.adminAcmeSession "acme_note_001").1
      = .ok "acme_note_001" ∧
    (App.updateNote App.demoRuntime
        (App.deleteNote App.demoRuntime App.adminAcmeSession "acme_note_001").2
        "acme_note_001" (some "") (some "Revised")).1
      = .error "Title and content are required" := by
  refine ⟨by decide, by decide, rfl, rfl, by decide, rfl, rfl⟩

theorem app_createNote_notes (rt : App.Runtime) (s : App.State) (title content : Option String) :
    (App.createNote rt s title content).2 = s ∨
    ∃ n : Note, (∃ tenant : String,
        n.id = tenant ++ "_note_" ++ toString (rt.clock 1) ++ "_" ++ rt.random) ∧
      (App.createNote rt s title content).2.NOTES_DATABASE = s.NOTES_DATABASE ++ [n] := by
  unfold App.createNote
  split
  · exact Or.inl rfl
  · rename_i payload _
    split
    · exact Or.inl rfl
    · split
      · exact Or.inl rfl
      · split
        · exact Or.inl rfl
        · exact Or.inr ⟨_, ⟨payload.tenant, rfl⟩, rfl⟩

theorem app_performLogin_notes (rt : App.Runtime) (s : App.State) (email password : String) :
    (App.performLogin rt s email password).NOTES_DATABASE = s.NOTES_DATABASE := by
  unfold App.performLogin
  split
  · rfl
  · dsimp only
    split <;> rfl

theorem app_upgradeTenant_notes (s : App.State) (tenantSlug : String) :
    (App.upgradeTenant s tenantSlug).2.NOTES_DATABASE = s.NOTES_DATABASE := by
  unfold App.upgradeTenant
  repeat' (first | rfl | split)

theorem app_absent_step (x : String) (rt : App.Runtime) (s : App.State) (c : App.Call)
    (hrt : ∀ tenant : String,
      tenant ++ "_note_" ++ toString (rt.clock 1) ++ "_" ++ rt.random ≠ x)
    (h : ∀ n ∈ s.NOTES_DATABASE, n.id ≠ x) :
    ∀ n ∈ (App.step rt s c).NOTES_DATABASE, n.id ≠ x := by
  intro n hn
  cases c with
  | performLogin email password =>
    simp only [App.step, app_performLogin_notes] at hn
    exact h n hn
  | handleLogout => exact h n hn
  | logout => exact h n hn
  | createNote title content =>
    simp only [App.step] at hn
    rcases app_createNote_notes rt s title content with h1 | ⟨m, ⟨tenant, hm⟩, h1⟩
    · rw [h1] at hn
      exact h n hn
    · rw [h1] at hn
      simp only [List.mem_append, List.mem_singleton] at hn
      rcases hn with hn | rfl
      · exact h n hn
      · rw [hm]
        exact hrt tenant
  | getNotes => exact h n hn
  | getNote noteId => exact h n hn
  | updateNote noteId title content =>
    simp only [App.step] at hn
    rcases app_updateNote_cases rt s noteId title content with ⟨e, h1⟩ | ⟨i, N, _, hN, _, _, h1⟩
    · rw [h1] at hn
      exact h n hn
    · rw [h1] at hn
      rcases mem_modifyAt _ i s.NOTES_DATABASE n hn with hmem | ⟨y, _, rfl⟩
      · exact h n hmem
      · exact h N (List.getElem?_mem hN)
  | deleteNote noteId =>
    simp only [App.step] at hn
    rcases app_deleteNote_cases rt s noteId with ⟨e, h1⟩ | ⟨i, N, _, _, _, h1⟩
    · rw [h1] at hn
      exact h n hn
    · rw [h1] at hn
      exact h n (List.mem_of_mem_eraseIdx hn)
  | upgradeTenant tenantSlug =>
    simp only [App.step, app_upgradeTenant_notes] at hn
    exact h n hn

theorem app_absent_runCalls (x : String) (ops : List (App.Runtime × App.Call)) (s : App.State)
    (hops : ∀ op ∈ ops, ∀ tenant : String,
      tenant ++ "_note_" ++ toString (op.1.clock 1) ++ "_" ++ op.1.random ≠ x)
    (h : ∀ n ∈ s.NOTES_DATABASE, n.id ≠ x) :
    ∀ n ∈ (runCalls s ops).NOTES_DATABASE, n.id ≠ x := by
  induction ops generalizing s with
  | nil => exact h
  | cons op ops ih =>
    exact ih _ (fun o ho => hops o (List.mem_cons_of_mem _ ho))
      (app_absent_step x op.1 s op.2 (hops op (List.mem_cons_self _ _)) h)

theorem updateNote_invalid_body (env : Env) (s : Store) (authorization : Option String)
    (user : User) (tenant : Tenant) (id : String) (body : NoteBody)
    (hauth : Server.authenticateJWT env s authorization = .ok (user, tenant))
    (h : (optionalField 200 body.title).2 = false ∨ (optionalField 50000 body.content).2 = false) :
    (Server.updateNote env s authorization id body).1.error = some "VALIDATION_ERROR" ∧
    (Server.updateNote env s authorization id body).1.status = 400 ∧
    (Server.updateNote env s authorization id body).2 = s := by
  have hne : collectErrors
      [ (notEmpty id, "Note ID is required"),
        ((optionalField 200 body.title).2, "Title must be 1-200 characters"),
        ((optionalField 50000 body.content).2, "Content must be 1-50000 characters") ] ≠ [] := by
    rcases h with h | h
    · cases notEmpty id <;> simp [collectErrors, h]
    · cases notEmpty id <;> cases (optionalField 200 body.title).2 <;> simp [collectErrors, h]
  simp only [Server.updateNote, hauth]
  rw [if_pos hne]
  exact ⟨rfl, rfl, rfl⟩

/-- C16 (amended): in a store with unique note ids, a successful delete of
`N.id` removes exactly `N`, which was a note of the principal's tenant: the
other notes and their order are unchanged and the store is one shorter.
Afterwards, in the store after the delete and after any further requests that
do not hand out `N.id` again, a delete or get of `N.id`, and an update of
`N.id` whose title and content pass validation, fail with not-found and leave
the store unchanged; an update of `N.id` whose title or content fails
validation is rejected with the validation error instead, the store unchanged.
This holds for the server handlers (validation error `VALIDATION_ERROR`, 400)
and for `deleteNote`, `getNote` and `updateNote` of `app.js` (validation
error `Title and content are required`). -/
theorem delete_then_not_found (env : Env) (s : Store) (authorization : Option String)
    (N : Note) (ops : List (Env × Server.Request)) (env2 : Env) (a2 : Option String)
    (user2 : User) (tenant2 : Tenant) (body2 : NoteBody)
    (rt : App.Runtime) (st : App.State) (M : Note) (r : String)
    (opsA : List (App.Runtime × App.Call))
    (rt2 : App.Runtime) (p2 : App.Payload) (title2 content2 : Option String)
    (hids : (s.NOTES.map Note.id).Nodup) (hN : N ∈ s.NOTES)
    (hdel : (Server.deleteNote env s authorization N.id).1.success = true)
    (hops : ∀ op ∈ ops, op.1.uuidv4 ≠ N.id)
    (hauth2 : Server.authenticateJWT env2
      (runRequests (Server.deleteNote env s authorization N.id).2 ops) a2 = .ok (user2, tenant2))
    (hidsA : (st.NOTES_DATABASE.map Note.id).Nodup) (hM : M ∈ st.NOTES_DATABASE)
    (hdelA : (App.deleteNote rt st M.id).1 = .ok r)
    (hopsA : ∀ op ∈ opsA, ∀ tenant : String,
      tenant ++ "_note_" ++ toString (op.1.clock 1) ++ "_" ++ op.1.random ≠ M.id)
    (hreq2 : App.requireAuth rt2 (rt2.clock 0)
      (runCalls (App.deleteNote rt st M.id).2 opsA) = .ok p2) :
    ((∃ user tenant, Server.authenticateJWT env s authorization = .ok (user, tenant) ∧
        N.tenant = tenant.slug) ∧
      (Server.deleteNote env s authorization N.id).2.NOTES = s.NOTES.erase N ∧
      N ∉ (Server.deleteNote env s authorization N.id).2.NOTES ∧
      (Server.deleteNote env s authorization N.id).2.NOTES.Sublist s.NOTES ∧
      (Server.deleteNote env s authorization N.id).2.NOTES.length + 1 = s.NOTES.length ∧
      (Server.deleteNote env s authorization N.id).2.USERS = s.USERS ∧
      (Server.deleteNote env s authorization N.id).2.TENANTS = s.TENANTS ∧
      Server.deleteNote env2 (runRequests (Server.deleteNote env s authorization N.id).2 ops)
          a2 N.id
        = (Server.noteNotFound, runRequests (Server.deleteNote env s authorization N.id).2 ops) ∧
      Server.getNote env2 (runRequests (Server.deleteNote env s authorization N.id).2 ops)
          a2 N.id
        = (Server.noteNotFound, runRequests (Server.deleteNote env s authorization N.id).2 ops) ∧
      ((optionalField 200 body2.title).2 = true → (optionalField 50000 body2.content).2 = true →
        Server.updateNote env2 (runRequests (Server.deleteNote env s authorization N.id).2 ops)
            a2 N.id body2
          = (Server.noteNotFound,
             runRequests (Server.deleteNote env s authorization N.id).2 ops)) ∧
      (((optionalField 200 body2.title).2 = false ∨
          (optionalField 50000 body2.content).2 = false) →
        (Server.updateNote env2 (runRequests (Server.deleteNote env s authorization N.id).2 ops)
            a2 N.id body2).1.error = some "VALIDATION_ERROR" ∧
        (Server.updateNote env2 (runRequests (Server.deleteNote env s authorization N.id).2 ops)
            a2 N.id body2).1.status = 400 ∧
        (Server.updateNote env2 (runRequests (Server.deleteNote env s authorization N.id).2 ops)
            a2 N.id body2).2
          = runRequests (Server.deleteNote env s authorization N.id).2 ops)) ∧
    ((App.deleteNote rt st M.id).2.NOTES_DATABASE = st.NOTES_DATABASE.erase M ∧
      M ∉ (App.deleteNote rt st M.id).2.NOTES_DATABASE ∧
      (App.deleteNote rt st M.id).2.NOTES_DATABASE.Sublist st.NOTES_DATABASE ∧
      (App.deleteNote rt st M.id).2.NOTES_DATABASE.length + 1 = st.NOTES_DATABASE.length ∧
      App.deleteNote rt2 (runCalls (App.deleteNote rt st M.id).2 opsA) M.id
        = (.error "Note not found", runCalls (App.deleteNote rt st M.id).2 opsA) ∧
      App.getNote rt2 (runCalls (App.deleteNote rt st M.id).2 opsA) M.id
        = .error "Note not found" ∧
      ((App.blank title2 || App.blank content2) = false →
        App.updateNote rt2 (runCalls (App.deleteNote rt st M.id).2 opsA) M.id title2 content2
          = (.error "Note not found", runCalls (App.deleteNote rt st M.id).2 opsA)) ∧
      ((App.blank title2 || App.blank content2) = true →
        App.updateNote rt2 (runCalls (App.deleteNote rt st M.id).2 opsA) M.id title2 content2
          = (.error "Title and content are required",
             runCalls (App.deleteNote rt st M.id).2 opsA))) := by
  constructor
  · rcases deleteNote_cases env s authorization N.id with ⟨hf, _⟩ |
      ⟨user, tenant, i, X, hauth, hi, hX, hXid, hXt, h⟩
    · rw [hf] at hdel
      exact absurd hdel (by simp)
    · have hXN : X = N := List.inj_on_of_nodup_map hids (List.getElem?_mem hX) hN hXid
      subst hXN
      have hnd : s.NOTES.Nodup := List.Nodup.of_map _ hids
      have herase : (Server.deleteNote env s authorization X.id).2.NOTES = s.NOTES.erase X := by
        rw [h]
        exact eraseIdx_eq_erase_of_nodup s.NOTES i X hnd hX
      have habsent0 : ∀ n ∈ (Server.deleteNote env s authorization X.id).2.NOTES, n.id ≠ X.id := by
        rw [herase]
        exact absent_after_erase s.NOTES X hids hN
      have habsent := absent_runRequests X.id ops _ hops habsent0
      have hno := no_match_of_absent _ X.id tenant2.slug habsent
      have hne : X.id ≠ "" := by
        intro hempty
        have hcontra := hdel
        simp only [Server.deleteNote, hauth, collectErrors, hempty] at hcontra
        simp [notEmpty, validationError] at hcontra
      have hnotEmpty := notEmpty_of_ne hne
      refine ⟨⟨user, tenant, hauth, hXt⟩, herase, ?_, ?_, ?_, by rw [h], by rw [h], ?_, ?_, ?_,
        ?_⟩
      · rw [herase]
        exact fun hmem => ((List.Nodup.mem_erase_iff hnd).mp hmem).1 rfl
      · rw [herase]
        exact List.erase_sublist _ _
      · rw [herase, List.length_erase_of_mem hN]
        have : 0 < s.NOTES.length := List.length_pos_of_mem hN
        omega
      · rw [deleteNote_no_match env2 _ a2 user2 tenant2 X.id hauth2 hno]
        simp [collectErrors, hnotEmpty]
      · rw [getNote_no_match env2 _ a2 user2 tenant2 X.id hauth2 hno]
        simp [collectErrors, hnotEmpty]
      · intro h1 h2
        rw [updateNote_no_match env2 _ a2 user2 tenant2 X.id body2 hauth2 hno]
        simp [collectErrors, hnotEmpty, h1, h2]
      · intro hbad
        exact updateNote_invalid_body env2 _ a2 user2 tenant2 X.id body2 hauth2 hbad
  · rcases app_deleteNote_cases rt st M.id with ⟨e, he⟩ | ⟨i, X, hi, hX, hXid, h⟩
    · rw [he] at hdelA
      exact absurd hdelA (by simp)
    · have hXM : X = M := List.inj_on_of_nodup_map hidsA (List.getElem?_mem hX) hM hXid
      subst hXM
      have hnd : st.NOTES_DATABASE.Nodup := List.Nodup.of_map _ hidsA
      have herase : (App.deleteNote rt st X.id).2.NOTES_DATABASE = st.NOTES_DATABASE.erase X := by
        rw [h]
        exact eraseIdx_eq_erase_of_nodup st.NOTES_DATABASE i X hnd hX
      have habsent0 : ∀ n ∈ (App.deleteNote rt st X.id).2.NOTES_DATABASE, n.id ≠ X.id := by
        rw [herase]
        exact absent_after_erase st.NOTES_DATABASE X hidsA hM
      have habsent := app_absent_runCalls X.id opsA _ hopsA habsent0
      obtain ⟨k1, k2, k3⟩ := app_absent_not_found rt2 _ X.id p2 title2 content2 hreq2 habsent
      refine ⟨herase, ?_, ?_, ?_, k1, k2, k3, ?_⟩
      · rw [herase]
        exact fun hmem => ((List.Nodup.mem_erase_iff hnd).mp hmem).1 rfl
      · rw [herase]
        exact List.erase_sublist _ _
      · rw [herase, List.length_erase_of_mem hM]
        have : 0 < st.NOTES_DATABASE.length := List.length_pos_of_mem hM
        omega
      · intro hb
        simp only [App.updateNote, hreq2, hb]
        rfl

/-- Witness for C16 (amended): `admin@acme.test` deletes the seed note of `acme`
on the server and `acme_note_001` in `app.js`; after one more create on each
side, a delete on the server and a get in `app.js` of the deleted id are
answered not-found. -/
theorem delete_then_not_found_witness :
    Server.deleteNote demoEnv
        (runRequests acmeEmptiedStore
          [(demoEnv, Server.Request.createNote (some "Bearer user_admin_acme") demoBody)])
        (some "Bearer user_admin_acme") acmeNote.id
      = (Server.noteNotFound,
         runRequests acmeEmptiedStore
          [(demoEnv, Server.Request.createNote (some "Bearer user_admin_acme") demoBody)]) ∧
    App.getNote App.demoRuntime
        (runCalls (App.deleteNote App.demoRuntime App.adminAcmeSession App.acmeNote001.id).2
          [(App.demoRuntime, App.Call.createNote (some "Strategy") (some "Revised"))])
        App.acmeNote001.id
      = .error "Note not found" :=
  have h := delete_then_not_found demoEnv seedStore (some "Bearer user_admin_acme") acmeNote
    [(demoEnv, Server.Request.createNote (some "Bearer user_admin_acme") demoBody)]
    demoEnv (some "Bearer user_admin_acme") adminAcme acmeTenant renameBody
    App.demoRuntime App.adminAcmeSession App.acmeNote001 "acme_note_001"
    [(App.demoRuntime, App.Call.createNote (some "Strategy") (some "Revised"))]
    App.demoRuntime App.adminAcmePayload (some "Strategy") (some "Revised")
    (by decide) (by decide) rfl
    (fun op hop => by
      rw [List.mem_singleton.mp hop]
      decide)
    rfl
    (by decide) (List.mem_cons_self _ _) rfl
    (fun op hop tenant heq => by
      rw [List.mem_singleton.mp hop] at heq
      have hlen := congrArg String.length heq
      have h1 : (toString (App.demoRuntime.clock 1)).length = 13 := by decide
      have h2 : App.acmeNote001.id.length = 13 := by decide
      have h3 : App.demoRuntime.random.length = 5 := by decide
      simp only [String.length_append, h1, h2, h3] at hlen
      have h4 : "_note_".length = 6 := by decide
      have h5 : "_".length = 1 := by decide
      omega)
    rfl
  ⟨h.1.2.2.2.2.2.2.2.1, h.2.2.2.2.2.2.1⟩

/-! ## `authenticateJWT` -/

theorem authenticateJWT_bearer_eq (env : Env) (s : Store) (token : String) (p : TokenPayload)
    (hv : env.jwtVerify token = some p) :
    Server.authenticateJWT env s (some ("Bearer " ++ token)) =
      (match s.USERS.find? (fun u => u.id == p.id && u.active),
             s.TENANTS.find? (fun t => t.slug == p.tenant && t.active) with
       | some user, some tenant =>
         if user.tenant ≠ tenant.slug then
           .error (failure 403 "TENANT_MISMATCH" "User does not belong to the specified tenant")
         else .ok (user, tenant)
       | _, _ =>
         .error (failure 401 "USER_OR_TENANT_NOT_FOUND" "User or tenant not found or inactive")) := by
  have hdata : ("Bearer " ++ token).data
      = 'B' :: 'e' :: 'a' :: 'r' :: 'e' :: 'r' :: ' ' :: token.data := by
    rw [String.data_append]
    rfl
  have hpre : "Bearer ".data.isPrefixOf ("Bearer " ++ token).data = true := by
    rw [hdata]
    show List.isPrefixOf ['B', 'e', 'a', 'r', 'e', 'r', ' '] _ = true
    simp [List.isPrefixOf]
  have hdrop : String.mk (("Bearer " ++ token).data.drop 7) = token := by
    rw [hdata]
    rfl
  simp only [Server.authenticateJWT, Server.verifyJWT, hpre, hdrop, hv]
  rfl

theorem find?_isSome_iff {α : Type} (p : α → Bool) (l : List α) :
    (l.find? p).isSome = true ↔ ∃ x ∈ l, p x = true := by
  simp

/-- C17: for a bearer token that verifies with payload `p`, `authenticateJWT`
resolves the first active user with id `p.id` and the first active tenant with
slug `p.tenant` (each exists exactly when some active record with that id or
slug exists).  It answers 401 `USER_OR_TENANT_NOT_FOUND` when either is
missing, 403 `TENANT_MISMATCH` when both resolve and the user's tenant is not
`p.tenant`, and admits the request otherwise; so it admits exactly when both
resolve and the user's tenant equals the token's tenant claim, and every
admitted principal has `req.user.tenant = req.tenant.slug`. -/
theorem authenticateJWT_admits_iff (env : Env) (s : Store) (token : String) (p : TokenPayload)
    (hv : env.jwtVerify token = some p) :
    ((∃ user tenant, Server.authenticateJWT env s (some ("Bearer " ++ token)) = .ok (user, tenant)) ↔
      ∃ u t, s.USERS.find? (fun u => u.id == p.id && u.active) = some u ∧
        s.TENANTS.find? (fun t => t.slug == p.tenant && t.active) = some t ∧
        u.tenant = p.tenant) ∧
    (((s.USERS.find? (fun u => u.id == p.id && u.active)).isSome = true ↔
        ∃ u ∈ s.USERS, u.id = p.id ∧ u.active = true) ∧
     ((s.TENANTS.find? (fun t => t.slug == p.tenant && t.active)).isSome = true ↔
        ∃ t ∈ s.TENANTS, t.slug = p.tenant ∧ t.active = true)) ∧
    ((s.USERS.find? (fun u => u.id == p.id && u.active) = none ∨
        s.TENANTS.find? (fun t => t.slug == p.tenant && t.active) = none) →
      Server.authenticateJWT env s (some ("Bearer " ++ token)) =
        .error (failure 401 "USER_OR_TENANT_NOT_FOUND" "User or tenant not found or inactive")) ∧
    (∀ u t, s.USERS.find? (fun u => u.id == p.id && u.active) = some u →
      s.TENANTS.find? (fun t => t.slug == p.tenant && t.active) = some t →
      u.tenant ≠ p.tenant →
      Server.authenticateJWT env s (some ("Bearer " ++ token)) =
        .error (failure 403 "TENANT_MISMATCH" "User does not belong to the specified tenant")) ∧
    (∀ u t, s.USERS.find? (fun u => u.id == p.id && u.active) = some u →
      s.TENANTS.find? (fun t => t.slug == p.tenant && t.active) = some t →
      u.tenant = p.tenant →
      Server.authenticateJWT env s (some ("Bearer " ++ token)) = .ok (u, t)) ∧
    (∀ user tenant,
      Server.authenticateJWT env s (some ("Bearer " ++ token)) = .ok (user, tenant) →
      user.tenant = tenant.slug ∧ user.id = p.id ∧ tenant.slug = p.tenant ∧
      user.active = true ∧ tenant.active = true ∧ user ∈ s.USERS ∧ tenant ∈ s.TENANTS) := by
  have heq := authenticateJWT_bearer_eq env s token p hv
  have hslug : ∀ t, s.TENANTS.find? (fun t => t.slug == p.tenant && t.active) = some t →
      t.slug = p.tenant ∧ t.active = true := by
    intro t ht
    have := List.find?_some ht
    simpa using this
  have huser : ∀ u, s.USERS.find? (fun u => u.id == p.id && u.active) = some u →
      u.id = p.id ∧ u.active = true := by
    intro u hu
    have := List.find?_some hu
    simpa using this
  have hmis : ∀ u t, s.USERS.find? (fun u => u.id == p.id && u.active) = some u →
      s.TENANTS.find? (fun t => t.slug == p.tenant && t.active) = some t →
      u.tenant ≠ p.tenant →
      Server.authenticateJWT env s (some ("Bearer " ++ token)) =
        .error (failure 403 "TENANT_MISMATCH" "User does not belong to the specified tenant") := by
    intro u t hu ht hne
    rw [heq, hu, ht]
    have : u.tenant ≠ t.slug := by rw [(hslug t ht).1]; exact hne
    simp [this]
  have hadm : ∀ u t, s.USERS.find? (fun u => u.id == p.id && u.active) = some u →
      s.TENANTS.find? (fun t => t.slug == p.tenant && t.active) = some t →
      u.tenant = p.tenant →
      Server.authenticateJWT env s (some ("Bearer " ++ token)) = .ok (u, t) := by
    intro u t hu ht he
    rw [heq, hu, ht]
    have : u.tenant = t.slug := by rw [(hslug t ht).1]; exact he
    simp [this]
  have hnf : (s.USERS.find? (fun u => u.id == p.id && u.active) = none ∨
        s.TENANTS.find? (fun t => t.slug == p.tenant && t.active) = none) →
      Server.authenticateJWT env s (some ("Bearer " ++ token)) =
        .error (failure 401 "USER_OR_TENANT_NOT_FOUND" "User or tenant not found or inactive") := by
    intro h
    rw [heq]
    rcases h with h | h
    · rw [h]
    · rw [h]
      cases s.USERS.find? (fun u => u.id == p.id && u.active) <;> rfl
  have hok : ∀ user tenant,
      Server.authenticateJWT env s (some ("Bearer " ++ token)) = .ok (user, tenant) →
      s.USERS.find? (fun u => u.id == p.id && u.active) = some user ∧
      s.TENANTS.find? (fun t => t.slug == p.tenant && t.active) = some tenant ∧
      user.tenant = p.tenant := by
    intro user tenant h
    cases hu : s.USERS.find? (fun u => u.id == p.id && u.active) with
    | none => rw [hnf (Or.inl hu)] at h; exact absurd h (by simp)
    | some u =>
      cases ht : s.TENANTS.find? (fun t => t.slug == p.tenant && t.active) with
      | none => rw [hnf (Or.inr ht)] at h; exact absurd h (by simp)
      | some t =>
        by_cases he : u.tenant = p.tenant
        · rw [hadm u t hu ht he] at h
          simp only [Except.ok.injEq, Prod.mk.injEq] at h
          obtain ⟨rfl, rfl⟩ := h
          exact ⟨rfl, rfl, he⟩
        · rw [hmis u t hu ht he] at h
          exact absurd h (by simp)
  refine ⟨⟨?_, ?_⟩, ⟨?_, ?_⟩, hnf, hmis, hadm, ?_⟩
  · rintro ⟨user, tenant, h⟩
    exact ⟨user, tenant, hok user tenant h⟩
  · rintro ⟨u, t, hu, ht, he⟩
    exact ⟨u, t, hadm u t hu ht he⟩
  · rw [find?_isSome_iff]
    simp
  · rw [find?_isSome_iff]
    simp
  · intro user tenant h
    obtain ⟨hu, ht, he⟩ := hok user tenant h
    exact ⟨by rw [he, (hslug tenant ht).1], (huser user hu).1, (hslug tenant ht).1,
      (huser user hu).2, (hslug tenant ht).2, List.mem_of_find?_eq_some hu,
      List.mem_of_find?_eq_some ht⟩

/-- Witness for C17: the token of `user@acme.test` against the seed store. -/
theorem authenticateJWT_admits_iff_witness :
    Server.authenticateJWT demoEnv seedStore (some ("Bearer " ++ "user_member_acme"))
      = .ok (memberAcme, acmeTenant) :=
  (authenticateJWT_admits_iff demoEnv seedStore "user_member_acme"
    { id := "user_member_acme", email := "user@acme.test", role := "Member", tenant := "acme",
      iat := 1759312800, exp := 1759399200 } rfl).2.2.2.2.1 memberAcme acmeTenant rfl rfl rfl

/-! ## A foreign note looks like a missing note -/

/-- C18: for an authenticated principal and any id `x` and body, the responses
of `GET`, `PUT` and `DELETE /notes/:id` in a store where `x` is the id of a
note of another tenant are identical, in every field, to the responses in a
store where no note has id `x`; neither run changes its store. -/
theorem foreign_note_indistinguishable_from_missing (env1 env2 : Env) (s1 s2 : Store)
    (a1 a2 : Option String) (u1 u2 : User) (t1 t2 : Tenant) (N : Note) (x : String)
    (body : NoteBody)
    (hauth1 : Server.authenticateJWT env1 s1 a1 = .ok (u1, t1))
    (hauth2 : Server.authenticateJWT env2 s2 a2 = .ok (u2, t2))
    (hids : (s1.NOTES.map Note.id).Nodup) (hN : N ∈ s1.NOTES) (hx : N.id = x)
    (hforeign : N.tenant ≠ t1.slug)
    (hmissing : ∀ n ∈ s2.NOTES, n.id ≠ x) :
    (Server.getNote env1 s1 a1 x).1 = (Server.getNote env2 s2 a2 x).1 ∧
    (Server.updateNote env1 s1 a1 x body).1 = (Server.updateNote env2 s2 a2 x body).1 ∧
    (Server.deleteNote env1 s1 a1 x).1 = (Server.deleteNote env2 s2 a2 x).1 ∧
    (Server.getNote env1 s1 a1 x).2 = s1 ∧ (Server.getNote env2 s2 a2 x).2 = s2 ∧
    (Server.updateNote env1 s1 a1 x body).2 = s1 ∧ (Server.updateNote env2 s2 a2 x body).2 = s2 ∧
    (Server.deleteNote env1 s1 a1 x).2 = s1 ∧ (Server.deleteNote env2 s2 a2 x).2 = s2 ∧
    (x ≠ "" → (Server.getNote env1 s1 a1 x).1 = Server.noteNotFound) := by
  subst hx
  have hno1 := no_match_of_foreign_note s1.NOTES N t1.slug hids hN hforeign
  have hno2 := no_match_of_absent s2.NOTES N.id t2.slug hmissing
  rw [getNote_no_match env1 s1 a1 u1 t1 N.id hauth1 hno1,
    getNote_no_match env2 s2 a2 u2 t2 N.id hauth2 hno2,
    updateNote_no_match env1 s1 a1 u1 t1 N.id body hauth1 hno1,
    updateNote_no_match env2 s2 a2 u2 t2 N.id body hauth2 hno2,
    deleteNote_no_match env1 s1 a1 u1 t1 N.id hauth1 hno1,
    deleteNote_no_match env2 s2 a2 u2 t2 N.id hauth2 hno2]
  refine ⟨rfl, rfl, rfl, rfl, rfl, rfl, rfl, rfl, rfl, ?_⟩
  intro hne
  simp [collectErrors, notEmpty_of_ne hne]

/-- Witness for C18: `user@acme.test` asks for the seed note of `globex` in the
seed store, and for the same id in a store where `globex` has no such note. -/
theorem foreign_note_indistinguishable_from_missing_witness :
    (Server.getNote demoEnv seedStore (some "Bearer user_member_acme") "note_sample_globex_1").1
      = (Server.getNote demoEnv acmeOnlyStore (some "Bearer user_member_acme")
          "note_sample_globex_1").1 :=
  (foreign_note_indistinguishable_from_missing demoEnv demoEnv seedStore acmeOnlyStore
    (some "Bearer user_member_acme") (some "Bearer user_member_acme") memberAcme memberAcme
    acmeTenant acmeTenant globexNote "note_sample_globex_1" renameBody rfl rfl (by decide)
    (by decide) rfl (by decide) (by decide)).1

/-! ## The token of `app.js` -/

theorem split_of_not_mem (sep : Char) (l : List Char) (h : sep ∉ l) :
    App.split sep l = [l] := by
  induction l with
  | nil => rfl
  | cons c cs ih =>
    simp only [List.mem_cons, not_or] at h
    have hc : ¬ c = sep := fun e => h.1 e.symm
    simp [App.split, hc, ih h.2]

theorem split_append_sep (sep : Char) (a b : List Char) (h : sep ∉ a) :
    App.split sep (a ++ sep :: b) = a :: App.split sep b := by
  induction a with
  | nil => simp [App.split]
  | cons c cs ih =>
    simp only [List.mem_cons, not_or] at h
    have hc : ¬ c = sep := fun e => h.1 e.symm
    simp [App.split, hc, ih h.2]

theorem validateJWT_two_segments (rt : App.Runtime) (now : Nat) (p s : String)
    (hp : '.' ∉ p.data) (hs : '.' ∉ s.data) :
    App.validateJWT rt now (some (p ++ "." ++ s)) =
      (match rt.atob p with
       | none => none
       | some json =>
         match rt.parse json with
         | none => none
         | some payload =>
           match rt.atob s with
           | none => none
           | some secret =>
             if secret ≠ App.JWT_SECRET then none
             else if now > payload.exp then none
             else some payload) := by
  have hdata : (p ++ "." ++ s).data = p.data ++ '.' :: s.data := by
    simp [String.data_append]
  have hne : ¬ (p ++ "." ++ s) = "" := by
    intro h
    have := congrArg String.data h
    rw [hdata] at this
    simp at this
  have hsplit : App.split '.' (p ++ "." ++ s).data = [p.data, s.data] := by
    rw [hdata, split_append_sep '.' _ _ hp, split_of_not_mem '.' _ hs]
  simp only [App.validateJWT, hne, if_false, hsplit]

/-- C19 (the code at the failing input): in `demoRuntime`, whose clock reads
1759312800000, the token issued to `admin@acme.test` expires at
1759312800000 + 24 h.  `validateJWT` still returns its payload at exactly that
time, and returns `null` only from one millisecond later. -/
theorem token_accepted_at_exact_expiry :
    App.demoRuntime.clock 0 = 1759312800000 ∧
    App.adminAcmePayload.exp = 1759312800000 + 24 * 60 * 60 * 1000 ∧
    App.validateJWT App.demoRuntime (1759312800000 + 24 * 60 * 60 * 1000)
        (some App.adminAcmeToken) = some App.adminAcmePayload ∧
    App.validateJWT App.demoRuntime (1759312800000 + 24 * 60 * 60 * 1000 + 1)
        (some App.adminAcmeToken) = none := by
  refine ⟨rfl, rfl, rfl, rfl⟩

theorem validateJWT_generateJWT (rt : App.Runtime) (k now : Nat) (user : App.Account)
    (tenant : App.TenantRecord) (c : App.Payload)
    (hc : c = { userId := user.id, email := user.email, role := user.role, tenant := tenant.slug,
                name := user.name, avatar := user.avatar, iat := rt.clock k,
                exp := rt.clock (k + 1) + App.TOKEN_EXPIRY })
    (hdot1 : '.' ∉ (rt.btoa (rt.stringify c)).data)
    (hdot2 : '.' ∉ (rt.btoa App.JWT_SECRET).data)
    (hatob1 : rt.atob (rt.btoa (rt.stringify c)) = some (rt.stringify c))
    (hatob2 : rt.atob (rt.btoa App.JWT_SECRET) = some App.JWT_SECRET)
    (hparse : rt.parse (rt.stringify c) = some c) :
    App.validateJWT rt now (some (App.generateJWT rt k user tenant)) =
      (if now > rt.clock (k + 1) + App.TOKEN_EXPIRY then none else some c) := by
  unfold App.generateJWT
  rw [← hc, validateJWT_two_segments rt now _ _ hdot1 hdot2]
  simp only [hatob1, hatob2, hparse]
  simp [hc]

/-- C20 (the code at the failing input): in `demoRuntime` the token of
`admin@acme.test` is `user_admin_acme` followed by a dot and the secret
segment, and is accepted.  Putting the payload segment `user_admin_globex`,
which decodes to the claims of another user of another tenant, in front of the
same secret segment gives a token that `validateJWT` accepts as well, where a
signature that binds the claims would have it rejected. -/
theorem forged_token_accepted :
    App.adminAcmeToken = "user_admin_acme" ++ "." ++ App.JWT_SECRET ∧
    App.validateJWT App.demoRuntime 1759312800000 (some ("user_admin_acme" ++ "." ++ App.JWT_SECRET))
      = some App.adminAcmePayload ∧
    App.demoRuntime.parse "user_admin_globex" = some App.adminGlobexPayload ∧
    App.adminGlobexPayload ≠ App.adminAcmePayload ∧
    App.validateJWT App.demoRuntime 1759312800000
        (some ("user_admin_globex" ++ "." ++ App.JWT_SECRET))
      = some App.adminGlobexPayload := by
  refine ⟨rfl, rfl, rfl, by decide, rfl⟩

/-- Extent of the defect: the second segment of an `app.js` token is the
encoded secret and does not depend on the claims.  For every token `p.s` that
`validateJWT` accepts and every payload segment `q` that decodes to claims
`c`, whether or not they differ from the claims of `p`, the token `q.s` is
accepted with claims `c` when `c.exp` has not passed, and rejected only when it
has. -/
theorem forged_payload_accepted (rt : App.Runtime) (now : Nat) (p s q json : String)
    (c0 c : App.Payload)
    (hp : '.' ∉ p.data) (hs : '.' ∉ s.data) (hq : '.' ∉ q.data)
    (hacc : App.validateJWT rt now (some (p ++ "." ++ s)) = some c0)
    (hatob : rt.atob q = some json) (hparse : rt.parse json = some c) :
    rt.atob s = some App.JWT_SECRET ∧
    App.validateJWT rt now (some (q ++ "." ++ s)) = (if now > c.exp then none else some c) := by
  rw [validateJWT_two_segments rt now p s hp hs] at hacc
  have hsec : rt.atob s = some App.JWT_SECRET := by
    cases h1 : rt.atob p with
    | none => simp [h1] at hacc
    | some j =>
      cases h2 : rt.parse j with
      | none => simp [h1, h2] at hacc
      | some c1 =>
        cases h3 : rt.atob s with
        | none => simp [h1, h2, h3] at hacc
        | some secret =>
          by_cases h4 : secret = App.JWT_SECRET
          · rw [h4]
          · simp [h1, h2, h3, h4] at hacc
  refine ⟨hsec, ?_⟩
  rw [validateJWT_two_segments rt now q s hq hs]
  simp only [hatob, hparse, hsec]
  simp

/-- The payload segment `user_admin_globex` in front of the secret segment of
the token of `admin@acme.test`, as an instance of `forged_payload_accepted`. -/
theorem forged_payload_accepted_witness :
    App.validateJWT App.demoRuntime 1759312800000
        (some ("user_admin_globex" ++ "." ++ App.JWT_SECRET))
      = (if 1759312800000 > App.adminGlobexPayload.exp then none
         else some App.adminGlobexPayload) :=
  (forged_payload_accepted App.demoRuntime 1759312800000 "user_admin_acme" App.JWT_SECRET
    "user_admin_globex" "user_admin_globex" App.adminAcmePayload App.adminGlobexPayload
    (by decide) (by decide) (by decide) rfl rfl rfl).2

/-! ## The scenario of `user@acme.test` -/

theorem login_memberAcme (env : Env) (hemail : env.isEmail "user@acme.test" = true)
    (hnorm : env.normalizeEmail "user@acme.test" = "user@acme.test") :
    Server.login env seedStore (some "user@acme.test") (some "password") =
      ({ status := 200, success := true, error := none, message := some "Login successful",
         data := ResponseData.login (env.jwtSign (memberAcmeClaims env))
           { id := "user_member_acme", email := "user@acme.test", name := "Mike Chen",
             role := "Member", tenant := "acme" }
           { slug := "acme", name := "Acme", plan := "free", noteLimit := 3 } },
       { seedStore with USERS :=
           [adminAcme, memberAcmeAfterLogin env] ++ seedUsers.drop 2 }) := by
  have hidx : findIndex (fun u : User => u.email == "user@acme.test" && u.active) seedStore.USERS
      = some 1 := rfl
  simp only [Server.login, Option.getD_some, hemail, hnorm, collectErrors, hidx]
  rfl

theorem memberAcme_authenticated (env0 env : Env) (s : Store)
    (hU : s.USERS = [adminAcme, memberAcmeAfterLogin env0] ++ seedUsers.drop 2)
    (hT : s.TENANTS = seedTenants)
    (hv : env.jwtVerify (env0.jwtSign (memberAcmeClaims env0)) = some (memberAcmeClaims env0)) :
    Server.authenticateJWT env s (memberAcmeHeader env0)
      = .ok (memberAcmeAfterLogin env0, acmeTenant) := by
  apply authenticateJWT_bearer env s _ (memberAcmeClaims env0) _ _ hv
  · rw [hU]; rfl
  · rw [hT]; rfl
  · rfl

theorem createNote_at_limit (env : Env) (s : Store) (authorization : Option String)
    (user : User) (tenant : Tenant) (body : NoteBody)
    (hauth : Server.authenticateJWT env s authorization = .ok (user, tenant))
    (htitle : (requiredField 200 body.title).2 = true)
    (hcontent : (requiredField 50000 body.content).2 = true)
    (hfull : tenant.plan = "free" ∧ tenant.noteLimit ≠ -1 ∧
      (noteCount s.NOTES tenant.slug : Int) ≥ tenant.noteLimit) :
    Server.createNote env s authorization body =
      (Server.noteLimitExceeded (noteCount s.NOTES tenant.slug) tenant, s) := by
  have hfull2 : tenant.plan = "free" ∧ tenant.noteLimit ≠ -1 ∧
      ((s.NOTES.filter (fun note => note.tenant == tenant.slug)).length : Int)
        ≥ tenant.noteLimit := hfull
  simp only [Server.createNote, hauth, collectErrors, htitle, hcontent]
  rw [if_neg (by simp), if_pos hfull2]
  rfl

theorem memberAcme_create (env0 env : Env) (s : Store) (body : NoteBody)
    (hU : s.USERS = [adminAcme, memberAcmeAfterLogin env0] ++ seedUsers.drop 2)
    (hT : s.TENANTS = seedTenants)
    (hv : env.jwtVerify (env0.jwtSign (memberAcmeClaims env0)) = some (memberAcmeClaims env0))
    (htitle : (requiredField 200 body.title).2 = true)
    (hcontent : (requiredField 50000 body.content).2 = true)
    (hcount : noteCount s.NOTES "acme" < 3) :
    (Server.createNote env s (memberAcmeHeader env0) body).1.status = 201 ∧
    (Server.createNote env s (memberAcmeHeader env0) body).2.USERS = s.USERS ∧
    (Server.createNote env s (memberAcmeHeader env0) body).2.TENANTS = s.TENANTS ∧
    noteCount (Server.createNote env s (memberAcmeHeader env0) body).2.NOTES "acme"
      = noteCount s.NOTES "acme" + 1 := by
  have hauth := memberAcme_authenticated env0 env s hU hT hv
  have hroom : ¬ (acmeTenant.plan = "free" ∧ acmeTenant.noteLimit ≠ -1 ∧
      (noteCount s.NOTES acmeTenant.slug : Int) ≥ acmeTenant.noteLimit) := by
    intro hc
    have h3 : (noteCount s.NOTES "acme" : Int) ≥ 3 := hc.2.2
    omega
  rw [createNote_success env s _ _ acmeTenant body hauth htitle hcontent hroom]
  refine ⟨rfl, rfl, rfl, ?_⟩
  show noteCount (_ ++ [_]) "acme" = _
  rw [noteCount_append_singleton]
  exact if_pos rfl ▸ rfl

/-- C21 (as stated, refuted): from the seed state `user@acme.test` logs in with
`password` and posts valid notes.  The first two creates are answered 201; the
third is answered 403 `NOTE_LIMIT_EXCEEDED` with `currentCount` 3 and `limit`
3, because `acme` starts with one seed note. -/
theorem third_create_from_seed_rejected :
    (Server.login demoEnv seedStore (some "user@acme.test") (some "password")).1.data
      = ResponseData.login "user_member_acme"
          { id := "user_member_acme", email := "user@acme.test", name := "Mike Chen",
            role := "Member", tenant := "acme" }
          { slug := "acme", name := "Acme", plan := "free", noteLimit := 3 } ∧
    (Server.createNote demoEnv (memberAcmeLoginStore demoEnv)
        (some "Bearer user_member_acme") demoBody).1.status = 201 ∧
    (Server.createNote demoEnv
        (Server.createNote demoEnv (memberAcmeLoginStore demoEnv)
          (some "Bearer user_member_acme") demoBody).2
        (some "Bearer user_member_acme") demoBody).1.status = 201 ∧
    (Server.createNote demoEnv
        (Server.createNote demoEnv
          (Server.createNote demoEnv (memberAcmeLoginStore demoEnv)
            (some "Bearer user_member_acme") demoBody).2
          (some "Bearer user_member_acme") demoBody).2
        (some "Bearer user_member_acme") demoBody).1
      = { status := 403, success := false, error := some "NOTE_LIMIT_EXCEEDED",
          message := some "Note limit reached for your subscription plan",
          data := ResponseData.limit 3 3 "free" true } := by
  refine ⟨rfl, rfl, rfl, rfl⟩

/-- C21 (amended): from the server's seed state, after `user@acme.test` has
logged in with `password`, two consecutive creates with valid title and
content succeed, and the third is answered 403 `NOTE_LIMIT_EXCEEDED` with
`currentCount` 3 and `limit` 3 and changes nothing: tenant `acme` starts with
one seed note.  The token is the one the login returned, and is taken to
verify at each of the three requests. -/
theorem seed_login_creates_until_limit (env0 env1 env2 env3 : Env) (b1 b2 b3 : NoteBody)
    (hemail : env0.isEmail "user@acme.test" = true)
    (hnorm : env0.normalizeEmail "user@acme.test" = "user@acme.test")
    (hv1 : env1.jwtVerify (env0.jwtSign (memberAcmeClaims env0)) = some (memberAcmeClaims env0))
    (hv2 : env2.jwtVerify (env0.jwtSign (memberAcmeClaims env0)) = some (memberAcmeClaims env0))
    (hv3 : env3.jwtVerify (env0.jwtSign (memberAcmeClaims env0)) = some (memberAcmeClaims env0))
    (ht1 : (requiredField 200 b1.title).2 = true) (hc1 : (requiredField 50000 b1.content).2 = true)
    (ht2 : (requiredField 200 b2.title).2 = true) (hc2 : (requiredField 50000 b2.content).2 = true)
    (ht3 : (requiredField 200 b3.title).2 = true) (hc3 : (requiredField 50000 b3.content).2 = true) :
    (Server.login env0 seedStore (some "user@acme.test") (some "password")).1.success = true ∧
    (Server.login env0 seedStore (some "user@acme.test") (some "password")).1.data
      = ResponseData.login (env0.jwtSign (memberAcmeClaims env0))
          { id := "user_member_acme", email := "user@acme.test", name := "Mike Chen",
            role := "Member", tenant := "acme" }
          { slug := "acme", name := "Acme", plan := "free", noteLimit := 3 } ∧
    (Server.createNote env1 (memberAcmeLoginStore env0) (memberAcmeHeader env0) b1).1.status
      = 201 ∧
    (Server.createNote env2
        (Server.createNote env1 (memberAcmeLoginStore env0) (memberAcmeHeader env0) b1).2
        (memberAcmeHeader env0) b2).1.status = 201 ∧
    Server.createNote env3
        (Server.createNote env2
          (Server.createNote env1 (memberAcmeLoginStore env0) (memberAcmeHeader env0) b1).2
          (memberAcmeHeader env0) b2).2
        (memberAcmeHeader env0) b3
      = ({ status := 403, success := false, error := some "NOTE_LIMIT_EXCEEDED",
           message := some "Note limit reached for your subscription plan",
           data := ResponseData.limit 3 3 "free" true },
         (Server.createNote env2
          (Server.createNote env1 (memberAcmeLoginStore env0) (memberAcmeHeader env0) b1).2
          (memberAcmeHeader env0) b2).2) := by
  have hlogin := login_memberAcme env0 hemail hnorm
  have hU0 : (memberAcmeLoginStore env0).USERS
      = [adminAcme, memberAcmeAfterLogin env0] ++ seedUsers.drop 2 := by
    unfold memberAcmeLoginStore; rw [hlogin]
  have hT0 : (memberAcmeLoginStore env0).TENANTS = seedTenants := by
    unfold memberAcmeLoginStore; rw [hlogin]; rfl
  have hN0 : noteCount (memberAcmeLoginStore env0).NOTES "acme" = 1 := by
    unfold memberAcmeLoginStore; rw [hlogin]; rfl
  obtain ⟨s1, hs1⟩ : ∃ s1, s1 = (Server.createNote env1 (memberAcmeLoginStore env0)
      (memberAcmeHeader env0) b1).2 := ⟨_, rfl⟩
  obtain ⟨k1, u1, t1, n1⟩ := memberAcme_create env0 env1 _ b1 hU0 hT0 hv1 ht1 hc1 (by omega)
  rw [← hs1] at u1 t1 n1
  rw [hU0] at u1
  rw [hT0] at t1
  rw [hN0] at n1
  obtain ⟨s2, hs2⟩ : ∃ s2, s2 = (Server.createNote env2 s1 (memberAcmeHeader env0) b2).2 :=
    ⟨_, rfl⟩
  obtain ⟨k2, u2, t2, n2⟩ := memberAcme_create env0 env2 s1 b2 u1 t1 hv2 ht2 hc2 (by omega)
  rw [← hs2] at u2 t2 n2
  rw [u1] at u2
  rw [t1] at t2
  rw [n1] at n2
  have hauth3 := memberAcme_authenticated env0 env3 s2 u2 t2 hv3
  have hfull : acmeTenant.plan = "free" ∧ acmeTenant.noteLimit ≠ -1 ∧
      (noteCount s2.NOTES acmeTenant.slug : Int) ≥ acmeTenant.noteLimit := by
    refine ⟨rfl, by decide, ?_⟩
    have h3 : noteCount s2.NOTES "acme" = 3 := n2
    show (noteCount s2.NOTES "acme" : Int) ≥ 3
    omega
  have h3 := createNote_at_limit env3 s2 _ _ acmeTenant b3 hauth3 ht3 hc3 hfull
  have hn3 : noteCount s2.NOTES acmeTenant.slug = 3 := n2
  rw [hn3] at h3
  rw [← hs1, ← hs2]
  refine ⟨by rw [hlogin], by rw [hlogin], k1, k2, ?_⟩
  rw [h3]
  rfl

/-- Witness for C21 (amended): the scenario in `demoEnv`. -/
theorem seed_login_creates_until_limit_witness :
    (Server.createNote demoEnv
        (Server.createNote demoEnv
          (Server.createNote demoEnv (memberAcmeLoginStore demoEnv) (memberAcmeHeader demoEnv)
            demoBody).2
          (memberAcmeHeader demoEnv) demoBody).2
        (memberAcmeHeader demoEnv) demoBody).1
      = { status := 403, success := false, error := some "NOTE_LIMIT_EXCEEDED",
          message := some "Note limit reached for your subscription plan",
          data := ResponseData.limit 3 3 "free" true } :=
  congrArg Prod.fst
    (seed_login_creates_until_limit demoEnv demoEnv demoEnv demoEnv demoBody demoBody demoBody
      rfl rfl rfl rfl rfl (by decide) (by decide) (by decide) (by decide) (by decide)
      (by decide)).2.2.2.2

/-! ## `upgradeTenant` of `app.js` across tenants -/

theorem app_upgradeTenant_admin (s : App.State) (tenantSlug : String) (user : App.Account)
    (t : App.TenantRecord) (huser : s.currentUser = some user) (hrole : user.role = "Admin")
    (ht : App.tenantAt s.TENANTS tenantSlug = some t) (hfree : t.plan ≠ "pro") :
    (App.upgradeTenant s tenantSlug).1 = .ok "pro" ∧
    (App.upgradeTenant s tenantSlug).2.TENANTS
      = App.modifyTenant App.applyUpgrade tenantSlug s.TENANTS := by
  simp only [App.upgradeTenant, huser, ht]
  rw [if_neg (not_not.mpr hrole), if_neg hfree]
  exact ⟨rfl, rfl⟩

/-- C22 (the code at the failing input): in the session of `admin@acme.test`,
an Admin of tenant `acme`, the record of `globex` is on the free plan with
limit 3; `upgradeTenant('globex')` returns success, and afterwards the record
of `globex` has plan `pro` and limit -1. -/
theorem app_upgrade_of_other_tenant_succeeds :
    App.adminAcmeSession.currentUser = some App.adminAcmeAccount ∧
    App.adminAcmeAccount.role = "Admin" ∧ App.adminAcmeAccount.tenant = "acme" ∧
    App.tenantAt App.adminAcmeSession.TENANTS "globex" = some App.globexRecord ∧
    (App.upgradeTenant App.adminAcmeSession "globex").1 = .ok "pro" ∧
    App.tenantAt (App.upgradeTenant App.adminAcmeSession "globex").2.TENANTS "globex"
      = some { slug := "globex", name := "Globex Corporation", plan := "pro", noteLimit := -1 } := by
  refine ⟨rfl, rfl, rfl, rfl, rfl, rfl⟩

/-! ## Timestamps of a created note -/

theorem server_created_timestamps (env : Env) (s : Store) (authorization : Option String)
    (body : NoteBody) (n : Note)
    (h : (Server.createNote env s authorization body).1.data = ResponseData.note n) :
    n.createdAt = env.toISOString (env.clock 0) ∧ n.updatedAt = env.toISOString (env.clock 1) := by
  unfold Server.createNote at h
  cases hauth : Server.authenticateJWT env s authorization with
  | error r =>
    rw [hauth] at h
    have := (authenticateJWT_error env s authorization r hauth).2
    simp only at h
    rw [this] at h
    exact absurd h (by simp)
  | ok p =>
    obtain ⟨user, tenant⟩ := p
    rw [hauth] at h
    dsimp only at h
    split at h
    · simp [validationError] at h
    · split at h
      · simp [Server.noteLimitExceeded] at h
      · simp only [ResponseData.note.injEq] at h
        subst h
        exact ⟨rfl, rfl⟩

theorem app_created_timestamps (rt : App.Runtime) (s : App.State) (title content : Option String)
    (n : Note) (h : (App.createNote rt s title content).1 = .ok n) :
    n.createdAt = n.updatedAt ∧ n.createdAt = rt.toISOString (rt.clock 2) := by
  unfold App.createNote at h
  repeat' split at h
  all_goals first
    | (simp only [Except.ok.injEq] at h; subst h; exact ⟨rfl, rfl⟩)
    | (simp at h)

/-- C23 (the code at the failing input): `user@acme.test` posts a valid note
while the clock moves from 1759312800000 to 1759312800001 between the two
`new Date()` of the handler.  The create is answered 201 and the note it
returns has `createdAt` ending in `.000Z` and `updatedAt` ending in `.001Z`. -/
theorem server_created_note_timestamps_differ :
    tickingEnv.clock 0 = 1759312800000 ∧ tickingEnv.clock 1 = 1759312800001 ∧
    (Server.createNote tickingEnv seedStore (some "Bearer user_member_acme") demoBody).1.status
      = 201 ∧
    (Server.createNote tickingEnv seedStore (some "Bearer user_member_acme") demoBody).1.data
      = ResponseData.note
          { id := tickingEnv.uuidv4, title := "Plan", content := "Ship it", tenant := "acme",
            userId := "user_member_acme", createdAt := "2025-10-01T10:00:00.000Z",
            updatedAt := "2025-10-01T10:00:00.001Z" } ∧
    "2025-10-01T10:00:00.000Z" ≠ "2025-10-01T10:00:00.001Z" := by
  refine ⟨rfl, rfl, rfl, rfl, by decide⟩

/-! ## The usage flag and the limit check -/

/-- C24: for an authenticated principal whose tenant has plan `free` or `pro`,
with any note limit and any store, `usage.canCreateMore` of `GET /notes` is
true exactly when a `POST /notes` with valid title and content by the same
principal in the same state is not answered `NOTE_LIMIT_EXCEEDED`. -/
theorem canCreateMore_iff_not_limited (env : Env) (s : Store) (authorization : Option String)
    (user : User) (tenant : Tenant) (body : NoteBody)
    (hauth : Server.authenticateJWT env s authorization = .ok (user, tenant))
    (hplan : tenant.plan = "free" ∨ tenant.plan = "pro")
    (htitle : (requiredField 200 body.title).2 = true)
    (hcontent : (requiredField 50000 body.content).2 = true) :
    ∃ notes count t usage,
      (Server.getNotes env s authorization).1.data = ResponseData.notes notes count t usage ∧
      (usage.canCreateMore = true ↔
        (Server.createNote env s authorization body).1.error ≠ some "NOTE_LIMIT_EXCEEDED") := by
  refine ⟨s.NOTES.filter (fun note => note.tenant == tenant.slug),
    (s.NOTES.filter (fun note => note.tenant == tenant.slug)).length, tenant,
    { current := (s.NOTES.filter (fun note => note.tenant == tenant.slug)).length,
      limit := tenant.noteLimit,
      canCreateMore := tenant.plan == "pro" || tenant.noteLimit == -1 ||
        decide (((s.NOTES.filter (fun note => note.tenant == tenant.slug)).length : Int)
          < tenant.noteLimit),
      planType := tenant.plan }, ?_, ?_⟩
  · simp only [Server.getNotes, hauth]
  · by_cases hfull : tenant.plan = "free" ∧ tenant.noteLimit ≠ -1 ∧
        (noteCount s.NOTES tenant.slug : Int) ≥ tenant.noteLimit
    · rw [createNote_at_limit env s authorization user tenant body hauth htitle hcontent hfull]
      obtain ⟨hfree, hlim, hcount⟩ := hfull
      have hcount2 : ¬ (((s.NOTES.filter (fun note => note.tenant == tenant.slug)).length : Int)
          < tenant.noteLimit) := by
        have : ((s.NOTES.filter (fun note => note.tenant == tenant.slug)).length : Int)
            ≥ tenant.noteLimit := hcount
        omega
      simp [Server.noteLimitExceeded, hfree, hlim, hcount2]
    · rw [createNote_success env s authorization user tenant body hauth htitle hcontent hfull]
      have hroom : tenant.plan = "pro" ∨ tenant.noteLimit = -1 ∨
          ((s.NOTES.filter (fun note => note.tenant == tenant.slug)).length : Int)
            < tenant.noteLimit := by
        rcases hplan with hfree | hpro
        · by_cases hlim : tenant.noteLimit = -1
          · exact Or.inr (Or.inl hlim)
          · refine Or.inr (Or.inr ?_)
            by_contra hge
            apply hfull
            refine ⟨hfree, hlim, ?_⟩
            show ((s.NOTES.filter (fun note => note.tenant == tenant.slug)).length : Int)
              ≥ tenant.noteLimit
            omega
        · exact Or.inl hpro
      simp only [ne_eq, reduceCtorEq, not_false_eq_true, iff_true, Bool.or_eq_true,
        beq_iff_eq, decide_eq_true_eq]
      rcases hroom with h | h | h
      · exact Or.inl (Or.inl h)
      · exact Or.inl (Or.inr h)
      · exact Or.inr h

/-- Witness for C24: `user@acme.test` when `acme` already holds three notes:
the flag is false and the create is answered `NOTE_LIMIT_EXCEEDED`. -/
theorem canCreateMore_iff_not_limited_witness :
    ∃ notes count t usage,
      (Server.getNotes demoEnv acmeFullStore (some "Bearer user_member_acme")).1.data
        = ResponseData.notes notes count t usage ∧
      (usage.canCreateMore = true ↔
        (Server.createNote demoEnv acmeFullStore (some "Bearer user_member_acme") demoBody).1.error
          ≠ some "NOTE_LIMIT_EXCEEDED") :=
  canCreateMore_iff_not_limited demoEnv acmeFullStore (some "Bearer user_member_acme") memberAcme
    acmeTenant demoBody rfl (Or.inl rfl) (by decide) (by decide)

/-! ## The entities of `sanitizeInput`, character by character -/

theorem escapeChar_of_not_special (c : Char) (h : c ∉ specialChars) : escapeChar c = [c] := by
  simp only [specialChars, List.mem_cons, List.mem_singleton, not_or, List.mem_nil_iff,
    or_false] at h
  obtain ⟨h1, h2, h3, h4, h5, h6⟩ := h
  simp [escapeChar, h1, h2, h3, h4, h5, h6]

theorem escapeChar_of_special (c : Char) (h : c ∈ specialChars) :
    ∃ e, escapeChar c = '&' :: e := by
  simp only [specialChars, List.mem_cons, List.mem_singleton, List.mem_nil_iff, or_false] at h
  rcases h with rfl | rfl | rfl | rfl | rfl | rfl
  · exact ⟨_, rfl⟩
  · exact ⟨_, rfl⟩
  · exact ⟨_, rfl⟩
  · exact ⟨_, rfl⟩
  · exact ⟨_, rfl⟩
  · exact ⟨_, rfl⟩

theorem escapeChar_no_markup (c x : Char) (h : x ∈ escapeChar c) : x ∉ markupChars := by
  by_cases hc : c ∈ specialChars
  · simp only [specialChars, List.mem_cons, List.mem_singleton, List.mem_nil_iff, or_false] at hc
    rcases hc with rfl | rfl | rfl | rfl | rfl | rfl
    all_goals
      simp only [escapeChar, markupChars] at h ⊢
      revert x
      decide
  · rw [escapeChar_of_not_special c hc] at h
    simp only [List.mem_singleton] at h
    subst h
    intro hx
    apply hc
    simp only [markupChars, specialChars, List.mem_cons, List.mem_singleton, List.mem_nil_iff,
      or_false] at hx ⊢
    exact Or.inr hx

theorem escapeChar_append_inj (a b : Char) (r1 r2 : List Char)
    (h : escapeChar a ++ r1 = escapeChar b ++ r2) : a = b ∧ r1 = r2 := by
  by_cases ha : a ∈ specialChars
  · by_cases hb : b ∈ specialChars
    · simp only [specialChars, List.mem_cons, List.mem_singleton, List.mem_nil_iff, or_false]
        at ha hb
      rcases ha with rfl | rfl | rfl | rfl | rfl | rfl <;>
        rcases hb with rfl | rfl | rfl | rfl | rfl | rfl <;>
        first
          | exact ⟨rfl, List.append_cancel_left h⟩
          | (exfalso; revert h; simp [escapeChar])
    · obtain ⟨e, he⟩ := escapeChar_of_special a ha
      rw [he, escapeChar_of_not_special b hb] at h
      simp only [List.cons_append, List.nil_append, List.cons.injEq] at h
      exact absurd (h.1 ▸ (by decide : '&' ∈ specialChars)) hb
  · by_cases hb : b ∈ specialChars
    · obtain ⟨e, he⟩ := escapeChar_of_special b hb
      rw [he, escapeChar_of_not_special a ha] at h
      simp only [List.cons_append, List.nil_append, List.cons.injEq] at h
      exact absurd (h.1 ▸ (by decide : '&' ∈ specialChars)) ha
    · rw [escapeChar_of_not_special a ha, escapeChar_of_not_special b hb] at h
      simp only [List.cons_append, List.nil_append, List.cons.injEq] at h
      exact h

theorem sanitizeChars_eq_substituteChars (l : List Char) :
    sanitizeChars l = substituteChars l := by
  induction l with
  | nil => rfl
  | cons c cs ih => rw [sanitizeChars_cons, ih]; rfl

theorem sanitizeChars_no_markup (l : List Char) (x : Char) (h : x ∈ sanitizeChars l) :
    x ∉ markupChars := by
  induction l with
  | nil => exact absurd h (List.not_mem_nil x)
  | cons c cs ih =>
    rw [sanitizeChars_cons, List.mem_append] at h
    rcases h with h | h
    · exact escapeChar_no_markup c x h
    · exact ih h

theorem sanitizeChars_injective (l1 l2 : List Char) (h : sanitizeChars l1 = sanitizeChars l2) :
    l1 = l2 := by
  induction l1 generalizing l2 with
  | nil =>
    cases l2 with
    | nil => rfl
    | cons b l2 =>
      have hlen := (sanitizeChars_length (b :: l2)).1
      rw [← h] at hlen
      exact absurd hlen (by simp [sanitizeChars, replaceAll])
  | cons a l1 ih =>
    cases l2 with
    | nil =>
      have hlen := (sanitizeChars_length (a :: l1)).1
      rw [h] at hlen
      exact absurd hlen (by simp [sanitizeChars, replaceAll])
    | cons b l2 =>
      rw [sanitizeChars_cons, sanitizeChars_cons] at h
      obtain ⟨hab, hrest⟩ := escapeChar_append_inj a b _ _ h
      rw [hab, ih l2 hrest]

/-! ## `sanitizeInput` as a single pass -/

/-- C25: `SecurityUtils.sanitizeInput`, six global replacements in sequence,
equals on every string the single-pass per-character substitution
`substituteInput` (`&` to `&amp;`, `<` to `&lt;`, `>` to `&gt;`, `"` to
`&quot;`, `'` to `&#x27;`, backslash to `&#x5C;`, any other character
unchanged); its output holds none of the characters `<`, `>`, `"`, `'`,
backslash; it is injective; and a value that is not a string is returned
unchanged. -/
theorem sanitizeInput_is_single_pass :
    (∀ input : String, sanitizeInput input = substituteInput input) ∧
    (∀ (input : String) (c : Char), c ∈ (sanitizeInput input).data → c ∉ markupChars) ∧
    Function.Injective sanitizeInput ∧
    (∀ (α : Type) (v : α), sanitizeInputValue (JsValue.other v) = JsValue.other v) ∧
    (∀ (α : Type) (s : String),
      sanitizeInputValue (JsValue.string s : JsValue α) = JsValue.string (sanitizeInput s)) := by
  refine ⟨?_, ?_, ?_, fun _ _ => rfl, fun _ _ => rfl⟩
  · intro input
    rw [sanitizeInput_eq, sanitizeChars_eq_substituteChars]
    rfl
  · intro input c hc
    rw [sanitizeInput_eq] at hc
    exact sanitizeChars_no_markup input.data c hc
  · intro s t h
    rw [sanitizeInput_eq, sanitizeInput_eq] at h
    have hdata : s.data = t.data := sanitizeChars_injective _ _ (congrArg String.data h)
    exact String.ext hdata

/-! ## The length `isLength` counts -/

theorem filter_length_add_filter_not {α : Type} (p : α → Bool) (l : List α) :
    (l.filter p).length + (l.filter (fun x => !p x)).length = l.length := by
  induction l with
  | nil => rfl
  | cons a l ih =>
    cases h : p a
    · simp only [List.filter_cons, h, Bool.not_false, if_true, List.length_cons]
      simp only [Bool.false_eq_true, if_false]
      omega
    · simp only [List.filter_cons, h, Bool.not_true, if_true, List.length_cons]
      simp only [Bool.false_eq_true, if_false]
      omega

theorem validatorLength_eq (s : String) :
    validatorLength s = (s.data.filter (fun c => !isPresentationSelector c)).length := by
  have h := filter_length_add_filter_not isPresentationSelector s.data
  have hl : s.length = s.data.length := rfl
  unfold validatorLength
  omega

theorem validatorLength_le_length (s : String) : validatorLength s ≤ s.length :=
  Nat.sub_le _ _

theorem counted_escapeChar (c : Char) :
    ([c].filter (fun x => !isPresentationSelector x)).length
        ≤ ((escapeChar c).filter (fun x => !isPresentationSelector x)).length ∧
    ((escapeChar c).filter (fun x => !isPresentationSelector x)).length
        ≤ 6 * ([c].filter (fun x => !isPresentationSelector x)).length := by
  by_cases hc : c ∈ specialChars
  · simp only [specialChars, List.mem_cons, List.mem_singleton, List.mem_nil_iff, or_false] at hc
    rcases hc with rfl | rfl | rfl | rfl | rfl | rfl <;> decide
  · rw [escapeChar_of_not_special c hc]
    omega

theorem counted_sanitizeChars (l : List Char) :
    (l.filter (fun x => !isPresentationSelector x)).length
        ≤ ((sanitizeChars l).filter (fun x => !isPresentationSelector x)).length ∧
    ((sanitizeChars l).filter (fun x => !isPresentationSelector x)).length
        ≤ 6 * (l.filter (fun x => !isPresentationSelector x)).length := by
  induction l with
  | nil => exact ⟨Nat.le_refl _, by simp [sanitizeChars, replaceAll]⟩
  | cons c cs ih =>
    have hc := counted_escapeChar c
    have hcons : (c :: cs).filter (fun x => !isPresentationSelector x)
        = [c].filter (fun x => !isPresentationSelector x)
          ++ cs.filter (fun x => !isPresentationSelector x) := by
      rw [← List.filter_append]
      rfl
    rw [sanitizeChars_cons, List.filter_append, List.length_append, hcons, List.length_append]
    omega

theorem validatorLength_sanitizeInput (t : String) :
    validatorLength t ≤ validatorLength (sanitizeInput t) ∧
    validatorLength (sanitizeInput t) ≤ 6 * validatorLength t := by
  rw [validatorLength_eq, validatorLength_eq, sanitizeInput_eq]
  exact counted_sanitizeChars t.data

/-! ## The handlers on bodies that need not be strings -/

theorem raw_lengthErrors_eq_nil_iff (max : Nat) (message : String) (v : FieldValue) :
    Raw.lengthErrors max message v = [] ↔
      ∀ t ∈ Raw.values v, 1 ≤ validatorLength t ∧ validatorLength t ≤ max := by
  unfold Raw.lengthErrors
  rw [List.map_eq_nil_iff, List.filter_eq_nil_iff]
  constructor
  · intro h t ht
    have h2 := h t ht
    rw [← isLength_iff]
    simpa using h2
  · intro h t ht
    have h2 := (isLength_iff 1 max t).mpr (h t ht)
    simp [h2]

theorem raw_lengthErrors_ne_nil_iff (max : Nat) (message : String) (v : FieldValue) :
    Raw.lengthErrors max message v ≠ [] ↔
      ∃ t ∈ Raw.values v, validatorLength t = 0 ∨ validatorLength t > max := by
  rw [Ne, raw_lengthErrors_eq_nil_iff]
  constructor
  · intro h
    by_contra hcon
    apply h
    intro t ht
    by_contra hbad
    exact hcon ⟨t, ht, by omega⟩
  · rintro ⟨t, ht, hbad⟩ h
    have := h t ht
    omega

theorem raw_getNotes_store (env : Env) (s : Raw.Store) (a : Option String) :
    (Raw.getNotes env s a).2 = s := by
  unfold Raw.getNotes
  split <;> rfl

theorem raw_getNote_store (env : Env) (s : Raw.Store) (a : Option String) (id : String) :
    (Raw.getNote env s a id).2 = s := by
  unfold Raw.getNote
  cases hauth : Raw.authenticateJWT env s a with
  | error r => rfl
  | ok p =>
    obtain ⟨user, tenant⟩ := p
    dsimp only
    split
    · rfl
    · split <;> rfl

theorem raw_createNote_cases (env : Env) (s : Raw.Store) (authorization : Option String)
    (body : Raw.NoteBody) :
    (Raw.createNote env s authorization body).2 = s ∨
    ∃ user tenant,
      Raw.authenticateJWT env s authorization = .ok (user, tenant) ∧
      (Raw.requiredField 200 "Title is required and must be 1-200 characters" body.title).2
        = [] ∧
      (Raw.requiredField 50000 "Content is required and must be 1-50000 characters"
        body.content).2 = [] ∧
      (Raw.createNote env s authorization body).2 =
        { s with NOTES := s.NOTES ++
            [ { id := env.uuidv4,
                title := sanitizeInputValue
                  (Raw.requiredField 200 "Title is required and must be 1-200 characters"
                    body.title).1,
                content := sanitizeInputValue
                  (Raw.requiredField 50000 "Content is required and must be 1-50000 characters"
                    body.content).1,
                tenant := tenant.slug, userId := user.id,
                createdAt := env.toISOString (env.clock 0),
                updatedAt := env.toISOString (env.clock 1) } ] } := by
  unfold Raw.createNote
  cases hauth : Raw.authenticateJWT env s authorization with
  | error r => exact Or.inl rfl
  | ok p =>
    obtain ⟨user, tenant⟩ := p
    dsimp only
    split
    · exact Or.inl rfl
    · rename_i herr
      rw [not_not, List.append_eq_nil] at herr
      split
      · exact Or.inl rfl
      · exact Or.inr ⟨user, tenant, rfl, herr.1, herr.2, rfl⟩

theorem raw_updateNote_cases (env : Env) (s : Raw.Store) (authorization : Option String)
    (id : String) (body : Raw.NoteBody) :
    (Raw.updateNote env s authorization id body).2 = s ∨
    ∃ i,
      (Raw.optionalField 200 "Title must be 1-200 characters" body.title).2 = [] ∧
      (Raw.optionalField 50000 "Content must be 1-50000 characters" body.content).2 = [] ∧
      (Raw.updateNote env s authorization id body).2.NOTES =
        modifyAt (Raw.applyUpdate
          (Raw.optionalField 200 "Title must be 1-200 characters" body.title).1
          (Raw.optionalField 50000 "Content must be 1-50000 characters" body.content).1
          (env.toISOString (env.clock 0))) i s.NOTES := by
  unfold Raw.updateNote
  cases hauth : Raw.authenticateJWT env s authorization with
  | error r => exact Or.inl rfl
  | ok p =>
    obtain ⟨user, tenant⟩ := p
    dsimp only
    split
    · exact Or.inl rfl
    · rename_i herr
      rw [not_not, List.append_eq_nil, List.append_eq_nil] at herr
      split
      · exact Or.inl rfl
      · rename_i i hi
        split
        · exact Or.inl rfl
        · exact Or.inr ⟨i, herr.1.2, herr.2, rfl⟩

theorem raw_deleteNote_notes (env : Env) (s : Raw.Store) (authorization : Option String)
    (id : String) :
    (Raw.deleteNote env s authorization id).2 = s ∨
    ∃ i, (Raw.deleteNote env s authorization id).2.NOTES = s.NOTES.eraseIdx i := by
  unfold Raw.deleteNote
  cases hauth : Raw.authenticateJWT env s authorization with
  | error r => exact Or.inl rfl
  | ok p =>
    obtain ⟨user, tenant⟩ := p
    dsimp only
    split
    · exact Or.inl rfl
    · split
      · exact Or.inl rfl
      · rename_i i _
        exact Or.inr ⟨i, rfl⟩

theorem storedValue_of_valid (max : Nat) (f : FieldValue)
    (h : ∀ t ∈ Raw.values (Raw.trimField f), 1 ≤ validatorLength t ∧ validatorLength t ≤ max) :
    Raw.StoredValue max (sanitizeInputValue (Raw.trimField f)) := by
  cases f with
  | string u => exact ⟨u, rfl, h (trim u) (List.mem_singleton.mpr rfl)⟩
  | other us => exact ⟨us, rfl, h⟩

theorem storedValue_required (max : Nat) (message : String) (v : Option FieldValue)
    (h : (Raw.requiredField max message v).2 = []) :
    Raw.StoredValue max (sanitizeInputValue (Raw.requiredField max message v).1) :=
  storedValue_of_valid max _ ((raw_lengthErrors_eq_nil_iff max message _).mp h)

theorem storedValue_optional (max : Nat) (message : String) (v : Option FieldValue)
    (old : FieldValue) (h : (Raw.optionalField max message v).2 = [])
    (hold : Raw.StoredValue max old) :
    Raw.StoredValue max
      (((Raw.optionalField max message v).1.map sanitizeInputValue).getD old) := by
  cases v with
  | none => exact hold
  | some f => exact storedValue_of_valid max _ ((raw_lengthErrors_eq_nil_iff max message _).mp h)

theorem storedValue_self (max : Nat) (x : String) (hs : ∀ c ∈ x.data, c ∉ specialChars)
    (ht : trim x = x) (h1 : 1 ≤ validatorLength x) (h2 : validatorLength x ≤ max) :
    Raw.StoredValue max (JsValue.string x) :=
  ⟨x, by rw [ht]; exact (sanitizeInput_of_no_special x hs).symm, by rw [ht]; exact h1,
    by rw [ht]; exact h2⟩

theorem storedValue_handle (env : Env) (s : Raw.Store) (req : Raw.Request)
    (h : ∀ n ∈ s.NOTES, Raw.StoredValue 200 n.title ∧ Raw.StoredValue 50000 n.content) :
    ∀ n ∈ (Raw.handle env s req).2.NOTES,
      Raw.StoredValue 200 n.title ∧ Raw.StoredValue 50000 n.content := by
  intro n hn
  cases req with
  | login email password => exact h n hn
  | getNotes a =>
    simp only [Raw.handle, raw_getNotes_store] at hn
    exact h n hn
  | getNote a id =>
    simp only [Raw.handle, raw_getNote_store] at hn
    exact h n hn
  | createNote a body =>
    simp only [Raw.handle] at hn
    rcases raw_createNote_cases env s a body with h1 | ⟨user, tenant, _, ht, hc, h1⟩
    · rw [h1] at hn
      exact h n hn
    · rw [h1] at hn
      simp only [List.mem_append, List.mem_singleton] at hn
      rcases hn with hn | rfl
      · exact h n hn
      · exact ⟨storedValue_required 200 _ _ ht, storedValue_required 50000 _ _ hc⟩
  | updateNote a id body =>
    simp only [Raw.handle] at hn
    rcases raw_updateNote_cases env s a id body with h1 | ⟨i, ht, hc, h1⟩
    · rw [h1] at hn
      exact h n hn
    · rw [h1] at hn
      rcases mem_modifyAt _ i s.NOTES n hn with hmem | ⟨y, hy, rfl⟩
      · exact h n hmem
      · exact ⟨storedValue_optional 200 _ body.title y.title ht (h y hy).1,
          storedValue_optional 50000 _ body.content y.content hc (h y hy).2⟩
  | deleteNote a id =>
    simp only [Raw.handle] at hn
    rcases raw_deleteNote_notes env s a id with h1 | ⟨i, h1⟩
    · rw [h1] at hn
      exact h n hn
    · rw [h1] at hn
      exact h n (List.mem_of_mem_eraseIdx hn)
  | upgradeTenant a slug => exact h n hn

theorem storedValue_of_reachable (s : Raw.Store) (h : Raw.Reachable s) :
    ∀ n ∈ s.NOTES, Raw.StoredValue 200 n.title ∧ Raw.StoredValue 50000 n.content := by
  induction h with
  | seed =>
    intro n hn
    simp only [Raw.seedStore, Raw.ofStore, seedStore, seedNotes, List.map_cons, List.map_nil,
      List.mem_cons, List.mem_singleton, List.not_mem_nil, or_false] at hn
    rcases hn with rfl | rfl
    · exact ⟨storedValue_self 200 _ (by decide) (by rfl) (by decide) (by decide),
        storedValue_self 50000 _ (by decide) (by rfl) (by decide) (by decide)⟩
    · exact ⟨storedValue_self 200 _ (by decide) (by rfl) (by decide) (by decide),
        storedValue_self 50000 _ (by decide) (by rfl) (by decide) (by decide)⟩
  | step env req _ ih => exact storedValue_handle env _ req ih

theorem storedValue_string (max : Nat) (x : String) (h : Raw.StoredValue max (JsValue.string x)) :
    1 ≤ x.length ∧ 1 ≤ validatorLength x ∧ validatorLength x ≤ 6 * max := by
  obtain ⟨u, rfl, h1, h2⟩ := h
  have hs := validatorLength_sanitizeInput (trim u)
  have hl := validatorLength_le_length (sanitizeInput (trim u))
  omega

/-! ## Stored titles and contents -/

set_option maxRecDepth 200000 in
/-- C13 (as stated, refuted): from the seed state `user@acme.test` posts a note
whose title is 41 ampersands; it passes validation and the reachable store
then holds a note whose title is the 205 characters of 41 times `&amp;`.  A
title of 200 times backslash and U+FE0F, 400 characters of which `isLength`
counts 200, is stored with 1400 characters.  A title that is the JSON array
of the one string `<b>` is stored as that array, not escaped, and a title that
is the empty array is stored as the empty array. -/
theorem stored_title_exceeds_200 :
    Raw.Reachable (Raw.titleStore (JsValue.string Raw.ampersandTitle)) ∧
    (Raw.titleStore (JsValue.string Raw.ampersandTitle)).NOTES[2]?
      = some (Raw.titleNote (JsValue.string (sanitizeInput Raw.ampersandTitle))) ∧
    (sanitizeInput Raw.ampersandTitle).length = 205 ∧
    Raw.selectorTitle.length = 400 ∧
    (Raw.titleStore (JsValue.string Raw.selectorTitle)).NOTES[2]?
      = some (Raw.titleNote (JsValue.string (sanitizeInput Raw.selectorTitle))) ∧
    (sanitizeInput Raw.selectorTitle).length = 1400 ∧
    (Raw.titleStore (JsValue.other ["<b>"])).NOTES[2]?
      = some (Raw.titleNote (JsValue.other ["<b>"])) ∧
    (Raw.titleStore (JsValue.other [])).NOTES[2]? = some (Raw.titleNote (JsValue.other [])) :=
  ⟨Raw.Reachable.step demoEnv _ Raw.Reachable.seed, by rfl, by rfl, by rfl, by rfl, by rfl,
    by rfl, by rfl⟩

/-- C13 (amended): in every state reachable from the server's seed state,
every stored title and content is what the validation chain left in the body,
passed through `sanitizeInput`.  A stored string is `sanitizeInput` of a text
whose length as `isLength` counts it (code points other than the variation
selectors U+FE0E and U+FE0F) is between 1 and 200 for a title and between 1
and 50000 for a content; it is therefore non-empty, and its counted length is
at most 1200 for a title and 300000 for a content.  A title or content that
arrived as a JSON array is stored as the array of its trimmed elements, not
escaped, each element of counted length 1 to 200, or 1 to 50000. -/
theorem stored_notes_bounded (s : Raw.Store) (n : Raw.Note) (h : Raw.Reachable s)
    (hn : n ∈ s.NOTES) :
    Raw.StoredValue 200 n.title ∧ Raw.StoredValue 50000 n.content ∧
    (∀ x : String, n.title = JsValue.string x →
      1 ≤ x.length ∧ 1 ≤ validatorLength x ∧ validatorLength x ≤ 1200) ∧
    (∀ x : String, n.content = JsValue.string x →
      1 ≤ x.length ∧ 1 ≤ validatorLength x ∧ validatorLength x ≤ 300000) := by
  obtain ⟨h1, h2⟩ := storedValue_of_reachable s h n hn
  refine ⟨h1, h2, ?_, ?_⟩
  · intro x hx
    rw [hx] at h1
    exact storedValue_string 200 x h1
  · intro x hx
    rw [hx] at h2
    exact storedValue_string 50000 x h2

set_option maxRecDepth 200000 in
/-- Witness for C13 (amended): the note with the 41 ampersands in the store
that holds it. -/
theorem stored_notes_bounded_witness :
    1 ≤ (sanitizeInput Raw.ampersandTitle).length ∧
    1 ≤ validatorLength (sanitizeInput Raw.ampersandTitle) ∧
    validatorLength (sanitizeInput Raw.ampersandTitle) ≤ 1200 :=
  (stored_notes_bounded (Raw.titleStore (JsValue.string Raw.ampersandTitle))
    (Raw.titleNote (JsValue.string (sanitizeInput Raw.ampersandTitle)))
    (Raw.Reachable.step demoEnv _ Raw.Reachable.seed)
    (List.getElem?_mem
      (by rfl : (Raw.titleStore (JsValue.string Raw.ampersandTitle)).NOTES[2]?
        = some (Raw.titleNote (JsValue.string (sanitizeInput Raw.ampersandTitle)))))).2.2.1
    (sanitizeInput Raw.ampersandTitle) rfl

/-! ## Validation at creation, for any body -/

theorem raw_createNote_error_iff (env : Env) (s : Raw.Store) (authorization : Option String)
    (user : User) (tenant : Tenant) (body : Raw.NoteBody)
    (hauth : Raw.authenticateJWT env s authorization = .ok (user, tenant)) :
    (Raw.createNote env s authorization body).1.error = some "VALIDATION_ERROR" ↔
      (Raw.requiredField 200 "Title is required and must be 1-200 characters" body.title).2 ++
        (Raw.requiredField 50000 "Content is required and must be 1-50000 characters"
          body.content).2 ≠ [] := by
  simp only [Raw.createNote, hauth]
  split
  · rename_i herr
    exact ⟨fun _ => herr, fun _ => rfl⟩
  · rename_i herr
    split
    · exact ⟨fun h => absurd h (by simp [Raw.ofResponse, Server.noteLimitExceeded]),
        fun h => absurd h herr⟩
    · exact ⟨fun h => absurd h (by simp), fun h => absurd h herr⟩

theorem raw_createNote_invalid (env : Env) (s : Raw.Store) (authorization : Option String)
    (user : User) (tenant : Tenant) (body : Raw.NoteBody)
    (hauth : Raw.authenticateJWT env s authorization = .ok (user, tenant))
    (h : (Raw.requiredField 200 "Title is required and must be 1-200 characters" body.title).2 ++
        (Raw.requiredField 50000 "Content is required and must be 1-50000 characters"
          body.content).2 ≠ []) :
    Raw.createNote env s authorization body =
      (Raw.ofResponse (validationError "Invalid input data"
        ((Raw.requiredField 200 "Title is required and must be 1-200 characters" body.title).2 ++
          (Raw.requiredField 50000 "Content is required and must be 1-50000 characters"
            body.content).2)), s) := by
  simp only [Raw.createNote, hauth]
  rw [if_pos h]

set_option maxRecDepth 200000 in
/-- C14 (as stated, refuted): `user@acme.test` posts, in the seed state, a note
whose title is 100 times `a` followed by U+FE0F, and one more `a`.  Trimming
leaves the title as it is, with its 201 characters; the answer is 201 Created
and no `VALIDATION_ERROR`. -/
theorem long_title_accepted :
    trim Raw.longSelectorTitle = Raw.longSelectorTitle ∧
    (trim Raw.longSelectorTitle).length = 201 ∧
    validatorLength (trim Raw.longSelectorTitle) = 101 ∧
    (Raw.createNote demoEnv Raw.seedStore (some "Bearer user_member_acme")
        (Raw.titleBody (JsValue.string Raw.longSelectorTitle))).1.status = 201 ∧
    (Raw.createNote demoEnv Raw.seedStore (some "Bearer user_member_acme")
        (Raw.titleBody (JsValue.string Raw.longSelectorTitle))).1.error = none :=
  ⟨by rfl, by rfl, by rfl, by rfl, by rfl⟩

/-- C14 (amended): for an authenticated principal, `POST /notes` answers
`VALIDATION_ERROR` exactly when some value of the trimmed title has counted
length 0 or more than 200, or some value of the trimmed content has counted
length 0 or more than 50000.  The values of a field are the field itself
(a missing field counting as the empty string) or, when it is a JSON array,
its elements; the counted length of a text is the number of its code points
other than the variation selectors U+FE0E and U+FE0F.  Whenever the answer is
`VALIDATION_ERROR` it is a 400, the store is unchanged, and the plan limit is
not reported, whatever the tenant's plan and note count. -/
theorem create_validation_error_iff (env : Env) (s : Raw.Store)
    (authorization : Option String) (user : User) (tenant : Tenant) (body : Raw.NoteBody)
    (hauth : Raw.authenticateJWT env s authorization = .ok (user, tenant)) :
    ((Raw.createNote env s authorization body).1.error = some "VALIDATION_ERROR" ↔
      ((∃ t ∈ Raw.values (Raw.trimField (body.title.getD (JsValue.string ""))),
          validatorLength t = 0 ∨ validatorLength t > 200) ∨
       (∃ t ∈ Raw.values (Raw.trimField (body.content.getD (JsValue.string ""))),
          validatorLength t = 0 ∨ validatorLength t > 50000))) ∧
    ((Raw.createNote env s authorization body).1.error = some "VALIDATION_ERROR" →
      (Raw.createNote env s authorization body).1.status = 400 ∧
      (Raw.createNote env s authorization body).2 = s ∧
      (Raw.createNote env s authorization body).1.error ≠ some "NOTE_LIMIT_EXCEEDED") := by
  have key := raw_createNote_error_iff env s authorization user tenant body hauth
  constructor
  · rw [key, Ne, List.append_eq_nil, not_and_or]
    have ht := raw_lengthErrors_ne_nil_iff 200 "Title is required and must be 1-200 characters"
      (Raw.trimField (body.title.getD (JsValue.string "")))
    have hc := raw_lengthErrors_ne_nil_iff 50000
      "Content is required and must be 1-50000 characters"
      (Raw.trimField (body.content.getD (JsValue.string "")))
    exact or_congr ht hc
  · intro herr
    rw [raw_createNote_invalid env s authorization user tenant body hauth (key.mp herr)]
    exact ⟨rfl, rfl, by simp [Raw.ofResponse, validationError]⟩

/-- Witness for C14 (amended): `user@acme.test` posts a blank title when `acme`
already holds its three notes; the answer is the validation error, not the
limit. -/
theorem create_validation_error_iff_witness :
    (Raw.createNote demoEnv (Raw.ofStore acmeFullStore) (some "Bearer user_member_acme")
        { title := some (JsValue.string "   "), content := some (JsValue.string "Ship it"),
          extra := [] }).1.status = 400 ∧
    (Raw.createNote demoEnv (Raw.ofStore acmeFullStore) (some "Bearer user_member_acme")
        { title := some (JsValue.string "   "), content := some (JsValue.string "Ship it"),
          extra := [] }).2 = Raw.ofStore acmeFullStore ∧
    (Raw.createNote demoEnv (Raw.ofStore acmeFullStore) (some "Bearer user_member_acme")
        { title := some (JsValue.string "   "), content := some (JsValue.string "Ship it"),
          extra := [] }).1.error ≠ some "NOTE_LIMIT_EXCEEDED" :=
  (create_validation_error_iff demoEnv (Raw.ofStore acmeFullStore)
    (some "Bearer user_member_acme") memberAcme acmeTenant
    { title := some (JsValue.string "   "), content := some (JsValue.string "Ship it"),
      extra := [] } rfl).2 rfl

/-! ## The two embeddings agree on bodies whose fields are strings -/

theorem findIndex_map {α β : Type} (f : α → β) (p : β → Bool) (l : List α) :
    findIndex p (l.map f) = findIndex (fun x => p (f x)) l := by
  induction l with
  | nil => rfl
  | cons a l ih => simp only [List.map_cons, findIndex, ih]

theorem modifyAt_map {α β : Type} (f : α → β) (g : β → β) (k : α → α)
    (h : ∀ x, g (f x) = f (k x)) (i : Nat) (l : List α) :
    modifyAt g i (l.map f) = (modifyAt k i l).map f := by
  induction l generalizing i with
  | nil => cases i <;> rfl
  | cons a l ih => cases i with
    | zero => simp [modifyAt, h]
    | succ i => simp [modifyAt, ih]

theorem eraseIdx_map {α β : Type} (f : α → β) (i : Nat) (l : List α) :
    (l.map f).eraseIdx i = (l.eraseIdx i).map f := by
  induction l generalizing i with
  | nil => rfl
  | cons a l ih => cases i with
    | zero => rfl
    | succ i => simp [List.eraseIdx_cons_succ, ih]

theorem collectErrors_two (b1 b2 : Bool) (m1 m2 : String) :
    collectErrors [(b1, m1), (b2, m2)]
      = (if b1 = true then [] else [m1]) ++ (if b2 = true then [] else [m2]) := by
  cases b1 <;> cases b2 <;> rfl

theorem collectErrors_three (b0 b1 b2 : Bool) (m0 m1 m2 : String) :
    collectErrors [(b0, m0), (b1, m1), (b2, m2)]
      = collectErrors [(b0, m0)] ++ (if b1 = true then [] else [m1])
          ++ (if b2 = true then [] else [m2]) := by
  cases b0 <;> cases b1 <;> cases b2 <;> rfl

theorem raw_requiredField_ofBody (max : Nat) (message : String) (v : Option String) :
    Raw.requiredField max message (v.map JsValue.string) =
      (JsValue.string (requiredField max v).1,
       if (requiredField max v).2 = true then [] else [message]) := by
  cases v <;>
    simp only [Raw.requiredField, requiredField, Raw.lengthErrors, Raw.values, Raw.trimField,
      Option.map, Option.getD] <;>
    split <;> simp_all

theorem raw_optionalField_ofBody (max : Nat) (message : String) (v : Option String) :
    Raw.optionalField max message (v.map JsValue.string) =
      ((optionalField max v).1.map JsValue.string,
       if (optionalField max v).2 = true then [] else [message]) := by
  cases v with
  | none => rfl
  | some x =>
    simp only [Raw.optionalField, optionalField, Raw.lengthErrors, Raw.values, Raw.trimField,
      Option.map]
    split <;> simp_all

theorem raw_authenticateJWT_ofStore (env : Env) (s : Store) (a : Option String) :
    Raw.authenticateJWT env (Raw.ofStore s) a =
      (match Server.authenticateJWT env s a with
       | .error r => .error (Raw.ofResponse r)
       | .ok p => .ok p) := rfl

theorem raw_filter_ofNote (slug : String) (l : List Note) :
    (l.map Raw.ofNote).filter (fun note => note.tenant == slug)
      = (l.filter (fun note => note.tenant == slug)).map Raw.ofNote := by
  rw [List.filter_map]
  rfl

theorem raw_getNotes_ofStore (env : Env) (s : Store) (a : Option String) :
    Raw.getNotes env (Raw.ofStore s) a =
      (Raw.ofResponse (Server.getNotes env s a).1, Raw.ofStore (Server.getNotes env s a).2) := by
  unfold Raw.getNotes Server.getNotes
  rw [raw_authenticateJWT_ofStore]
  cases Server.authenticateJWT env s a with
  | error r => rfl
  | ok p =>
    obtain ⟨user, tenant⟩ := p
    simp only [Raw.ofStore, raw_filter_ofNote, List.length_map]
    rfl

theorem raw_find_ofNote (id slug : String) (l : List Note) :
    (l.map Raw.ofNote).find? (fun n => n.id == id && n.tenant == slug)
      = (l.find? (fun n => n.id == id && n.tenant == slug)).map Raw.ofNote := by
  rw [List.find?_map]
  rfl

theorem raw_findIndex_ofNote (id slug : String) (l : List Note) :
    findIndex (fun n : Raw.Note => n.id == id && n.tenant == slug) (l.map Raw.ofNote)
      = findIndex (fun n : Note => n.id == id && n.tenant == slug) l := by
  rw [findIndex_map]
  rfl

theorem raw_getNote_ofStore (env : Env) (s : Store) (a : Option String) (id : String) :
    Raw.getNote env (Raw.ofStore s) a id =
      (Raw.ofResponse (Server.getNote env s a id).1,
       Raw.ofStore (Server.getNote env s a id).2) := by
  unfold Raw.getNote Server.getNote
  rw [raw_authenticateJWT_ofStore]
  cases Server.authenticateJWT env s a with
  | error r => rfl
  | ok p =>
    obtain ⟨user, tenant⟩ := p
    dsimp only
    by_cases herr : collectErrors [(notEmpty id, "Note ID is required")] ≠ []
    · rw [if_pos herr, if_pos herr]
    · rw [if_neg herr, if_neg herr]
      have hfind : (Raw.ofStore s).NOTES.find? (fun n => n.id == id && n.tenant == tenant.slug)
          = (s.NOTES.find? (fun n => n.id == id && n.tenant == tenant.slug)).map Raw.ofNote :=
        raw_find_ofNote id tenant.slug s.NOTES
      rw [hfind]
      cases s.NOTES.find? (fun n => n.id == id && n.tenant == tenant.slug) with
      | none => rfl
      | some note => rfl

theorem raw_createNote_ofBody (env : Env) (s : Store) (a : Option String) (b : NoteBody) :
    Raw.createNote env (Raw.ofStore s) a (Raw.ofBody b) =
      (Raw.ofResponse (Server.createNote env s a b).1,
       Raw.ofStore (Server.createNote env s a b).2) := by
  unfold Raw.createNote Server.createNote
  rw [raw_authenticateJWT_ofStore]
  cases Server.authenticateJWT env s a with
  | error r => rfl
  | ok p =>
    obtain ⟨user, tenant⟩ := p
    have hfilter : (Raw.ofStore s).NOTES.filter (fun note => note.tenant == tenant.slug)
        = (s.NOTES.filter (fun note => note.tenant == tenant.slug)).map Raw.ofNote :=
      raw_filter_ofNote tenant.slug s.NOTES
    simp only [Raw.ofBody, raw_requiredField_ofBody, collectErrors_two, hfilter, List.length_map]
    generalize ((if (requiredField 200 b.title).2 = true then []
        else ["Title is required and must be 1-200 characters"]) ++
      (if (requiredField 50000 b.content).2 = true then []
        else ["Content is required and must be 1-50000 characters"])) = errors
    by_cases herr : errors ≠ []
    · simp only [if_pos herr]
    · simp only [if_neg herr]
      by_cases hlim : tenant.plan = "free" ∧ tenant.noteLimit ≠ -1 ∧
          ((s.NOTES.filter (fun note => note.tenant == tenant.slug)).length : Int)
            ≥ tenant.noteLimit
      · simp only [if_pos hlim]
      · simp only [if_neg hlim]
        simp only [Raw.ofStore, List.map_append, List.map_cons, List.map_nil]
        rfl

theorem raw_applyUpdate_ofNote (title content : Option String) (updatedAt : String) (n : Note) :
    Raw.applyUpdate (title.map JsValue.string) (content.map JsValue.string) updatedAt
        (Raw.ofNote n)
      = Raw.ofNote (Server.applyUpdate title content updatedAt n) := by
  cases title <;> cases content <;> rfl

theorem raw_updateNote_ofBody (env : Env) (s : Store) (a : Option String) (id : String)
    (b : NoteBody) :
    Raw.updateNote env (Raw.ofStore s) a id (Raw.ofBody b) =
      (Raw.ofResponse (Server.updateNote env s a id b).1,
       Raw.ofStore (Server.updateNote env s a id b).2) := by
  unfold Raw.updateNote Server.updateNote
  rw [raw_authenticateJWT_ofStore]
  cases Server.authenticateJWT env s a with
  | error r => rfl
  | ok p =>
    obtain ⟨user, tenant⟩ := p
    have hidx : findIndex (fun n : Raw.Note => n.id == id && n.tenant == tenant.slug)
          (Raw.ofStore s).NOTES
        = findIndex (fun n : Note => n.id == id && n.tenant == tenant.slug) s.NOTES :=
      raw_findIndex_ofNote id tenant.slug s.NOTES
    simp only [Raw.ofBody, raw_optionalField_ofBody, collectErrors_three, hidx]
    generalize (collectErrors [(notEmpty id, "Note ID is required")] ++
      (if (optionalField 200 b.title).2 = true then [] else ["Title must be 1-200 characters"]) ++
      (if (optionalField 50000 b.content).2 = true then []
        else ["Content must be 1-50000 characters"])) = errors
    by_cases herr : errors ≠ []
    · simp only [if_pos herr]
    · simp only [if_neg herr]
      cases hi : findIndex (fun n : Note => n.id == id && n.tenant == tenant.slug) s.NOTES with
      | none => rfl
      | some i =>
        have hmod : modifyAt (Raw.applyUpdate ((optionalField 200 b.title).1.map JsValue.string)
              ((optionalField 50000 b.content).1.map JsValue.string)
              (env.toISOString (env.clock 0))) i (Raw.ofStore s).NOTES
            = (modifyAt (Server.applyUpdate (optionalField 200 b.title).1
                (optionalField 50000 b.content).1 (env.toISOString (env.clock 0))) i
                s.NOTES).map Raw.ofNote :=
          modifyAt_map Raw.ofNote _ _ (raw_applyUpdate_ofNote _ _ _) i s.NOTES
        simp only [hmod, List.getElem?_map]
        cases (modifyAt (Server.applyUpdate (optionalField 200 b.title).1
            (optionalField 50000 b.content).1 (env.toISOString (env.clock 0))) i s.NOTES)[i]? with
        | none => rfl
        | some note => rfl

theorem raw_deleteNote_ofStore (env : Env) (s : Store) (a : Option String) (id : String) :
    Raw.deleteNote env (Raw.ofStore s) a id =
      (Raw.ofResponse (Server.deleteNote env s a id).1,
       Raw.ofStore (Server.deleteNote env s a id).2) := by
  unfold Raw.deleteNote Server.deleteNote
  rw [raw_authenticateJWT_ofStore]
  cases Server.authenticateJWT env s a with
  | error r => rfl
  | ok p =>
    obtain ⟨user, tenant⟩ := p
    have hidx : findIndex (fun n : Raw.Note => n.id == id && n.tenant == tenant.slug)
          (Raw.ofStore s).NOTES
        = findIndex (fun n : Note => n.id == id && n.tenant == tenant.slug) s.NOTES :=
      raw_findIndex_ofNote id tenant.slug s.NOTES
    simp only [hidx]
    by_cases herr : collectErrors [(notEmpty id, "Note ID is required")] ≠ []
    · simp only [if_pos herr]
    · simp only [if_neg herr]
      cases hi : findIndex (fun n : Note => n.id == id && n.tenant == tenant.slug) s.NOTES with
      | none => rfl
      | some i =>
        simp only [Raw.ofStore, eraseIdx_map]
        rfl

theorem login_reads_principals (env : Env) (s t : Store) (email password : Option String)
    (hU : s.USERS = t.USERS) (hT : s.TENANTS = t.TENANTS) :
    (Server.login env s email password).1 = (Server.login env t email password).1 ∧
    (Server.login env s email password).2.USERS = (Server.login env t email password).2.USERS := by
  unfold Server.login
  rw [hU, hT]
  dsimp only
  repeat' (first | exact ⟨rfl, rfl⟩ | exact ⟨rfl, hU⟩ | split)

theorem upgradeTenant_reads_principals (env : Env) (s t : Store) (a : Option String)
    (slug : String) (hU : s.USERS = t.USERS) (hT : s.TENANTS = t.TENANTS) :
    (Server.upgradeTenant env s a slug).1 = (Server.upgradeTenant env t a slug).1 ∧
    (Server.upgradeTenant env s a slug).2.TENANTS
      = (Server.upgradeTenant env t a slug).2.TENANTS := by
  have hauth : Server.authenticateJWT env s a = Server.authenticateJWT env t a := by
    unfold Server.authenticateJWT
    rw [hU, hT]
  unfold Server.upgradeTenant
  rw [hauth, hT]
  dsimp only
  repeat' (first | exact ⟨rfl, rfl⟩ | exact ⟨rfl, hT⟩ | split)

theorem upgradeTenant_users_notes (env : Env) (s : Store) (a : Option String) (slug : String) :
    (Server.upgradeTenant env s a slug).2.USERS = s.USERS ∧
    (Server.upgradeTenant env s a slug).2.NOTES = s.NOTES := by
  rcases upgradeTenant_shape env s a slug with ⟨_, h⟩ | ⟨_, _, _, _, _, _, h⟩ <;> rw [h] <;>
    exact ⟨rfl, rfl⟩

theorem raw_login_ofStore (env : Env) (s : Store) (email password : Option String) :
    Raw.login env (Raw.ofStore s) email password =
      (Raw.ofResponse (Server.login env s email password).1,
       Raw.ofStore (Server.login env s email password).2) := by
  obtain ⟨h1, h2⟩ := login_reads_principals env (Raw.ofStore s).principals s email password
    rfl rfl
  obtain ⟨h3, h4⟩ := login_store env s email password
  unfold Raw.login
  rw [h1, h2]
  simp only [Raw.ofStore, h3, h4]

theorem raw_upgradeTenant_ofStore (env : Env) (s : Store) (a : Option String) (slug : String) :
    Raw.upgradeTenant env (Raw.ofStore s) a slug =
      (Raw.ofResponse (Server.upgradeTenant env s a slug).1,
       Raw.ofStore (Server.upgradeTenant env s a slug).2) := by
  obtain ⟨h1, h2⟩ := upgradeTenant_reads_principals env (Raw.ofStore s).principals s a slug
    rfl rfl
  obtain ⟨h3, h4⟩ := upgradeTenant_users_notes env s a slug
  unfold Raw.upgradeTenant
  rw [h1, h2]
  simp only [Raw.ofStore, h3, h4]

theorem raw_handle_ofRequest (env : Env) (s : Store) (req : Server.Request) :
    Raw.handle env (Raw.ofStore s) (Raw.ofRequest req) =
      (Raw.ofResponse (Server.handle env s req).1, Raw.ofStore (Server.handle env s req).2) := by
  cases req with
  | login email password => exact raw_login_ofStore env s email password
  | getNotes a => exact raw_getNotes_ofStore env s a
  | getNote a id => exact raw_getNote_ofStore env s a id
  | createNote a body => exact raw_createNote_ofBody env s a body
  | updateNote a id body => exact raw_updateNote_ofBody env s a id body
  | deleteNote a id => exact raw_deleteNote_ofStore env s a id
  | upgradeTenant a slug => exact raw_upgradeTenant_ofStore env s a slug

theorem raw_reachable_ofStore (s : Store) (h : Server.Reachable s) :
    Raw.Reachable (Raw.ofStore s) := by
  induction h with
  | seed => exact Raw.Reachable.seed
  | step env req _ ih =>
    have hstep := Raw.Reachable.step env (Raw.ofRequest req) ih
    rw [raw_handle_ofRequest] at hstep
    exact hstep

end SaasNotes
